import Mathlib

/-!
# Verification of the SimplyBuilder structure-to-DOM compiler and its registries

Shallow embedding of the repository's builder/registry subsystem:

* `src/src/stores/domStore/main.js`      — `DomStore` (ElementRegistry)
* `src/unnamed/part_002`                 — `EventStore` (EventRegistry)
* `src/src/components/core/utils/createElement/buildElement.js` — `BuildElement`
* `src/src/components/core/utils/createElement/main.js`         — `CreateElementFromStruct`

The DOM is modelled as an explicit state: a table of nodes (elements and
shadow roots) addressed by allocation index, plus the two process-wide
registries.  JavaScript objects used as string-keyed maps are modelled as
association lists with JavaScript semantics (assignment overwrites the
existing slot in place, otherwise appends; `delete` removes the slot).
DOM operations in this model do not throw; the `try`/`catch` wrappers of
the source therefore only matter where the guarded code itself can reach
an error state, which is noted at each definition.
-/

namespace SimplyBuilder

/-- Association-list lookup: first slot whose key matches (JavaScript
property read). -/
def lookupA {α β : Type} [DecidableEq α] : List (α × β) → α → Option β
  | [], _ => none
  | (k', v) :: rest, k => if k' = k then some v else lookupA rest k

/-- Association-list write with JavaScript object semantics: overwrite the
existing slot in place, otherwise append a new slot at the end. -/
def setA {α β : Type} [DecidableEq α] : List (α × β) → α → β → List (α × β)
  | [], k, v => [(k, v)]
  | (k', v') :: rest, k, v =>
      if k' = k then (k, v) :: rest else (k', v') :: setA rest k v

/-- Association-list delete (JavaScript `delete obj[k]`). -/
def eraseA {α β : Type} [DecidableEq α] : List (α × β) → α → List (α × β)
  | [], _ => []
  | (k', v') :: rest, k => if k' = k then eraseA rest k else (k', v') :: eraseA rest k

/-- Kind of a node in the modelled render tree: an element proper, or a
shadow root attached to one. -/
inductive NodeKind where
  | element
  | shadowRoot
deriving DecidableEq, Repr

/-- One registered event schema, as pushed by `registerEventStore`:
`{type, handler, nodeId?}`.  Handlers are opaque and identified by number. -/
structure EventSchema where
  type : String
  handler : Nat
  nodeId : Option String
deriving DecidableEq, Repr

/-- The modelled data of one live node.  `attrs` records writes through
`setAttribute`, `attrsNS` records writes through `setAttributeNS`, and
`dataset` records writes through the `dataset` property, so that the two
attribute-setting paths stay observable.  (The live-view identification of
`dataset` with `data-*` attributes is outside the model; see `ValidTree`.) -/
structure ElemData where
  kind : NodeKind
  svgNS : Bool
  tag : String
  attrs : List (String × String)
  attrsNS : List (String × String)
  dataset : List (String × String)
  text : Option String
  htmlRaw : Option String
  listeners : List (String × Nat)
  children : List Nat
  parent : Option Nat
  shadow : Option Nat
deriving DecidableEq, Repr

/-- A fresh element as produced by `document.createElement` /
`document.createElementNS`. -/
def freshElem (svgNS : Bool) (tag : String) : ElemData :=
  { kind := NodeKind.element, svgNS := svgNS, tag := tag, attrs := [], attrsNS := [],
    dataset := [], text := none, htmlRaw := none, listeners := [], children := [],
    parent := none, shadow := none }

/-- Whole-system state: the node table (in allocation order), the allocation
counter, `ElementRefStore` of `DomStore`, and `ActionRefStore` of
`EventStore`.  The `ElementRefStore` object is recorded as its observable
slot table: its own entries plus, under the key `"__proto__"`, an element
installed as the store's prototype (see `addElement`). -/
structure DomState where
  elems : List (Nat × ElemData)
  nextId : Nat
  elementRefStore : List (String × Nat)
  actionRefStore : List (Nat × List EventSchema)
deriving DecidableEq, Repr

/-- Node-table read. -/
def getElem (S : DomState) (e : Nat) : Option ElemData :=
  lookupA S.elems e

/-- Node-table in-place update; no-op when the node does not exist. -/
def updateElem (S : DomState) (e : Nat) (f : ElemData → ElemData) : DomState :=
  match lookupA S.elems e with
  | none => S
  | some d => { S with elems := setA S.elems e (f d) }

/-- Allocate a fresh node. -/
def allocNode (S : DomState) (d : ElemData) : DomState × Nat :=
  ({ S with elems := S.elems ++ [(S.nextId, d)], nextId := S.nextId + 1 }, S.nextId)

/-- `element.remove()`: detach the node from its parent (no-op when it has
none). -/
def domRemove (S : DomState) (e : Nat) : DomState :=
  match getElem S e with
  | none => S
  | some d =>
    match d.parent with
    | none => S
    | some p =>
      let S1 := updateElem S p (fun pd => { pd with children := pd.children.filter (fun c => ¬ c = e) })
      updateElem S1 e (fun ed => { ed with parent := none })

/-- `parent.appendChild(child)`: moves the child under the new parent
(detaching it from any previous parent first, as the DOM does). -/
def appendChild (S : DomState) (p c : Nat) : DomState :=
  let S1 := domRemove S c
  let S2 := updateElem S1 p (fun pd => { pd with children := pd.children ++ [c] })
  updateElem S2 c (fun cd => { cd with parent := some p })

/-- `element.addEventListener(type, handler, false)`: the DOM ignores the
call when an identical (type, handler, capture) listener is already
attached. -/
def domAddListener (S : DomState) (e : Nat) (ty : String) (h : Nat) : DomState :=
  updateElem S e (fun d =>
    if d.listeners.any (fun l => l.1 = ty ∧ l.2 = h) then d
    else { d with listeners := d.listeners ++ [(ty, h)] })

/-- `element.removeEventListener(type, handler, false)`. -/
def domRemoveListener (S : DomState) (e : Nat) (ty : String) (h : Nat) : DomState :=
  updateElem S e (fun d =>
    { d with listeners := d.listeners.filter (fun l => ¬ (l.1 = ty ∧ l.2 = h)) })

/-- `element.attachShadow({mode})`: allocates the shadow root (fresh nodes
never already carry one, which is the only situation the source exercises)
and records it on the host. -/
def attachShadow (S : DomState) (e : Nat) (mode : String) : DomState × Nat :=
  let (S1, sr) := allocNode S
    { kind := NodeKind.shadowRoot, svgNS := false, tag := mode, attrs := [], attrsNS := [],
      dataset := [], text := none, htmlRaw := none, listeners := [], children := [],
      parent := none, shadow := none }
  (updateElem S1 e (fun d => { d with shadow := some sr }), sr)

/-- `el.textContent = s`.  In the source this runs on a just-built, childless
node before any children are appended, so the DOM's child-replacing facet of
`textContent` is invisible; the model records the string. -/
def domSetText (S : DomState) (e : Nat) (s : String) : DomState :=
  updateElem S e (fun d => { d with text := some s })

/-- `el.innerHTML = s`.  Parsing the markup into extra child nodes is outside
the model; the raw string is recorded. -/
def domSetHtml (S : DomState) (e : Nat) (s : String) : DomState :=
  updateElem S e (fun d => { d with htmlRaw := some s })

/-! ## DomStore (`src/src/stores/domStore/main.js`) -/

/-- The property names `{}` inherits from `Object.prototype`.  A
plain-object read of any of these keys with no own slot shadowing them
yields the inherited member — a function, or (behind the `"__proto__"`
accessor) the prototype object itself — never `undefined`. -/
def protoMembers : List String :=
  ["constructor", "hasOwnProperty", "isPrototypeOf", "propertyIsEnumerable",
   "toLocaleString", "toString", "valueOf", "__defineGetter__", "__defineSetter__",
   "__lookupGetter__", "__lookupSetter__", "__proto__"]

/-- What the property read `ElementRefStore[key]` evaluates to:
a stored element; some inherited non-element value (an `Object.prototype`
member, or `Object.prototype` itself behind the `"__proto__"` getter); a
property resolved against an element that a `"__proto__"` write installed
as the store prototype (which JS value results is left unspecified by the
model); or `undefined`. -/
inductive StoreRead where
  | elem (e : Nat)
  | inherited
  | hostProp
  | undef
deriving DecidableEq, Repr

/-- The plain-object property read over the recorded slot table.  A slot
recorded at `"__proto__"` is the element installed as the store prototype
(see [[addElement]]); since the `"__proto__"` getter reads that element
back just as an own slot would, a `lookupA` hit answers the read
uniformly.  On a miss, `"__proto__"` yields `Object.prototype` itself;
when the prototype has been replaced, every other key resolves against
the installed element (`hostProp`); otherwise the `Object.prototype`
members are inherited and everything else is `undefined`. -/
def readStore (m : List (String × Nat)) (key : String) : StoreRead :=
  match lookupA m key with
  | some e => StoreRead.elem e
  | none =>
    if key = "__proto__" then StoreRead.inherited
    else
      match lookupA m "__proto__" with
      | some _ => StoreRead.hostProp
      | none =>
        if protoMembers.contains key then StoreRead.inherited else StoreRead.undef

/-- `DomStore.addElement({key, value})`: `ElementRefStore[key] = value`
when both are truthy (the stored value is always a live element object, so
only the key is tested).  At the key `"__proto__"` the assignment invokes
the inherited `Object.prototype` setter and installs the element as the
store's prototype instead of creating an own slot; the key reads back as
the element either way, so both writes land in the same slot table — the
difference surfaces in `delete` ([[removeElementRefOnly]] cannot remove
the `"__proto__"` mapping) and in reads of other absent keys
([[readStore]]). -/
def addElement (S : DomState) (key : String) (value : Nat) : DomState :=
  if key ≠ "" then
    { S with elementRefStore := setA S.elementRefStore key value }
  else S

/-- `DomStore.getElement(key)`: for a truthy key the raw property read
`ElementRefStore[key]`, prototype chain included; a falsy key returns
`undefined`. -/
def getElementRead (S : DomState) (key : String) : StoreRead :=
  if key ≠ "" then readStore S.elementRefStore key else StoreRead.undef

/-- The element view of [[getElementRead]]: the element `getElement` hands
back when the read yields one, and `none` otherwise.  The call sites that
consume the result as an element — the shadow-boundary replacement and
full-mode removal — fault on a non-element read inside their `try` blocks,
which this view folds into `none` ([[getElement_eq_read]]). -/
def getElement (S : DomState) (key : String) : Option Nat :=
  if key ≠ "" then lookupA S.elementRefStore key else none

/-- Mode-2 body of `DomStore.removeElement`: `delete ElementRefStore[key]`.
`delete` removes an own slot only; the `"__proto__"` mapping lives on the
store's prototype (see [[addElement]]), so there the delete is a no-op and
the mapping survives.  Shared with `removeFromDomStore`, which invokes
`removeElement(key, 2)`. -/
def removeElementRefOnly (S : DomState) (key : String) : DomState :=
  if key = "__proto__" then S
  else { S with elementRefStore := eraseA S.elementRefStore key }

/-! ## EventStore (`src/unnamed/part_002`) -/

/-- `EventStore.registerEventStore({element, type, handler, nodeId?})`.
The element and handler arguments are live objects (truthy) wherever the
source calls this, so the remaining guard is on `type`.  The schema is
pushed onto the element's (lazily created) list and the listener attached
non-capturing. -/
def registerEventStore (S : DomState) (element : Nat) (ty : String) (handler : Nat)
    (nodeId : Option String) : DomState :=
  if ty ≠ "" then
    let entry := (lookupA S.actionRefStore element).getD []
    let S1 := { S with
      actionRefStore := setA S.actionRefStore element (entry ++ [EventSchema.mk ty handler nodeId]) }
    domAddListener S1 element ty handler
  else S

/-- `EventStore.removeFromDomStore(element)`: removes the element's
`"state"` key from `DomStore` (reference-only, i.e. `removeElement(·, 2)`)
when the tag is truthy, then removes the element from the render tree.
For a dangling reference the source's destructuring throws and is caught,
leaving the state unchanged. -/
def removeFromDomStore (S : DomState) (e : Nat) : DomState :=
  match getElem S e with
  | none => S
  | some d =>
    let S1 :=
      match lookupA d.dataset "state" with
      | some st => if st ≠ "" then removeElementRefOnly S st else S
      | none => S
    domRemove S1 e

/-- `EventStore.removeEventStore(element)`: when the element has a
registered-events entry with at least one item, detach every listener in
reverse registration order and delete the entry (the deletion fires at loop
index 0); then always fall through to `removeFromDomStore`. -/
def removeEventStore (S : DomState) (e : Nat) : DomState :=
  let S1 :=
    match lookupA S.actionRefStore e with
    | none => S
    | some eventList =>
      if 1 ≤ eventList.length then
        let S' := eventList.foldr
          (fun item acc => domRemoveListener acc e item.type item.handler) S
        { S' with actionRefStore := eraseA S'.actionRefStore e }
      else S
  removeFromDomStore S1 e

/-- `DomStore.removeElement(key, mode)`: mode 1 cascades into
`EventStore.removeEventStore` on the currently stored element, mode 2
deletes only the registry slot; other modes and falsy keys are no-ops.
When mode 1 finds no stored element, `removeEventStore(undefined)` faults
inside its guarded block and is caught, so nothing changes. -/
def removeElement (S : DomState) (key : String) (mode : Nat) : DomState :=
  if key ≠ "" ∧ (mode = 1 ∨ mode = 2) then
    if mode = 1 then
      match lookupA S.elementRefStore key with
      | some e => removeEventStore S e
      | none => S
    else removeElementRefOnly S key
  else S

/-! ## BuildElement (`src/src/components/core/utils/createElement/buildElement.js`) -/

/-- `setAttr(element, attrs)`: walks the array from its last slot down to
index 0, setting each truthy-named attribute through `setAttribute`. -/
def setAttr (S : DomState) (e : Nat) (attrs : List (String × String)) : DomState :=
  attrs.foldr
    (fun item acc =>
      if item.1 ≠ "" then
        updateElem acc e (fun d => { d with attrs := setA d.attrs item.1 item.2 })
      else acc) S

/-- `setAttrNS(element, attrs)`: same walk through `setAttributeNS`. -/
def setAttrNS (S : DomState) (e : Nat) (attrs : List (String × String)) : DomState :=
  attrs.foldr
    (fun item acc =>
      if item.1 ≠ "" then
        updateElem acc e (fun d => { d with attrsNS := setA d.attrsNS item.1 item.2 })
      else acc) S

/-- `setData(element, datasets)`: same walk through the `dataset` property;
a tag named `"state"` is additionally registered into `DomStore` under the
tag's value. -/
def setData (S : DomState) (e : Nat) (datasets : List (String × String)) : DomState :=
  datasets.foldr
    (fun item acc =>
      if item.1 ≠ "" then
        let acc1 := updateElem acc e (fun d => { d with dataset := setA d.dataset item.1 item.2 })
        if item.1 = "state" then addElement acc1 item.2 e else acc1
      else acc) S

/-- The `element` record handed to the builders by `createFromStruct`. -/
structure BuildData where
  type : String
  attr : List (String × String)
  attrNS : List (String × String)
  dataset : List (String × String)
deriving DecidableEq, Repr

/-- `createElementNS(data)`: a namespaced (SVG) element with plain
attributes, namespaced attributes and dataset applied in that order.  No
modelled operation throws, so the source's caught-error branch (which
returns `undefined`) is unreachable and dropped. -/
def createElementNS (S : DomState) (data : BuildData) : DomState × Nat :=
  let (S1, element) := allocNode S (freshElem true data.type)
  let S2 := if data.attr.length ≠ 0 then setAttr S1 element data.attr else S1
  let S3 := if data.attrNS.length ≠ 0 then setAttrNS S2 element data.attrNS else S2
  let S4 := if data.dataset.length ≠ 0 then setData S3 element data.dataset else S3
  (S4, element)

/-- `buildElement(data)`: a standard element with plain attributes and
dataset applied (the `attrNS` field is not consulted).  As above, the
caught-error branch is unreachable and dropped. -/
def buildElement (S : DomState) (data : BuildData) : DomState × Nat :=
  let (S1, element) := allocNode S (freshElem false data.type)
  let S2 := if data.attr.length ≠ 0 then setAttr S1 element data.attr else S1
  let S3 := if data.dataset.length ≠ 0 then setData S2 element data.dataset else S2
  (S3, element)

/-- The `parent` argument of the attach functions: a live node, a plain
description object, or something falsy. -/
inductive ParentRef where
  | node (id : Nat)
  | descr (data : BuildData)
  | nullRef
deriving DecidableEq, Repr

/-- The argument record of `createHTMLElement` / `createSVGElement`. -/
structure AttachData where
  parent : ParentRef
  shadow : Option String
  element : BuildData
deriving DecidableEq, Repr

/-- `document.body`, pre-existing root container of the initial state. -/
def bodyId : Nat := 0

/-- `createHTMLElement(data)`: build, append to the resolved parent
(`HTMLElement`, `SVGElement` and `ShadowRoot` instances are appended to
directly; other objects are built as elements themselves; otherwise
`document.body`), then, when `shadow` and the built element's
`dataset.state` are both truthy, re-resolve the element from `DomStore`
and replace the result with a freshly attached shadow root.  The `none`
result models the caught throw of `.attachShadow` on an `undefined`
registry lookup. -/
def createHTMLElement (S : DomState) (data : AttachData) : DomState × Option Nat :=
  let (S1, childElement) := buildElement S data.element
  let S2 :=
    match data.parent with
    | ParentRef.node p => appendChild S1 p childElement
    | ParentRef.descr pdata =>
      let (S2a, parentElement) := buildElement S1 pdata
      appendChild S2a parentElement childElement
    | ParentRef.nullRef => appendChild S1 bodyId childElement
  let dState :=
    match getElem S2 childElement with
    | some d => lookupA d.dataset "state"
    | none => none
  match data.shadow, dState with
  | some mode, some stv =>
    if mode ≠ "" ∧ stv ≠ "" then
      match getElement S2 stv with
      | some target =>
        let (S3, sr) := attachShadow S2 target mode
        (S3, some sr)
      | none => (S2, none)
    else (S2, some childElement)
  | some _, none => (S2, some childElement)
  | none, _ => (S2, some childElement)

/-- `createSVGElement(data)`: build namespaced, then append when a truthy
parent resolves.  Only `HTMLElement` and `SVGElement` instances are
appended to directly (no `ShadowRoot`, no `document.body` fallback); any
other object — including a `ShadowRoot` — is destructured as a description,
which yields `undefined` fields, so `createElementNS` stringifies the
missing tag to `"undefined"` and the child is appended to that detached
element. -/
def createSVGElement (S : DomState) (data : AttachData) : DomState × Option Nat :=
  let (S1, childElement) := createElementNS S data.element
  let S2 :=
    match data.parent with
    | ParentRef.node p =>
      match getElem S1 p with
      | some pd =>
        if pd.kind = NodeKind.element then appendChild S1 p childElement
        else
          let (S2a, parentElement) := createElementNS S1 (BuildData.mk "undefined" [] [] [])
          appendChild S2a parentElement childElement
      | none => S1
    | ParentRef.descr pdata =>
      let (S2a, parentElement) := createElementNS S1 pdata
      appendChild S2a parentElement childElement
    | ParentRef.nullRef => S1
  (S2, some childElement)

/-! ## CreateElementFromStruct (`src/src/components/core/utils/createElement/main.js`) -/

/-- The `event` record of a node description. -/
structure EventDesc where
  type : Option String
  action : Option String
  node : Option String
deriving DecidableEq, Repr

mutual
/-- A node description (`struct`).  `children` distinguishes an absent
property from a present (possibly empty) array, since the source tests its
truthiness.  The list of children is a member of this mutual family so that
the compiler below is structurally recursive. -/
inductive Struct where
  | mk (element : Option String) (attr : List (String × String))
       (attrNS : List (String × String)) (dataset : List (String × String))
       (text : Option String) (htmlRaw : Option String) (event : Option EventDesc)
       (children : Children) (shadow : Option String)

/-- The `children` property of a description: absent, or a present array. -/
inductive Children where
  | absent
  | present (items : StructList)

/-- An array of child descriptions. -/
inductive StructList where
  | nil
  | cons (head : Struct) (tail : StructList)
end

def Struct.element : Struct → Option String
  | .mk e _ _ _ _ _ _ _ _ => e

def Struct.attr : Struct → List (String × String)
  | .mk _ a _ _ _ _ _ _ _ => a

def Struct.attrNS : Struct → List (String × String)
  | .mk _ _ a _ _ _ _ _ _ => a

def Struct.dataset : Struct → List (String × String)
  | .mk _ _ _ d _ _ _ _ _ => d

def Struct.text : Struct → Option String
  | .mk _ _ _ _ t _ _ _ _ => t

def Struct.htmlRaw : Struct → Option String
  | .mk _ _ _ _ _ h _ _ _ => h

def Struct.event : Struct → Option EventDesc
  | .mk _ _ _ _ _ _ ev _ _ => ev

def Struct.children : Struct → Children
  | .mk _ _ _ _ _ _ _ c _ => c

def Struct.shadow : Struct → Option String
  | .mk _ _ _ _ _ _ _ _ s => s

/-- `Array.prototype.reverse` on a child array. -/
def reverseSLAux : StructList → StructList → StructList
  | StructList.nil, acc => acc
  | StructList.cons h t, acc => reverseSLAux t (StructList.cons h acc)

def reverseSL (l : StructList) : StructList := reverseSLAux l StructList.nil

def StructList.toList : StructList → List Struct
  | StructList.nil => []
  | StructList.cons h t => h :: t.toList

/-- ASCII lowering of one character, the computable core of
`String.prototype.toLowerCase`. -/
def lowerChar (c : Char) : Char :=
  if 'A' ≤ c ∧ c ≤ 'Z' then Char.ofNat (c.toNat + 32) else c

/-- `String.prototype.toLowerCase`, restricted to the ASCII range — which
decides the `"svg"` comparison below exactly, since only ASCII case
variants of `"svg"` lowercase to it. -/
def lowerStr (s : String) : String := String.mk (s.data.map lowerChar)

/-- `TypeSelect(type)`: `"svg"` routes to `createSVGElement`, everything
else to `createHTMLElement`.  (Its `try`/`catch` guards nothing that can
throw.) -/
def TypeSelect (ty : String) : DomState → AttachData → DomState × Option Nat :=
  if ty = "svg" then createSVGElement else createHTMLElement

/-- `createEventElement(struct, el)`: when `event.action` and `event.type`
are truthy and the action resolves in the external action registry
(`EventApp.EventActions`, modelled as the map `acts`), register the schema
into `EventStore`; otherwise do nothing. -/
def createEventElement (acts : String → Option Nat) (S : DomState) (struct : Struct)
    (el : Nat) : DomState :=
  match struct.event with
  | none => S
  | some ev =>
    match ev.action, ev.type with
    | some action, some ty =>
      if action ≠ "" ∧ ty ≠ "" then
        match acts action with
        | some handler =>
          let nodeId :=
            match ev.node with
            | some n => if n ≠ "" then some n else none
            | none => none
          registerEventStore S el ty handler nodeId
        | none => S
      else S
    | _, _ => S

mutual
/-- `createFromStruct` on a present `struct` and resolved `parent`.
Returns the final state, the (mutated in place) description, and the
number of times the completion callback was invoked when one is supplied
(`hasCb`).  A falsy `element` field rejects the node.  The builder picked
by `TypeSelect` on the lowercased element type receives the original-case
type together with the entry lists of `attr`, `attrNS` and `dataset`;
then `text` and `html` are applied, the event wired, and the children
compiled.  The `none` builder result only arises from the unreachable
shadow-lookup failure (`createHTMLElement_some`); the source would fault
on the first use of `el` there, with the error caught, so the model stops
the subtree. -/
def createFromStructCore (acts : String → Option Nat) (S : DomState) (struct : Struct)
    (parent : ParentRef) (hasCb : Bool) : DomState × Struct × Nat :=
  match struct with
  | Struct.mk elementF attrF attrNSF datasetF textF htmlF eventF childrenF shadowF =>
    match elementF with
    | none => (S, Struct.mk elementF attrF attrNSF datasetF textF htmlF eventF childrenF shadowF, 0)
    | some t =>
      if t = "" then
        (S, Struct.mk elementF attrF attrNSF datasetF textF htmlF eventF childrenF shadowF, 0)
      else
        let bd := BuildData.mk t attrF attrNSF datasetF
        let ad := AttachData.mk parent shadowF bd
        let r1 := if lowerStr t = "svg" then createSVGElement S ad else createHTMLElement S ad
        match r1.2 with
        | none =>
          (r1.1, Struct.mk elementF attrF attrNSF datasetF textF htmlF eventF childrenF shadowF, 0)
        | some el =>
          let S2 :=
            match textF with
            | some s => if s ≠ "" then domSetText r1.1 el s else r1.1
            | none => r1.1
          let S3 :=
            match htmlF with
            | some s => if s ≠ "" then domSetHtml S2 el s else S2
            | none => S2
          let S4 := createEventElement acts S3
            (Struct.mk elementF attrF attrNSF datasetF textF htmlF eventF childrenF shadowF) el
          let r2 := createChildren acts S4 childrenF el hasCb
          (r2.1, Struct.mk elementF attrF attrNSF datasetF textF htmlF eventF r2.2.1 shadowF, r2.2.2)
termination_by structural struct

/-- `createChildren({struct, el}, cb)` on the `children` property (the only
field it consults; the in-place mutation of that field is returned).  A
present array is reversed in place; the loop then walks the reversed array
from its last slot down to index 0 — i.e. the declared order — recursing
with `parent = el`, and at index 0 invokes the callback.  An absent
property invokes the callback immediately; a present empty array never
reaches index 0, so the callback is skipped. -/
def createChildren (acts : String → Option Nat) (S : DomState) (children : Children)
    (el : Nat) (hasCb : Bool) : DomState × Children × Nat :=
  match children with
  | Children.absent => (S, Children.absent, if hasCb then 1 else 0)
  | Children.present StructList.nil => (S, Children.present StructList.nil, 0)
  | Children.present (StructList.cons c cs) =>
    let r := createChildrenLoop acts S (StructList.cons c cs) el hasCb
    (r.1, Children.present (reverseSL r.2.1), r.2.2 + (if hasCb then 1 else 0))
termination_by structural children

/-- The loop of `createChildren`, walking the declared order; each child is
compiled by a recursive `createFromStruct({struct: childItem, parent: el}, cb)`
(the child items of a description array are never falsy, so the `if
(childItem)` test always passes). -/
def createChildrenLoop (acts : String → Option Nat) (S : DomState) (items : StructList)
    (el : Nat) (hasCb : Bool) : DomState × StructList × Nat :=
  match items with
  | StructList.nil => (S, StructList.nil, 0)
  | StructList.cons c cs =>
    let r1 := createFromStructCore acts S c (ParentRef.node el) hasCb
    let r2 := createChildrenLoop acts r1.1 cs el hasCb
    (r2.1, StructList.cons r1.2.1 r2.2.1, r1.2.2 + r2.2.2)
termination_by structural items
end

/-- The `data` argument of the public `createFromStruct`: something whose
`typeof` is not `"object"`, the `null` object (whose destructuring throws
and is caught), or a `{struct?, parent?}` record. -/
inductive CFSData where
  | notObject
  | nullData
  | objData (struct : Option Struct) (parent : Option ParentRef)

/-- `createFromStruct(data, cb)`: guards `typeof data === "object"`,
destructures with `parent` defaulting to `document.body`, and rejects a
struct without a truthy `element` (the rejection itself is re-checked in
`createFromStructCore`).  Returns the mutated struct (when one was
processed) and the callback invocation count. -/
def createFromStruct (acts : String → Option Nat) (S : DomState) (data : CFSData)
    (hasCb : Bool) : DomState × Option Struct × Nat :=
  match data with
  | CFSData.notObject => (S, none, 0)
  | CFSData.nullData => (S, none, 0)
  | CFSData.objData ostruct oparent =>
    match ostruct with
    | none => (S, none, 0)
    | some struct =>
      let r := createFromStructCore acts S struct (oparent.getD (ParentRef.node bodyId)) hasCb
      (r.1, some r.2.1, r.2.2)

/-- The initial document: just `document.body` and empty registries. -/
def initState : DomState :=
  { elems := [(bodyId, freshElem false "body")], nextId := 1,
    elementRefStore := [], actionRefStore := [] }

/-- The `text` application step of a compile, named so the proofs can
refer to it: a truthy `text` field sets `textContent`. -/
def textStep (S1 : DomState) (el : Nat) (textF : Option String) : DomState :=
  match textF with
  | some s => if s ≠ "" then domSetText S1 el s else S1
  | none => S1

/-- The `html` application step of a compile: a truthy `html` field sets
`innerHTML`. -/
def htmlStep (S1 : DomState) (el : Nat) (htmlF : Option String) : DomState :=
  match htmlF with
  | some s => if s ≠ "" then domSetHtml S1 el s else S1
  | none => S1

/-- The effective render-boundary test of `createHTMLElement`: both the
`shadow` mode and the built element's `dataset.state` value are truthy. -/
def shadowCond (ds : List (String × String)) (sh : Option String) : Bool :=
  (match sh with | some m => decide (m ≠ "") | none => false) &&
  (match lookupA ds "state" with | some v => decide (v ≠ "") | none => false)

/-! ## Declarative companions used by the claim statements -/

mutual
/-- Number of completion-callback invocations a compile of this
description performs when a callback is supplied: one per processed node
whose `children` property is absent or a non-empty array. -/
def cbWeight : Struct → Nat
  | Struct.mk el _ _ _ _ _ _ ch _ =>
    match el with
    | none => 0
    | some t => if t = "" then 0 else cbWeightC ch

def cbWeightC : Children → Nat
  | Children.absent => 1
  | Children.present StructList.nil => 0
  | Children.present (StructList.cons c cs) => cbWeightL (StructList.cons c cs) + 1

def cbWeightL : StructList → Nat
  | StructList.nil => 0
  | StructList.cons c cs => cbWeight c + cbWeightL cs
end

mutual
/-- The in-place mutation `compile` leaves on its input description: every
processed node's children array is reversed (recursively); rejected nodes
are untouched. -/
def structReversed : Struct → Struct
  | Struct.mk el attr attrNS ds tx ht ev ch sh =>
    match el with
    | none => Struct.mk el attr attrNS ds tx ht ev ch sh
    | some t =>
      if t = "" then Struct.mk el attr attrNS ds tx ht ev ch sh
      else Struct.mk el attr attrNS ds tx ht ev (childrenReversed ch) sh

def childrenReversed : Children → Children
  | Children.absent => Children.absent
  | Children.present items => Children.present (reverseSL (structReversedL items))

def structReversedL : StructList → StructList
  | StructList.nil => StructList.nil
  | StructList.cons c cs => StructList.cons (structReversed c) (structReversedL cs)
end

/-- The element types of a description's children, for observing child
order. -/
def childTags (s : Struct) : List (Option String) :=
  match s.children with
  | Children.absent => []
  | Children.present items => items.toList.map Struct.element

/-- `true` when the element type routes to the namespaced builder. -/
def isSvgType (el : Option String) : Bool :=
  match el with
  | some t => if lowerStr t = "svg" then true else false
  | none => false

/-- `true` when `createHTMLElement` will replace the built element by a
shadow root: a truthy `shadow`, and a truthy `dataset.state` on the built
element (whose value is the first `"state"` slot of the description's
dataset).  SVG-routed nodes never consult `shadow`. -/
def shadowEffB (el : Option String) (ds : List (String × String)) (sh : Option String) : Bool :=
  (!isSvgType el) &&
  (match sh with | some m => decide (m ≠ "") | none => false) &&
  (match lookupA ds "state" with | some v => decide (v ≠ "") | none => false)

mutual
/-- Validity of a description for the structural claims: every node's
element type is truthy, and no plain or namespaced attribute name starts
with `data-` (the DOM's identification of `data-*` attributes with the
`dataset` view is outside the model, so such names are excluded rather
than silently mismodelled). -/
def validTree : Struct → Bool
  | Struct.mk el attr attrNS _ _ _ _ ch _ =>
    (match el with | some t => decide (t ≠ "") | none => false) &&
    (attr ++ attrNS).all (fun pr => !(List.isPrefixOf "data-".data pr.1.data)) &&
    validChildren ch

def validChildren : Children → Bool
  | Children.absent => true
  | Children.present items => validList items

def validList : StructList → Bool
  | StructList.nil => true
  | StructList.cons c cs => validTree c && validList cs
end

mutual
/-- No SVG-typed node sits where its resolved parent is a shadow root:
`createSVGElement` accepts only `HTMLElement`/`SVGElement` parents and
treats a `ShadowRoot` as a plain description, attaching the node to a
detached `"undefined"` element instead.  `underShadow` says whether the
current node's parent attachment point is a shadow root. -/
def svgOk : Struct → Bool → Bool
  | Struct.mk el _ _ ds _ _ _ ch sh, underShadow =>
    (!underShadow || !isSvgType el) && svgOkC ch (shadowEffB el ds sh)

def svgOkC : Children → Bool → Bool
  | Children.absent, _ => true
  | Children.present items, u => svgOkL items u

def svgOkL : StructList → Bool → Bool
  | StructList.nil, _ => true
  | StructList.cons c cs, u => svgOk c u && svgOkL cs u
end

mutual
/-- Number of nodes a compile of this description allocates: one element
per processed node, plus one shadow root per effective render boundary. -/
def allocCount : Struct → Nat
  | Struct.mk el _ _ ds _ _ _ ch sh =>
    match el with
    | none => 0
    | some t =>
      if t = "" then 0
      else 1 + (if shadowEffB el ds sh then 1 else 0) + allocCountC ch

def allocCountC : Children → Nat
  | Children.absent => 0
  | Children.present items => allocCountL items

def allocCountL : StructList → Nat
  | StructList.nil => 0
  | StructList.cons c cs => allocCount c + allocCountL cs
end

/-- The event schemas `createEventElement` registers for one node: one
when `event.type` and `event.action` are truthy and the action resolves,
none otherwise. -/
def evSchemas (acts : String → Option Nat) (s : Struct) : List EventSchema :=
  match s.event with
  | none => []
  | some ev =>
    match ev.action, ev.type with
    | some action, some ty =>
      if action ≠ "" ∧ ty ≠ "" then
        match acts action with
        | some handler =>
          [EventSchema.mk ty handler
            (match ev.node with
             | some n => if n ≠ "" then some n else none
             | none => none)]
        | none => []
      else []
    | _, _ => []

/-- The listeners those schemas attach. -/
def evListeners (acts : String → Option Nat) (s : Struct) : List (String × Nat) :=
  (evSchemas acts s).map (fun sch => (sch.type, sch.handler))

/-- The `ActionRefStore` entry those schemas create (absence, not an empty
list, when there are none). -/
def evEntry (acts : String → Option Nat) (s : Struct) : Option (List EventSchema) :=
  match evSchemas acts s with
  | [] => none
  | l => some l

/-- Well-formedness of a modelled state: every allocated node id and every
event-registry key is below the allocation counter. -/
def WFState (S : DomState) : Prop :=
  (∀ pr ∈ S.elems, pr.1 < S.nextId) ∧ (∀ pr ∈ S.actionRefStore, pr.1 < S.nextId)

instance (S : DomState) : Decidable (WFState S) := by
  unfold WFState; infer_instance

mutual
/-- `Realizes S lo s e par`: in state `S`, node `e` (allocated at or after
`lo`) is the element built for description `s`, hangs under `par`, and the
children of its attachment point (its shadow root when one was attached,
itself otherwise) are exactly the realizations of `s`'s children in
declared order. -/
def Realizes (S : DomState) (lo : Nat) : Struct → Nat → Nat → Prop
  | Struct.mk el _ _ _ _ _ _ ch _, e, par =>
    lo ≤ e ∧ ∃ d, getElem S e = some d ∧ d.parent = some par ∧
      d.kind = NodeKind.element ∧ el = some d.tag ∧
      (match d.shadow with
       | some sr =>
         lo ≤ sr ∧ ∃ sd, getElem S sr = some sd ∧ sd.kind = NodeKind.shadowRoot ∧
           RealizesC S lo ch sd.children sr
       | none => RealizesC S lo ch d.children e)

def RealizesC (S : DomState) (lo : Nat) : Children → List Nat → Nat → Prop
  | Children.absent, es, _ => es = []
  | Children.present items, es, a => RealizesL S lo items es a

def RealizesL (S : DomState) (lo : Nat) : StructList → List Nat → Nat → Prop
  | StructList.nil, es, _ => es = []
  | StructList.cons c cs, es, a =>
    match es with
    | [] => False
    | e :: es' => Realizes S lo c e a ∧ RealizesL S lo cs es' a
end

/-! ## Concrete descriptions used by counterexamples and witnesses -/

/-- A childless description with just an element type. -/
def leafS (tag : String) : Struct :=
  Struct.mk (some tag) [] [] [] none none none Children.absent none

/-- `{element: "div", children: [{element: "span"}]}`. -/
def oneChildS : Struct :=
  Struct.mk (some "div") [] [] [] none none none
    (Children.present (StructList.cons (leafS "span") StructList.nil)) none

/-- `{element: "div", children: [{element: "span"}, {element: "p"}]}`. -/
def twoChildS : Struct :=
  Struct.mk (some "div") [] [] [] none none none
    (Children.present (StructList.cons (leafS "span")
      (StructList.cons (leafS "p") StructList.nil))) none

/-- The result of compiling `twoChildS` (the returned, possibly mutated
description). -/
def twoChildRes : Option Struct :=
  (createFromStruct (fun _ => none) initState (CFSData.objData (some twoChildS) none) false).2.1

/-- `{element: "svg", attr: {viewBox: "0 0 10 10"}, children: [{element: "circle"}]}`. -/
def svgCircleS : Struct :=
  Struct.mk (some "svg") [("viewBox", "0 0 10 10")] [] [] none none none
    (Children.present (StructList.cons (leafS "circle") StructList.nil)) none

/-- Final state of compiling `svgCircleS` against the initial document:
`document.body` is node 0, the svg node 1, the circle node 2. -/
def svgCircleFinal : DomState :=
  (createFromStruct (fun _ => none) initState (CFSData.objData (some svgCircleS) none) false).1

/-- `{element: "div", dataset: {state: "host"}, shadow: "open",
children: [{element: "svg"}]}` — a render boundary with an SVG child. -/
def shadowSvgS : Struct :=
  Struct.mk (some "div") [] [] [("state", "host")] none none none
    (Children.present (StructList.cons (leafS "svg") StructList.nil)) (some "open")

/-- Final state of compiling `shadowSvgS`: body 0, div 1, shadow root 2,
svg 3, detached `"undefined"` element 4. -/
def shadowSvgFinal : DomState :=
  (createFromStruct (fun _ => none) initState (CFSData.objData (some shadowSvgS) none) false).1

/-- `{element: "div", event: {type: "mousedown", actionName: "doesNotExist"}}`
— an event naming an action the external registry cannot resolve. -/
def unresolvedEvS : Struct :=
  Struct.mk (some "div") [] [] [] none none
    (some (EventDesc.mk (some "mousedown") (some "doesNotExist") none)) Children.absent none

/-- The two-update body of `element.remove()` when a parent exists,
factored for the lemmas below. -/
def detach (S : DomState) (e p : Nat) : DomState :=
  updateElem
    (updateElem S p (fun pd => { pd with children := pd.children.filter (fun c => ¬ c = e) }))
    e (fun ed => { ed with parent := none })

/-- The registry-cleanup step of `removeFromDomStore`, factored for the
lemmas below: `if (dataset.state) DomStore.removeElement(dataset.state, 2)`
for an element with data `d`. -/
def stateErase (S : DomState) (d : ElemData) : DomState :=
  match lookupA d.dataset "state" with
  | some st => if st ≠ "" then removeElementRefOnly S st else S
  | none => S

/-- `true` when some schema in `l` matches the listener `x` (same type and
handler), i.e. when the teardown loop's `removeEventListener` calls cover
`x`. -/
def matchesAny (l : List EventSchema) (x : String × Nat) : Bool :=
  l.any (fun sch => x.1 = sch.type ∧ x.2 = sch.handler)

/-- A state holding `document.body` and a `div` that is registered in
`DomStore` under `"k"` but carries no `"state"` dataset tag. -/
def mismatchedTagState : DomState :=
  { elems := [(0, freshElem false "body"), (1, freshElem false "div")],
    nextId := 2, elementRefStore := [("k", 1)], actionRefStore := [] }

/-- The `div` of `alignedTagState`: tagged `state = "k"`, attached under
`document.body`, with one registered mousedown listener. -/
def alignedTagElem : ElemData :=
  { freshElem false "div" with
    dataset := [("state", "k")], parent := some 0, listeners := [("mousedown", 5)] }

/-- A state where the element stored under `"k"` carries `"k"` as its own
`"state"` tag (as the build path guarantees) and has one registered
listener. -/
def alignedTagState : DomState :=
  { elems := [(0, { freshElem false "body" with children := [1] }), (1, alignedTagElem)],
    nextId := 2, elementRefStore := [("k", 1)],
    actionRefStore := [(1, [EventSchema.mk "mousedown" 5 none])] }

/-- The `div` of [[protoTagState]]: tagged `state = "__proto__"`, attached
under the body, with one registered mousedown listener. -/
def protoTagElem : ElemData :=
  { freshElem false "div" with
    dataset := [("state", "__proto__")], parent := some 0, listeners := [("mousedown", 5)] }

/-- A state where an `addElement` call at key `"__proto__"` has run: the
assignment went through the inherited accessor and installed the element
as the registry's prototype, encoded here as the `"__proto__"` slot. -/
def protoTagState : DomState :=
  { elems := [(0, { freshElem false "body" with children := [1] }), (1, protoTagElem)],
    nextId := 2, elementRefStore := [("__proto__", 1)],
    actionRefStore := [(1, [EventSchema.mk "mousedown" 5 none])] }

/-- The consistency produced by `setData`: whenever the element's own
`dataset.state` is a truthy `v`, `DomStore` maps `v` back to that element.
It is what makes the shadow-boundary lookup
`DomStore.getElement(childElement.dataset.state)` resolve to the element
itself. -/
def StateInv (S : DomState) (e : Nat) : Prop :=
  ∀ v d, v ≠ "" → getElem S e = some d → lookupA d.dataset "state" = some v →
    lookupA S.elementRefStore v = some e

/-- Weak form of [[StateInv]]: the element's truthy `dataset.state` value
is at least *bound* in the registry (to something), which is all the
shadow-boundary lookup needs in order not to fault. -/
def StateSome (S : DomState) (e : Nat) : Prop :=
  ∀ v d, v ≠ "" → getElem S e = some d → lookupA d.dataset "state" = some v →
    (lookupA S.elementRefStore v).isSome = true

/-! ## Association-list lemmas -/

section AssocLemmas

variable {α β : Type} [DecidableEq α]

theorem lookupA_setA_self (m : List (α × β)) (k : α) (v : β) :
    lookupA (setA m k v) k = some v := by
  induction m with
  | nil => simp [setA, lookupA]
  | cons p rest ih =>
    obtain ⟨k', v'⟩ := p
    by_cases h : k' = k
    · simp [setA, h, lookupA]
    · simp [setA, h, lookupA, ih]

theorem lookupA_setA_ne (m : List (α × β)) (k q : α) (v : β) (h : q ≠ k) :
    lookupA (setA m k v) q = lookupA m q := by
  induction m with
  | nil =>
    simp only [setA, lookupA]
    rw [if_neg (Ne.symm h)]
  | cons p rest ih =>
    obtain ⟨k', v'⟩ := p
    by_cases hk : k' = k
    · simp only [setA, if_pos hk, lookupA]
      rw [if_neg (Ne.symm h), if_neg (fun hh : k' = q => h (hh ▸ hk))]
    · simp only [setA, if_neg hk, lookupA]
      by_cases hq : k' = q
      · rw [if_pos hq, if_pos hq]
      · rw [if_neg hq, if_neg hq, ih]

theorem lookupA_eraseA_self (m : List (α × β)) (k : α) :
    lookupA (eraseA m k) k = none := by
  induction m with
  | nil => rfl
  | cons p rest ih =>
    obtain ⟨k', v'⟩ := p
    by_cases h : k' = k
    · simp only [eraseA, if_pos h]
      exact ih
    · simp only [eraseA, if_neg h, lookupA, if_neg (fun hh : k' = k => h hh)]
      exact ih

theorem lookupA_eraseA_ne (m : List (α × β)) (k q : α) (h : q ≠ k) :
    lookupA (eraseA m k) q = lookupA m q := by
  induction m with
  | nil => rfl
  | cons p rest ih =>
    obtain ⟨k', v'⟩ := p
    by_cases hk : k' = k
    · simp only [eraseA, if_pos hk, lookupA]
      rw [if_neg (fun hh : k' = q => h (hh ▸ hk)), ih]
    · simp only [eraseA, if_neg hk, lookupA]
      by_cases hq : k' = q
      · rw [if_pos hq, if_pos hq]
      · rw [if_neg hq, if_neg hq, ih]

theorem eraseA_idem (m : List (α × β)) (k : α) :
    eraseA (eraseA m k) k = eraseA m k := by
  induction m with
  | nil => rfl
  | cons p rest ih =>
    obtain ⟨k', v'⟩ := p
    by_cases h : k' = k
    · simp only [eraseA, if_pos h]
      exact ih
    · simp only [eraseA, if_neg h]
      rw [ih]

theorem lookupA_append (l₁ l₂ : List (α × β)) (k : α) :
    lookupA (l₁ ++ l₂) k =
      (match lookupA l₁ k with
       | some v => some v
       | none => lookupA l₂ k) := by
  induction l₁ with
  | nil => simp [lookupA]
  | cons p rest ih =>
    obtain ⟨k', v'⟩ := p
    by_cases h : k' = k <;> simp [lookupA, h, ih]

theorem lookupA_none_of_keys (m : List (α × β)) (k : α)
    (h : ∀ pr ∈ m, pr.1 ≠ k) : lookupA m k = none := by
  induction m with
  | nil => rfl
  | cons p rest ih =>
    obtain ⟨k', v'⟩ := p
    have hk : k' ≠ k := h (k', v') (List.mem_cons_self _ _)
    simp only [lookupA, if_neg hk]
    exact ih (fun pr hpr => h pr (List.mem_cons_of_mem _ hpr))

theorem lookupA_some_mem (m : List (α × β)) (k : α) (v : β)
    (h : lookupA m k = some v) : (k, v) ∈ m := by
  induction m with
  | nil => exact absurd h (by simp [lookupA])
  | cons p rest ih =>
    obtain ⟨k', v'⟩ := p
    by_cases hk : k' = k
    · subst hk
      simp only [lookupA, if_pos rfl] at h
      have hv : v' = v := Option.some.inj h
      subst hv
      exact List.mem_cons_self _ _
    · simp only [lookupA, if_neg hk] at h
      exact List.mem_cons_of_mem _ (ih h)

theorem mem_setA (m : List (α × β)) (k : α) (v : β) (pr : α × β)
    (h : pr ∈ setA m k v) : pr = (k, v) ∨ pr ∈ m := by
  induction m with
  | nil => simpa [setA] using h
  | cons p rest ih =>
    obtain ⟨k', v'⟩ := p
    by_cases hk : k' = k
    · simp only [setA, if_pos hk, List.mem_cons] at h
      rcases h with h | h
      · exact Or.inl h
      · exact Or.inr (List.mem_cons_of_mem _ h)
    · simp only [setA, if_neg hk, List.mem_cons] at h
      rcases h with h | h
      · exact Or.inr (by simp [h])
      · rcases ih h with h2 | h2
        · exact Or.inl h2
        · exact Or.inr (List.mem_cons_of_mem _ h2)

theorem mem_eraseA (m : List (α × β)) (k : α) (pr : α × β)
    (h : pr ∈ eraseA m k) : pr ∈ m := by
  induction m with
  | nil => exact absurd h (List.not_mem_nil pr)
  | cons p rest ih =>
    obtain ⟨k', v'⟩ := p
    by_cases hk : k' = k
    · simp only [eraseA, if_pos hk] at h
      exact List.mem_cons_of_mem _ (ih h)
    · simp only [eraseA, if_neg hk, List.mem_cons] at h
      rcases h with h | h
      · exact h ▸ List.mem_cons_self _ _
      · exact List.mem_cons_of_mem _ (ih h)

end AssocLemmas

/-! ## State-operation lemmas -/

theorem updateElem_nextId (S : DomState) (e : Nat) (f : ElemData → ElemData) :
    (updateElem S e f).nextId = S.nextId := by
  unfold updateElem
  cases lookupA S.elems e <;> rfl

theorem updateElem_elementRefStore (S : DomState) (e : Nat) (f : ElemData → ElemData) :
    (updateElem S e f).elementRefStore = S.elementRefStore := by
  unfold updateElem
  cases lookupA S.elems e <;> rfl

theorem updateElem_actionRefStore (S : DomState) (e : Nat) (f : ElemData → ElemData) :
    (updateElem S e f).actionRefStore = S.actionRefStore := by
  unfold updateElem
  cases lookupA S.elems e <;> rfl

theorem getElem_updateElem_self (S : DomState) (e : Nat) (f : ElemData → ElemData)
    (d : ElemData) (h : getElem S e = some d) :
    getElem (updateElem S e f) e = some (f d) := by
  unfold getElem at h ⊢
  unfold updateElem
  rw [h]
  simpa using lookupA_setA_self S.elems e (f d)

theorem updateElem_of_none (S : DomState) (e : Nat) (f : ElemData → ElemData)
    (h : getElem S e = none) : updateElem S e f = S := by
  unfold getElem at h
  unfold updateElem
  rw [h]

theorem getElem_updateElem_ne (S : DomState) (e q : Nat) (f : ElemData → ElemData)
    (h : q ≠ e) : getElem (updateElem S e f) q = getElem S q := by
  unfold getElem updateElem
  cases hl : lookupA S.elems e with
  | none => rfl
  | some d => simpa using lookupA_setA_ne S.elems e q (f d) h

theorem allocNode_nextId (S : DomState) (d : ElemData) :
    (allocNode S d).1.nextId = S.nextId + 1 := rfl

theorem allocNode_elementRefStore (S : DomState) (d : ElemData) :
    (allocNode S d).1.elementRefStore = S.elementRefStore := rfl

theorem allocNode_actionRefStore (S : DomState) (d : ElemData) :
    (allocNode S d).1.actionRefStore = S.actionRefStore := rfl

theorem getElem_lt_nextId (S : DomState) (e : Nat) (d : ElemData)
    (hWF : WFState S) (h : getElem S e = some d) : e < S.nextId := by
  by_contra hge
  have : ∀ pr ∈ S.elems, pr.1 ≠ e := by
    intro pr hpr heq
    exact hge (heq ▸ hWF.1 pr hpr)
  unfold getElem at h
  rw [lookupA_none_of_keys S.elems e this] at h
  exact Option.noConfusion h

theorem getElem_none_of_ge (S : DomState) (e : Nat)
    (hWF : WFState S) (h : S.nextId ≤ e) : getElem S e = none := by
  cases hl : getElem S e with
  | none => rfl
  | some d => exact absurd (getElem_lt_nextId S e d hWF hl) (Nat.not_lt.mpr h)

theorem getElem_allocNode_ne (S : DomState) (d : ElemData) (q : Nat)
    (h : q ≠ S.nextId) : getElem (allocNode S d).1 q = getElem S q := by
  unfold getElem allocNode
  simp only
  rw [lookupA_append]
  cases hl : lookupA S.elems q with
  | some v => rfl
  | none =>
    simp only [lookupA]
    rw [if_neg (fun hh : S.nextId = q => h hh.symm)]

theorem getElem_allocNode_self (S : DomState) (d : ElemData)
    (hWF : WFState S) : getElem (allocNode S d).1 S.nextId = some d := by
  unfold getElem allocNode
  simp only
  rw [lookupA_append]
  have : lookupA S.elems S.nextId = none :=
    lookupA_none_of_keys _ _
      (fun pr hpr heq => absurd (heq ▸ hWF.1 pr hpr) (Nat.lt_irrefl _))
  rw [this]
  simp [lookupA]

theorem updateElem_elems (S : DomState) (e : Nat) (f : ElemData → ElemData) (d : ElemData)
    (h : lookupA S.elems e = some d) : (updateElem S e f).elems = setA S.elems e (f d) := by
  unfold updateElem
  rw [h]

theorem WFState_updateElem (S : DomState) (e : Nat) (f : ElemData → ElemData)
    (hWF : WFState S) : WFState (updateElem S e f) := by
  refine ⟨fun pr hpr => ?_, fun pr hpr => ?_⟩
  · rw [updateElem_nextId]
    cases hl : lookupA S.elems e with
    | none =>
      rw [updateElem_of_none S e f hl] at hpr
      exact hWF.1 pr hpr
    | some d =>
      rw [updateElem_elems S e f d hl] at hpr
      rcases mem_setA S.elems e (f d) pr hpr with h | h
      · subst h
        exact hWF.1 (e, d) (lookupA_some_mem _ _ _ hl)
      · exact hWF.1 _ h
  · rw [updateElem_nextId]
    rw [updateElem_actionRefStore] at hpr
    exact hWF.2 pr hpr

theorem WFState_allocNode (S : DomState) (d : ElemData)
    (hWF : WFState S) : WFState (allocNode S d).1 := by
  constructor
  · intro pr hpr
    simp only [allocNode, List.mem_append, List.mem_singleton] at hpr
    rcases hpr with h | h
    · exact Nat.lt_succ_of_lt (hWF.1 pr h)
    · simp [allocNode, h]
  · intro pr hpr
    exact Nat.lt_succ_of_lt (hWF.2 pr hpr)

/-! ## Teardown lemmas (`EventStore` removal path) -/

theorem getElem_removeElementRefOnly (S : DomState) (k : String) (e : Nat) :
    getElem (removeElementRefOnly S k) e = getElem S e := by
  unfold removeElementRefOnly
  by_cases h : k = "__proto__"
  · rw [if_pos h]
  · rw [if_neg h]
    rfl

theorem removeElementRefOnly_actionRefStore (S : DomState) (k : String) :
    (removeElementRefOnly S k).actionRefStore = S.actionRefStore := by
  unfold removeElementRefOnly
  by_cases h : k = "__proto__"
  · rw [if_pos h]
  · rw [if_neg h]

theorem removeElementRefOnly_proto (S : DomState) :
    removeElementRefOnly S "__proto__" = S := by
  unfold removeElementRefOnly
  rw [if_pos rfl]

theorem removeElementRefOnly_eq (S : DomState) (k : String) (h : k ≠ "__proto__") :
    removeElementRefOnly S k = { S with elementRefStore := eraseA S.elementRefStore k } := by
  unfold removeElementRefOnly
  rw [if_neg h]

theorem domRemove_of_none (S : DomState) (e : Nat) (h : getElem S e = none) :
    domRemove S e = S := by
  unfold domRemove
  rw [h]

theorem domRemove_eq_of_parent_none (S : DomState) (e : Nat) (d : ElemData)
    (h : getElem S e = some d) (hp : d.parent = none) : domRemove S e = S := by
  simp only [domRemove, h, hp]

theorem domRemove_eq_detach (S : DomState) (e p : Nat) (d : ElemData)
    (h : getElem S e = some d) (hp : d.parent = some p) :
    domRemove S e = detach S e p := by
  simp only [domRemove, h, hp, detach]

theorem detach_elementRefStore (S : DomState) (e p : Nat) :
    (detach S e p).elementRefStore = S.elementRefStore := by
  unfold detach
  rw [updateElem_elementRefStore, updateElem_elementRefStore]

theorem detach_actionRefStore (S : DomState) (e p : Nat) :
    (detach S e p).actionRefStore = S.actionRefStore := by
  unfold detach
  rw [updateElem_actionRefStore, updateElem_actionRefStore]

theorem detach_nextId (S : DomState) (e p : Nat) :
    (detach S e p).nextId = S.nextId := by
  unfold detach
  rw [updateElem_nextId, updateElem_nextId]

theorem domRemove_elementRefStore (S : DomState) (e : Nat) :
    (domRemove S e).elementRefStore = S.elementRefStore := by
  cases hg : getElem S e with
  | none => rw [domRemove_of_none S e hg]
  | some d =>
    cases hp : d.parent with
    | none => rw [domRemove_eq_of_parent_none S e d hg hp]
    | some p => rw [domRemove_eq_detach S e p d hg hp, detach_elementRefStore]

theorem domRemove_actionRefStore (S : DomState) (e : Nat) :
    (domRemove S e).actionRefStore = S.actionRefStore := by
  cases hg : getElem S e with
  | none => rw [domRemove_of_none S e hg]
  | some d =>
    cases hp : d.parent with
    | none => rw [domRemove_eq_of_parent_none S e d hg hp]
    | some p => rw [domRemove_eq_detach S e p d hg hp, detach_actionRefStore]

theorem domRemove_nextId (S : DomState) (e : Nat) :
    (domRemove S e).nextId = S.nextId := by
  cases hg : getElem S e with
  | none => rw [domRemove_of_none S e hg]
  | some d =>
    cases hp : d.parent with
    | none => rw [domRemove_eq_of_parent_none S e d hg hp]
    | some p => rw [domRemove_eq_detach S e p d hg hp, detach_nextId]

theorem getElem_domRemove_self (S : DomState) (e : Nat) (d : ElemData)
    (h : getElem S e = some d) :
    ∃ d', getElem (domRemove S e) e = some d' ∧ d'.dataset = d.dataset ∧
      d'.parent = none ∧ d'.listeners = d.listeners := by
  cases hp : d.parent with
  | none =>
    rw [domRemove_eq_of_parent_none S e d h hp]
    exact ⟨d, h, rfl, hp, rfl⟩
  | some p =>
    rw [domRemove_eq_detach S e p d h hp]
    unfold detach
    by_cases hpe : p = e
    · subst hpe
      have h1 := getElem_updateElem_self S p
        (fun pd => { pd with children := pd.children.filter (fun c => ¬ c = p) }) d h
      have h2 := getElem_updateElem_self _ p (fun ed => { ed with parent := none }) _ h1
      exact ⟨_, h2, rfl, rfl, rfl⟩
    · have h1 : getElem (updateElem S p
          (fun pd => { pd with children := pd.children.filter (fun c => ¬ c = e) })) e = some d := by
        rw [getElem_updateElem_ne _ p e _ (fun hh => hpe hh.symm)]
        exact h
      have h2 := getElem_updateElem_self _ e (fun ed => { ed with parent := none }) _ h1
      exact ⟨_, h2, rfl, rfl, rfl⟩

theorem domRemove_idem (S : DomState) (e : Nat) :
    domRemove (domRemove S e) e = domRemove S e := by
  cases hg : getElem S e with
  | none =>
    have h := domRemove_of_none S e hg
    rw [h]
    exact h
  | some d =>
    obtain ⟨d', hd', _, hpar, _⟩ := getElem_domRemove_self S e d hg
    exact domRemove_eq_of_parent_none _ e d' hd' hpar

theorem stateErase_congr (S : DomState) (d d' : ElemData)
    (h : d'.dataset = d.dataset) : stateErase S d' = stateErase S d := by
  unfold stateErase
  rw [h]

theorem stateErase_of_none (S : DomState) (d : ElemData)
    (h : lookupA d.dataset "state" = none) : stateErase S d = S := by
  unfold stateErase
  rw [h]

theorem stateErase_of_empty (S : DomState) (d : ElemData)
    (h : lookupA d.dataset "state" = some "") : stateErase S d = S := by
  unfold stateErase
  rw [h]
  simp

theorem stateErase_of_some (S : DomState) (d : ElemData) (st : String)
    (h : lookupA d.dataset "state" = some st) (hst : st ≠ "") :
    stateErase S d = removeElementRefOnly S st := by
  unfold stateErase
  rw [h]
  simp [hst]

theorem getElem_stateErase (S : DomState) (d : ElemData) (e : Nat) :
    getElem (stateErase S d) e = getElem S e := by
  unfold stateErase
  cases lookupA d.dataset "state" with
  | none => rfl
  | some st => by_cases hst : st ≠ "" <;> simp [hst, getElem_removeElementRefOnly]

theorem stateErase_actionRefStore (S : DomState) (d : ElemData) :
    (stateErase S d).actionRefStore = S.actionRefStore := by
  unfold stateErase
  cases lookupA d.dataset "state" with
  | none => rfl
  | some st => by_cases hst : st ≠ "" <;> simp [hst, removeElementRefOnly_actionRefStore]

theorem stateErase_store_proto (S : DomState) (d : ElemData) :
    lookupA (stateErase S d).elementRefStore "__proto__" =
      lookupA S.elementRefStore "__proto__" := by
  unfold stateErase
  cases lookupA d.dataset "state" with
  | none => rfl
  | some st =>
    show lookupA
      (if st ≠ "" then removeElementRefOnly S st else S).elementRefStore "__proto__" =
      lookupA S.elementRefStore "__proto__"
    by_cases hst : st ≠ ""
    · rw [if_pos hst]
      by_cases hstP : st = "__proto__"
      · rw [hstP, removeElementRefOnly_proto]
      · rw [removeElementRefOnly_eq S st hstP]
        exact lookupA_eraseA_ne _ _ _ (fun hh => hstP hh.symm)
    · rw [if_neg hst]

theorem removeFromDomStore_of_none (S : DomState) (e : Nat) (h : getElem S e = none) :
    removeFromDomStore S e = S := by
  unfold removeFromDomStore
  rw [h]

theorem removeFromDomStore_eq (S : DomState) (e : Nat) (d : ElemData)
    (h : getElem S e = some d) :
    removeFromDomStore S e = domRemove (stateErase S d) e := by
  unfold removeFromDomStore stateErase
  rw [h]

theorem removeFromDomStore_actionRefStore (S : DomState) (e : Nat) :
    (removeFromDomStore S e).actionRefStore = S.actionRefStore := by
  cases hg : getElem S e with
  | none => rw [removeFromDomStore_of_none S e hg]
  | some d =>
    rw [removeFromDomStore_eq S e d hg, domRemove_actionRefStore, stateErase_actionRefStore]

theorem removeFromDomStore_store_proto (S : DomState) (e : Nat) :
    lookupA (removeFromDomStore S e).elementRefStore "__proto__" =
      lookupA S.elementRefStore "__proto__" := by
  cases hg : getElem S e with
  | none => rw [removeFromDomStore_of_none S e hg]
  | some d =>
    rw [removeFromDomStore_eq S e d hg, domRemove_elementRefStore, stateErase_store_proto]

theorem removeFromDomStore_idem (S : DomState) (e : Nat) :
    removeFromDomStore (removeFromDomStore S e) e = removeFromDomStore S e := by
  cases hg : getElem S e with
  | none =>
    have h := removeFromDomStore_of_none S e hg
    rw [h]
    exact h
  | some d =>
    rw [removeFromDomStore_eq S e d hg]
    have hg1 : getElem (stateErase S d) e = some d := by
      rw [getElem_stateErase]
      exact hg
    obtain ⟨d', hd', hds, hpar, _⟩ := getElem_domRemove_self (stateErase S d) e d hg1
    rw [removeFromDomStore_eq _ e d' hd']
    have hse : stateErase (domRemove (stateErase S d) e) d' = domRemove (stateErase S d) e := by
      rw [stateErase_congr _ d d' hds]
      cases hls : lookupA d.dataset "state" with
      | none => exact stateErase_of_none _ d hls
      | some st =>
        by_cases hst : st = ""
        · subst hst
          exact stateErase_of_empty _ d hls
        · rw [stateErase_of_some _ d st hls hst]
          by_cases hstP : st = "__proto__"
          · rw [hstP, removeElementRefOnly_proto]
          · have hstore : (domRemove (stateErase S d) e).elementRefStore =
                eraseA S.elementRefStore st := by
              rw [domRemove_elementRefStore, stateErase_of_some S d st hls hst,
                removeElementRefOnly_eq S st hstP]
            rw [removeElementRefOnly_eq _ st hstP, hstore, eraseA_idem, ← hstore]
    rw [hse]
    exact domRemove_idem _ e

theorem foldrRemoveListener_actionRefStore (l : List EventSchema) (S : DomState) (e : Nat) :
    (l.foldr (fun item acc => domRemoveListener acc e item.type item.handler) S).actionRefStore =
      S.actionRefStore := by
  induction l with
  | nil => rfl
  | cons x rest ih =>
    rw [List.foldr_cons]
    show (domRemoveListener _ e x.type x.handler).actionRefStore = _
    unfold domRemoveListener
    rw [updateElem_actionRefStore]
    exact ih

theorem foldrRemoveListener_elementRefStore (l : List EventSchema) (S : DomState) (e : Nat) :
    (l.foldr (fun item acc => domRemoveListener acc e item.type item.handler) S).elementRefStore =
      S.elementRefStore := by
  induction l with
  | nil => rfl
  | cons x rest ih =>
    rw [List.foldr_cons]
    show (domRemoveListener _ e x.type x.handler).elementRefStore = _
    unfold domRemoveListener
    rw [updateElem_elementRefStore]
    exact ih

theorem foldrRemoveListener_getElem_ne (l : List EventSchema) (S : DomState) (e q : Nat)
    (h : q ≠ e) :
    getElem (l.foldr (fun item acc => domRemoveListener acc e item.type item.handler) S) q =
      getElem S q := by
  induction l with
  | nil => rfl
  | cons x rest ih =>
    rw [List.foldr_cons]
    show getElem (domRemoveListener _ e x.type x.handler) q = _
    unfold domRemoveListener
    rw [getElem_updateElem_ne _ _ _ _ h]
    exact ih

theorem getElem_domRemoveListener_self (S : DomState) (e : Nat) (ty : String) (hh : Nat)
    (d : ElemData) (h : getElem S e = some d) :
    getElem (domRemoveListener S e ty hh) e =
      some { d with listeners := d.listeners.filter (fun l => ¬ (l.1 = ty ∧ l.2 = hh)) } :=
  getElem_updateElem_self S e _ d h

theorem foldrRemoveListener_getElem_self (l : List EventSchema) (S : DomState) (e : Nat)
    (d : ElemData) (h : getElem S e = some d) :
    getElem (l.foldr (fun item acc => domRemoveListener acc e item.type item.handler) S) e =
      some { d with listeners := d.listeners.filter (fun x => !matchesAny l x) } := by
  induction l with
  | nil =>
    have hf : d.listeners.filter (fun x => !matchesAny [] x) = d.listeners :=
      List.filter_eq_self.mpr (fun a _ => by simp [matchesAny])
    rw [List.foldr_nil, hf]
    exact h
  | cons x rest ih =>
    have hls : (d.listeners.filter (fun y => !matchesAny rest y)).filter
          (fun y => ¬ (y.1 = x.type ∧ y.2 = x.handler)) =
        d.listeners.filter (fun y => !matchesAny (x :: rest) y) := by
      rw [List.filter_filter]
      refine List.filter_congr (fun y _ => ?_)
      simp only [matchesAny, List.any_cons, Bool.not_or, decide_not]
    rw [List.foldr_cons]
    show getElem (domRemoveListener
      (List.foldr (fun item acc => domRemoveListener acc e item.type item.handler) S rest)
      e x.type x.handler) e = _
    rw [getElem_domRemoveListener_self _ e x.type x.handler _ ih]
    dsimp only
    rw [hls]

/-- The `"__proto__"` mapping survives a full teardown: the only registry
deletion on that path is the `delete` inside `removeFromDomStore`, which
cannot remove the prototype mapping (and erases at most the element's own
`"state"` tag otherwise). -/
theorem removeEventStore_store_proto (S : DomState) (e : Nat) :
    lookupA (removeEventStore S e).elementRefStore "__proto__" =
      lookupA S.elementRefStore "__proto__" := by
  unfold removeEventStore
  cases ha : lookupA S.actionRefStore e with
  | none =>
    dsimp only
    exact removeFromDomStore_store_proto S e
  | some l =>
    dsimp only
    by_cases hl : 1 ≤ l.length
    · rw [if_pos hl, removeFromDomStore_store_proto]
      dsimp only
      rw [foldrRemoveListener_elementRefStore]
    · rw [if_neg hl]
      exact removeFromDomStore_store_proto S e

/-- What one `removeEventStore` call does to a covered element: the
state-tag mapping and the event entry are gone, the element keeps no
listeners and no parent, and its old parent's child list no longer holds
it. -/
theorem removeEventStore_teardown (S : DomState) (e : Nat) (d : ElemData) (K : String)
    (hel : getElem S e = some d)
    (hst : lookupA d.dataset "state" = some K) (hK : K ≠ "") (hKp : K ≠ "__proto__")
    (hcover : ∀ x ∈ d.listeners, matchesAny ((lookupA S.actionRefStore e).getD []) x = true)
    (hne : lookupA S.actionRefStore e ≠ some []) :
    lookupA (removeEventStore S e).elementRefStore K = none ∧
    lookupA (removeEventStore S e).actionRefStore e = none ∧
    (∃ d', getElem (removeEventStore S e) e = some d' ∧ d'.listeners = [] ∧ d'.parent = none) ∧
    (∀ p pd, d.parent = some p → p ≠ e → getElem S p = some pd →
      ∃ pd', getElem (removeEventStore S e) p = some pd' ∧ e ∉ pd'.children) := by
  have key : ∃ T, removeEventStore S e = removeFromDomStore T e ∧
      getElem T e = some { d with listeners := [] } ∧
      lookupA T.actionRefStore e = none ∧
      T.elementRefStore = S.elementRefStore ∧
      (∀ q, q ≠ e → getElem T q = getElem S q) := by
    cases ha : lookupA S.actionRefStore e with
    | none =>
      have hLnil : d.listeners = [] := by
        refine List.eq_nil_iff_forall_not_mem.mpr (fun a ha2 => ?_)
        have := hcover a ha2
        rw [ha] at this
        simp [matchesAny] at this
      have hdd : ({ d with listeners := [] } : ElemData) = d := by rw [← hLnil]
      refine ⟨S, ?_, hdd ▸ hel, ha, rfl, fun q _ => rfl⟩
      unfold removeEventStore
      rw [ha]
    | some l =>
      have hl0 : l ≠ [] := fun hh => hne (hh ▸ ha)
      have hl1 : 1 ≤ l.length := by
        cases l with
        | nil => exact absurd rfl hl0
        | cons a as => simp
      refine ⟨{ l.foldr (fun item acc => domRemoveListener acc e item.type item.handler) S with
          actionRefStore := eraseA (l.foldr
            (fun item acc => domRemoveListener acc e item.type item.handler) S).actionRefStore e },
        ?_, ?_, ?_, ?_, ?_⟩
      · unfold removeEventStore
        rw [ha]
        simp only [if_pos hl1]
      · show getElem (l.foldr (fun item acc => domRemoveListener acc e item.type item.handler) S) e = _
        rw [foldrRemoveListener_getElem_self l S e d hel]
        have : d.listeners.filter (fun x => !matchesAny l x) = [] := by
          refine List.filter_eq_nil_iff.mpr (fun a ha2 => ?_)
          have := hcover a ha2
          rw [ha] at this
          simp only [Option.getD] at this
          simp [this]
        rw [this]
      · exact lookupA_eraseA_self _ _
      · show (l.foldr (fun item acc => domRemoveListener acc e item.type item.handler) S).elementRefStore = _
        exact foldrRemoveListener_elementRefStore l S e
      · intro q hq
        show getElem (l.foldr (fun item acc => domRemoveListener acc e item.type item.handler) S) q = _
        exact foldrRemoveListener_getElem_ne l S e q hq
  obtain ⟨T, hTeq, hTel, hTact, hTstore, hTframe⟩ := key
  rw [hTeq, removeFromDomStore_eq T e { d with listeners := [] } hTel]
  have hSE : stateErase T { d with listeners := [] } = removeElementRefOnly T K :=
    stateErase_of_some T { d with listeners := [] } K hst hK
  rw [hSE]
  have hel2 : getElem (removeElementRefOnly T K) e =
      some ({ d with listeners := [] } : ElemData) := by
    rw [getElem_removeElementRefOnly]
    exact hTel
  refine ⟨?_, ?_, ?_, ?_⟩
  · rw [domRemove_elementRefStore, removeElementRefOnly_eq T K hKp]
    show lookupA (eraseA T.elementRefStore K) K = none
    exact lookupA_eraseA_self _ _
  · rw [domRemove_actionRefStore, removeElementRefOnly_actionRefStore]
    exact hTact
  · obtain ⟨d', hd', hds, hpar, hlis⟩ := getElem_domRemove_self _ e _ hel2
    exact ⟨d', hd', hlis, hpar⟩
  · intro p pd hp hpe hpd
    have hparent : ({ d with listeners := [] } : ElemData).parent = some p := hp
    rw [domRemove_eq_detach _ e p _ hel2 hparent]
    unfold detach
    have hTp : getElem (removeElementRefOnly T K) p = some pd := by
      rw [getElem_removeElementRefOnly, hTframe p hpe]
      exact hpd
    have h1 := getElem_updateElem_self (removeElementRefOnly T K) p
      (fun pdx => { pdx with children := pdx.children.filter (fun c => ¬ c = e) }) pd hTp
    have h2 : getElem (updateElem (updateElem (removeElementRefOnly T K) p
        (fun pdx => { pdx with children := pdx.children.filter (fun c => ¬ c = e) })) e
        (fun ed => { ed with parent := none })) p =
        some { pd with children := pd.children.filter (fun c => ¬ c = e) } := by
      rw [getElem_updateElem_ne _ e p _ hpe]
      exact h1
    refine ⟨_, h2, fun hmem => ?_⟩
    have := (List.mem_filter.mp hmem).2
    simp at this

/-! ## Claim theorems: removal modes (C6) -/

/-- C6 counterexample: in a state where the element stored under `"k"`
carries no `"state"` tag, `removeElement("k", full)` does not delete the
mapping for `"k"` — the full mode resolves the registry key through the
element's own `dataset.state`, not through the key it was asked about. -/
theorem c6_counterexample :
    ¬ lookupA (removeElement mismatchedTagState "k" 1).elementRefStore "k" = none := by
  decide

/-- C6 amended: `remove(K, 2)` ("reference-only") deletes exactly the own
mapping for `K` and nothing else — the state is unchanged except for that
registry slot, so the element stays attached with its listeners intact —
except at `K = "__proto__"`: there the earlier `addElement` assignment
went through the inherited accessor and installed the element as the
store's prototype, `delete` cannot remove that mapping, the call changes
nothing, and `get(K)` still returns the element afterwards; the mapping
survives full mode too. `remove(K, 1)` ("full"), for `K ≠ "__proto__"`,
when the element stored under `K` carries `K` as its own `"state"` tag
(as the build path guarantees), its listeners are all covered by its
EventRegistry entry, and that entry is absent or non-empty: the mapping
for `K` is deleted, the EventRegistry entry is gone, the element retains
no listeners and no parent, and it disappears from its old parent's
children. -/
theorem c6_amended_remove_modes (S : DomState) (K : String) (e : Nat) (d : ElemData)
    (hK : K ≠ "")
    (hlook : lookupA S.elementRefStore K = some e)
    (hel : getElem S e = some d) :
    (K ≠ "__proto__" →
      removeElement S K 2 = { S with elementRefStore := eraseA S.elementRefStore K }) ∧
    (K = "__proto__" →
      removeElement S K 2 = S ∧
      getElement (removeElement S K 2) K = some e ∧
      lookupA (removeElement S K 1).elementRefStore K = some e) ∧
    ((lookupA d.dataset "state" = some K) → K ≠ "__proto__" →
     (∀ x ∈ d.listeners, matchesAny ((lookupA S.actionRefStore e).getD []) x = true) →
     (lookupA S.actionRefStore e ≠ some []) →
     lookupA (removeElement S K 1).elementRefStore K = none ∧
     lookupA (removeElement S K 1).actionRefStore e = none ∧
     (∃ d', getElem (removeElement S K 1) e = some d' ∧ d'.listeners = [] ∧ d'.parent = none) ∧
     (∀ p pd, d.parent = some p → p ≠ e → getElem S p = some pd →
       ∃ pd', getElem (removeElement S K 1) p = some pd' ∧ e ∉ pd'.children)) := by
  have hmode2 : removeElement S K 2 = removeElementRefOnly S K := by
    unfold removeElement
    rw [if_pos ⟨hK, Or.inr rfl⟩, if_neg (by decide : ¬ (2 : Nat) = 1)]
  have hmode1 : removeElement S K 1 = removeEventStore S e := by
    unfold removeElement
    rw [if_pos ⟨hK, Or.inl rfl⟩, if_pos rfl, hlook]
  refine ⟨?_, ?_, ?_⟩
  · intro hKp
    rw [hmode2, removeElementRefOnly_eq S K hKp]
  · intro hKp
    subst hKp
    refine ⟨?_, ?_, ?_⟩
    · rw [hmode2, removeElementRefOnly_proto]
    · rw [hmode2, removeElementRefOnly_proto]
      unfold getElement
      rw [if_pos hK]
      exact hlook
    · rw [hmode1, removeEventStore_store_proto]
      exact hlook
  · intro hst hKp hcover hne
    rw [hmode1]
    exact removeEventStore_teardown S e d K hel hst hK hKp hcover hne

/-- Witness for C6 at a concrete aligned state and at a concrete
prototype-keyed state. -/
theorem c6_amended_remove_modes_witness :
    (("k" : String) ≠ "" ∧ lookupA alignedTagState.elementRefStore "k" = some 1 ∧
      getElem alignedTagState 1 = some alignedTagElem) ∧
    removeElement alignedTagState "k" 2 =
      { alignedTagState with elementRefStore := eraseA alignedTagState.elementRefStore "k" } ∧
    lookupA (removeElement alignedTagState "k" 1).elementRefStore "k" = none ∧
    removeElement protoTagState "__proto__" 2 = protoTagState ∧
    getElement (removeElement protoTagState "__proto__" 2) "__proto__" = some 1 :=
  ⟨⟨by decide, by decide, by decide⟩,
    (c6_amended_remove_modes alignedTagState "k" 1 alignedTagElem (by decide) (by decide)
      (by decide)).1 (by decide),
    ((c6_amended_remove_modes alignedTagState "k" 1 alignedTagElem (by decide) (by decide)
      (by decide)).2.2 (by decide) (by decide) (by decide) (by decide)).1,
    ((c6_amended_remove_modes protoTagState "__proto__" 1 protoTagElem (by decide) (by decide)
      (by decide)).2.1 rfl).1,
    ((c6_amended_remove_modes protoTagState "__proto__" 1 protoTagElem (by decide) (by decide)
      (by decide)).2.1 rfl).2.1⟩

/-! ## Claim theorems: unregisterAll idempotence (C7) -/

/-- C7: `unregisterAll` (`removeEventStore`) is idempotent: a second call
on the same element is a no-op — the whole state (render tree,
ElementRegistry, EventRegistry, attached listeners) is exactly the state
after the first call, and (the model being total) nothing is thrown. -/
theorem c7_unregister_idempotent (S : DomState) (e : Nat) :
    removeEventStore (removeEventStore S e) e = removeEventStore S e := by
  have key : ∃ T, removeEventStore S e = removeFromDomStore T e ∧
      (lookupA T.actionRefStore e = none ∨
       ∃ l', lookupA T.actionRefStore e = some l' ∧ l'.length = 0) := by
    cases ha : lookupA S.actionRefStore e with
    | none =>
      refine ⟨S, ?_, Or.inl ha⟩
      unfold removeEventStore
      rw [ha]
    | some l =>
      by_cases hl : 1 ≤ l.length
      · refine ⟨{ l.foldr (fun item acc => domRemoveListener acc e item.type item.handler) S with
            actionRefStore := eraseA (l.foldr
              (fun item acc => domRemoveListener acc e item.type item.handler) S).actionRefStore e },
          ?_, Or.inl (lookupA_eraseA_self _ _)⟩
        unfold removeEventStore
        rw [ha]
        simp only [if_pos hl]
      · refine ⟨S, ?_, Or.inr ⟨l, ha, by omega⟩⟩
        unfold removeEventStore
        rw [ha]
        simp [hl]
  obtain ⟨T, hT, hP⟩ := key
  rw [hT]
  have hP2 : lookupA (removeFromDomStore T e).actionRefStore e = none ∨
      ∃ l', lookupA (removeFromDomStore T e).actionRefStore e = some l' ∧ l'.length = 0 := by
    rw [removeFromDomStore_actionRefStore]
    exact hP
  have h2 : removeEventStore (removeFromDomStore T e) e =
      removeFromDomStore (removeFromDomStore T e) e := by
    rcases hP2 with h | ⟨l', hl', hlen⟩
    · unfold removeEventStore
      rw [h]
    · unfold removeEventStore
      rw [hl']
      have hnot : ¬ 1 ≤ l'.length := by omega
      simp [hnot]
  rw [h2, removeFromDomStore_idem]

/-! ## Builder attribute/dataset walk lemmas -/

theorem setAttr_cons (S : DomState) (e : Nat) (x : String × String)
    (rest : List (String × String)) :
    setAttr S e (x :: rest) =
      (if x.1 ≠ "" then
        updateElem (setAttr S e rest) e (fun d => { d with attrs := setA d.attrs x.1 x.2 })
      else setAttr S e rest) := rfl

theorem setAttrNS_cons (S : DomState) (e : Nat) (x : String × String)
    (rest : List (String × String)) :
    setAttrNS S e (x :: rest) =
      (if x.1 ≠ "" then
        updateElem (setAttrNS S e rest) e (fun d => { d with attrsNS := setA d.attrsNS x.1 x.2 })
      else setAttrNS S e rest) := rfl

theorem setData_cons (S : DomState) (e : Nat) (x : String × String)
    (rest : List (String × String)) :
    setData S e (x :: rest) =
      (if x.1 ≠ "" then
        (if x.1 = "state" then
          addElement (updateElem (setData S e rest) e
            (fun d => { d with dataset := setA d.dataset x.1 x.2 })) x.2 e
        else updateElem (setData S e rest) e
          (fun d => { d with dataset := setA d.dataset x.1 x.2 }))
      else setData S e rest) := rfl

/-- After `setData` walks a dataset list containing a `"state"` tag with
unique names and a truthy value `K`, the `DomStore` maps `K` to the
element — whatever the starting registry contained. -/
theorem setData_store_state (l : List (String × String)) (S : DomState) (e : Nat) (K : String)
    (hmem : ("state", K) ∈ l) (hnodup : (l.map Prod.fst).Nodup) (hK : K ≠ "") :
    lookupA (setData S e l).elementRefStore K = some e := by
  induction l with
  | nil => cases hmem
  | cons x rest ih =>
    rw [setData_cons]
    rcases List.mem_cons.mp hmem with hx | hx
    · rw [← hx]
      have hne : ¬ ("state", K).1 = "" := by simp
      rw [if_pos hne, if_pos rfl]
      show lookupA (addElement _ K e).elementRefStore K = some e
      unfold addElement
      rw [if_pos hK]
      exact lookupA_setA_self _ _ _
    · have hnd := hnodup
      rw [List.map_cons, List.nodup_cons] at hnd
      have hxs : x.1 ≠ "state" := by
        intro hh
        exact hnd.1 (hh ▸ List.mem_map.mpr ⟨("state", K), hx, rfl⟩)
      have ih' := ih hx hnd.2
      by_cases hxe : x.1 = ""
      · rw [if_neg (by simpa using hxe)]
        exact ih'
      · rw [if_pos hxe, if_neg hxs, updateElem_elementRefStore]
        exact ih'

/-! ## Frame and well-formedness lemmas for the build steps -/

/-- Updating an element with a function that leaves a projection `g`
unchanged leaves `g` of every element unchanged. -/
theorem getElem_updateElem_map {γ : Type} (S : DomState) (e q : Nat) (f : ElemData → ElemData)
    (g : ElemData → γ) (hf : ∀ d, g (f d) = g d) :
    (getElem (updateElem S e f) q).map g = (getElem S q).map g := by
  by_cases hq : q = e
  · subst hq
    cases hg : getElem S q with
    | none => rw [updateElem_of_none _ _ _ hg, hg]
    | some d =>
      rw [getElem_updateElem_self _ _ _ _ hg]
      simp [hf]
  · rw [getElem_updateElem_ne _ _ _ _ hq]

theorem domRemove_map_dataset (S : DomState) (e q : Nat) :
    (getElem (domRemove S e) q).map ElemData.dataset = (getElem S q).map ElemData.dataset := by
  cases hg : getElem S e with
  | none => rw [domRemove_of_none S e hg]
  | some d =>
    cases hp : d.parent with
    | none => rw [domRemove_eq_of_parent_none S e d hg hp]
    | some p =>
      rw [domRemove_eq_detach S e p d hg hp]
      unfold detach
      rw [getElem_updateElem_map _ e q (fun ed => { ed with parent := none })
          ElemData.dataset (fun dd => rfl),
        getElem_updateElem_map S p q
          (fun pd => { pd with children := pd.children.filter (fun c => ¬ c = e) })
          ElemData.dataset (fun dd => rfl)]

theorem appendChild_map_dataset (S : DomState) (p c q : Nat) :
    (getElem (appendChild S p c) q).map ElemData.dataset = (getElem S q).map ElemData.dataset := by
  simp only [appendChild]
  rw [getElem_updateElem_map _ c q (fun cd => { cd with parent := some p })
      ElemData.dataset (fun dd => rfl),
    getElem_updateElem_map _ p q (fun pd => { pd with children := pd.children ++ [c] })
      ElemData.dataset (fun dd => rfl),
    domRemove_map_dataset]

theorem appendChild_elementRefStore (S : DomState) (p c : Nat) :
    (appendChild S p c).elementRefStore = S.elementRefStore := by
  simp only [appendChild]
  rw [updateElem_elementRefStore, updateElem_elementRefStore, domRemove_elementRefStore]

theorem appendChild_actionRefStore (S : DomState) (p c : Nat) :
    (appendChild S p c).actionRefStore = S.actionRefStore := by
  simp only [appendChild]
  rw [updateElem_actionRefStore, updateElem_actionRefStore, domRemove_actionRefStore]

theorem appendChild_nextId (S : DomState) (p c : Nat) :
    (appendChild S p c).nextId = S.nextId := by
  simp only [appendChild]
  rw [updateElem_nextId, updateElem_nextId, domRemove_nextId]

theorem WFState_domRemove (S : DomState) (e : Nat) (hWF : WFState S) :
    WFState (domRemove S e) := by
  cases hg : getElem S e with
  | none =>
    rw [domRemove_of_none S e hg]
    exact hWF
  | some d =>
    cases hp : d.parent with
    | none =>
      rw [domRemove_eq_of_parent_none S e d hg hp]
      exact hWF
    | some p =>
      rw [domRemove_eq_detach S e p d hg hp]
      exact WFState_updateElem _ _ _ (WFState_updateElem _ _ _ hWF)

theorem WFState_appendChild (S : DomState) (p c : Nat) (hWF : WFState S) :
    WFState (appendChild S p c) :=
  WFState_updateElem _ _ _ (WFState_updateElem _ _ _ (WFState_domRemove _ _ hWF))

theorem addElement_nextId (S : DomState) (k : String) (v : Nat) :
    (addElement S k v).nextId = S.nextId := by
  unfold addElement
  by_cases h : k ≠ "" <;> simp [h]

theorem addElement_elems (S : DomState) (k : String) (v : Nat) :
    (addElement S k v).elems = S.elems := by
  unfold addElement
  by_cases h : k ≠ "" <;> simp [h]

theorem addElement_actionRefStore (S : DomState) (k : String) (v : Nat) :
    (addElement S k v).actionRefStore = S.actionRefStore := by
  unfold addElement
  by_cases h : k ≠ "" <;> simp [h]

theorem getElem_addElement (S : DomState) (k : String) (v : Nat) (e : Nat) :
    getElem (addElement S k v) e = getElem S e := by
  unfold getElem
  rw [addElement_elems]

theorem WFState_addElement (S : DomState) (k : String) (v : Nat) (hWF : WFState S) :
    WFState (addElement S k v) := by
  constructor
  · intro pr hpr
    rw [addElement_elems] at hpr
    rw [addElement_nextId]
    exact hWF.1 pr hpr
  · intro pr hpr
    rw [addElement_actionRefStore] at hpr
    rw [addElement_nextId]
    exact hWF.2 pr hpr

theorem setAttr_nextId (l : List (String × String)) (S : DomState) (e : Nat) :
    (setAttr S e l).nextId = S.nextId := by
  induction l with
  | nil => rfl
  | cons x rest ih =>
    rw [setAttr_cons]
    by_cases hx : x.1 ≠ ""
    · rw [if_pos hx, updateElem_nextId]
      exact ih
    · rw [if_neg hx]
      exact ih

theorem WFState_setAttr (l : List (String × String)) (S : DomState) (e : Nat)
    (hWF : WFState S) : WFState (setAttr S e l) := by
  induction l with
  | nil => exact hWF
  | cons x rest ih =>
    rw [setAttr_cons]
    by_cases hx : x.1 ≠ ""
    · rw [if_pos hx]
      exact WFState_updateElem _ _ _ ih
    · rw [if_neg hx]
      exact ih

theorem setAttrNS_nextId (l : List (String × String)) (S : DomState) (e : Nat) :
    (setAttrNS S e l).nextId = S.nextId := by
  induction l with
  | nil => rfl
  | cons x rest ih =>
    rw [setAttrNS_cons]
    by_cases hx : x.1 ≠ ""
    · rw [if_pos hx, updateElem_nextId]
      exact ih
    · rw [if_neg hx]
      exact ih

theorem WFState_setAttrNS (l : List (String × String)) (S : DomState) (e : Nat)
    (hWF : WFState S) : WFState (setAttrNS S e l) := by
  induction l with
  | nil => exact hWF
  | cons x rest ih =>
    rw [setAttrNS_cons]
    by_cases hx : x.1 ≠ ""
    · rw [if_pos hx]
      exact WFState_updateElem _ _ _ ih
    · rw [if_neg hx]
      exact ih

theorem setData_nextId (l : List (String × String)) (S : DomState) (e : Nat) :
    (setData S e l).nextId = S.nextId := by
  induction l with
  | nil => rfl
  | cons x rest ih =>
    rw [setData_cons]
    by_cases hx : x.1 ≠ ""
    · rw [if_pos hx]
      by_cases hs : x.1 = "state"
      · rw [if_pos hs, addElement_nextId, updateElem_nextId]
        exact ih
      · rw [if_neg hs, updateElem_nextId]
        exact ih
    · rw [if_neg hx]
      exact ih

theorem WFState_setData (l : List (String × String)) (S : DomState) (e : Nat)
    (hWF : WFState S) : WFState (setData S e l) := by
  induction l with
  | nil => exact hWF
  | cons x rest ih =>
    rw [setData_cons]
    by_cases hx : x.1 ≠ ""
    · rw [if_pos hx]
      by_cases hs : x.1 = "state"
      · rw [if_pos hs]
        exact WFState_addElement _ _ _ (WFState_updateElem _ _ _ ih)
      · rw [if_neg hs]
        exact WFState_updateElem _ _ _ ih
    · rw [if_neg hx]
      exact ih

/-- `StateInv` transfers across operations that change neither the
element's dataset nor the registry. -/
theorem StateInv_of_frames (S S' : DomState) (e : Nat)
    (hd : (getElem S' e).map ElemData.dataset = (getElem S e).map ElemData.dataset)
    (hs : S'.elementRefStore = S.elementRefStore)
    (h : StateInv S e) : StateInv S' e := by
  intro v d hv hel hst
  rw [hs]
  cases hg : getElem S e with
  | none =>
    rw [hg, hel] at hd
    exact absurd hd (by simp)
  | some d0 =>
    rw [hg, hel] at hd
    simp only [Option.map_some'] at hd
    refine h v d0 hv hg ?_
    rw [← Option.some.inj hd]
    exact hst

theorem setAttr_elementRefStore (l : List (String × String)) (S : DomState) (e : Nat) :
    (setAttr S e l).elementRefStore = S.elementRefStore := by
  induction l with
  | nil => rfl
  | cons x rest ih =>
    rw [setAttr_cons]
    by_cases hx : x.1 ≠ ""
    · rw [if_pos hx, updateElem_elementRefStore]
      exact ih
    · rw [if_neg hx]
      exact ih

theorem setAttrNS_elementRefStore (l : List (String × String)) (S : DomState) (e : Nat) :
    (setAttrNS S e l).elementRefStore = S.elementRefStore := by
  induction l with
  | nil => rfl
  | cons x rest ih =>
    rw [setAttrNS_cons]
    by_cases hx : x.1 ≠ ""
    · rw [if_pos hx, updateElem_elementRefStore]
      exact ih
    · rw [if_neg hx]
      exact ih

theorem setAttr_map_dataset (l : List (String × String)) (S : DomState) (e q : Nat) :
    (getElem (setAttr S e l) q).map ElemData.dataset = (getElem S q).map ElemData.dataset := by
  induction l with
  | nil => rfl
  | cons x rest ih =>
    rw [setAttr_cons]
    by_cases hx : x.1 ≠ ""
    · rw [if_pos hx, getElem_updateElem_map _ e q
        (fun d => { d with attrs := setA d.attrs x.1 x.2 }) ElemData.dataset (fun dd => rfl)]
      exact ih
    · rw [if_neg hx]
      exact ih

theorem setAttrNS_map_dataset (l : List (String × String)) (S : DomState) (e q : Nat) :
    (getElem (setAttrNS S e l) q).map ElemData.dataset = (getElem S q).map ElemData.dataset := by
  induction l with
  | nil => rfl
  | cons x rest ih =>
    rw [setAttrNS_cons]
    by_cases hx : x.1 ≠ ""
    · rw [if_pos hx, getElem_updateElem_map _ e q
        (fun d => { d with attrsNS := setA d.attrsNS x.1 x.2 }) ElemData.dataset (fun dd => rfl)]
      exact ih
    · rw [if_neg hx]
      exact ih

/-- `setData` establishes / preserves the state-tag consistency. -/
theorem setData_StateInv (l : List (String × String)) (S : DomState) (e : Nat)
    (h : StateInv S e) : StateInv (setData S e l) e := by
  induction l with
  | nil => exact h
  | cons x rest ih =>
    rw [setData_cons]
    by_cases hx : x.1 ≠ ""
    · rw [if_pos hx]
      cases hg : getElem (setData S e rest) e with
      | none =>
        rw [updateElem_of_none _ _ _ hg]
        by_cases hs : x.1 = "state"
        · rw [if_pos hs]
          intro v d hv hel hst
          rw [getElem_addElement] at hel
          exact absurd (hg ▸ hel) (by simp)
        · rw [if_neg hs]
          exact ih
      | some dr =>
        by_cases hs : x.1 = "state"
        · rw [if_pos hs]
          intro v d hv hel hst
          have hup := getElem_updateElem_self (setData S e rest) e
            (fun dd => { dd with dataset := setA dd.dataset x.1 x.2 }) dr hg
          rw [getElem_addElement] at hel
          have hd := Option.some.inj (hup.symm.trans hel)
          rw [← hd] at hst
          dsimp only at hst
          rw [hs, lookupA_setA_self] at hst
          have hv2 : x.2 = v := Option.some.inj hst
          subst hv2
          show lookupA (addElement _ x.2 e).elementRefStore x.2 = some e
          unfold addElement
          rw [if_pos hv]
          exact lookupA_setA_self _ _ _
        · rw [if_neg hs]
          intro v d hv hel hst
          rw [updateElem_elementRefStore]
          have hup := getElem_updateElem_self (setData S e rest) e
            (fun dd => { dd with dataset := setA dd.dataset x.1 x.2 }) dr hg
          have hd := Option.some.inj (hup.symm.trans hel)
          rw [← hd] at hst
          dsimp only at hst
          rw [lookupA_setA_ne _ _ _ _ (fun hh => hs hh.symm)] at hst
          exact ih v dr hv hg hst
    · rw [if_neg hx]
      exact ih

/-- C5 counterexample: a node whose `"state"` metadata tag has the empty
string as value is built, but `ElementRegistry.get("")` does not return the
built element — `addElement` rejects the falsy key and `getElement` the
falsy lookup — so the claim fails at `K = ""`. -/
theorem c5_counterexample :
    ¬ getElement (buildElement initState (BuildData.mk "div" [] [] [("state", "")])).1 "" =
      some (buildElement initState (BuildData.mk "div" [] [] [("state", "")])).2 := by
  decide

/-- C5 amended: for a node description carrying a `"state"` metadata tag
with a non-empty value `K` (and, as `Object.entries` guarantees, unique tag
names), immediately after the node is built — by either builder —
`ElementRegistry.get(K)` returns exactly the element built for that node. -/
theorem c5_amended_state_registration (S : DomState) (bd : BuildData) (K : String)
    (hmem : ("state", K) ∈ bd.dataset) (hnodup : (bd.dataset.map Prod.fst).Nodup)
    (hK : K ≠ "") :
    getElement (buildElement S bd).1 K = some (buildElement S bd).2 ∧
    getElement (createElementNS S bd).1 K = some (createElementNS S bd).2 := by
  have hlen : bd.dataset.length ≠ 0 := by
    cases hd : bd.dataset with
    | nil => rw [hd] at hmem; cases hmem
    | cons a l => simp
  constructor
  · unfold buildElement
    simp only [allocNode, if_pos hlen]
    unfold getElement
    rw [if_pos hK]
    exact setData_store_state bd.dataset _ _ K hmem hnodup hK
  · unfold createElementNS
    simp only [allocNode, if_pos hlen]
    unfold getElement
    rw [if_pos hK]
    exact setData_store_state bd.dataset _ _ K hmem hnodup hK

/-- Witness for C5 at a concrete builder call. -/
theorem c5_amended_state_registration_witness :
    (("state", "box") ∈ (BuildData.mk "div" [] [] [("state", "box")]).dataset ∧
      ((BuildData.mk "div" [] [] [("state", "box")]).dataset.map Prod.fst).Nodup ∧
      "box" ≠ "") ∧
    getElement (buildElement initState (BuildData.mk "div" [] [] [("state", "box")])).1 "box" =
      some (buildElement initState (BuildData.mk "div" [] [] [("state", "box")])).2 :=
  ⟨⟨by decide, by decide, by decide⟩,
    (c5_amended_state_registration initState (BuildData.mk "div" [] [] [("state", "box")]) "box"
      (by decide) (by decide) (by decide)).1⟩

theorem StateInv_StateSome (S : DomState) (e : Nat) (h : StateInv S e) : StateSome S e := by
  intro v d hv hel hst
  rw [h v d hv hel hst]
  rfl

theorem StateSome_of_frames (S S' : DomState) (e : Nat)
    (hd : (getElem S' e).map ElemData.dataset = (getElem S e).map ElemData.dataset)
    (hs : ∀ v, (lookupA S.elementRefStore v).isSome = true →
      (lookupA S'.elementRefStore v).isSome = true)
    (h : StateSome S e) : StateSome S' e := by
  intro v d hv hel hst
  cases hg : getElem S e with
  | none =>
    rw [hg, hel] at hd
    exact absurd hd (by simp)
  | some d0 =>
    rw [hg, hel] at hd
    simp only [Option.map_some'] at hd
    refine hs v (h v d0 hv hg ?_)
    rw [← Option.some.inj hd]
    exact hst

theorem lookupA_setA_isSome {α β : Type} [DecidableEq α] (m : List (α × β)) (k q : α) (v : β)
    (h : (lookupA m q).isSome = true) : (lookupA (setA m k v) q).isSome = true := by
  by_cases hq : q = k
  · subst hq
    rw [lookupA_setA_self]
    rfl
  · rw [lookupA_setA_ne _ _ _ _ hq]
    exact h

theorem addElement_store_isSome (S : DomState) (k : String) (w : Nat) (q : String)
    (h : (lookupA S.elementRefStore q).isSome = true) :
    (lookupA (addElement S k w).elementRefStore q).isSome = true := by
  unfold addElement
  by_cases hk : k ≠ ""
  · rw [if_pos hk]
    exact lookupA_setA_isSome _ _ _ _ h
  · rw [if_neg hk]
    exact h

theorem setData_store_isSome (l : List (String × String)) (S : DomState) (e : Nat) (q : String)
    (h : (lookupA S.elementRefStore q).isSome = true) :
    (lookupA (setData S e l).elementRefStore q).isSome = true := by
  induction l with
  | nil => exact h
  | cons x rest ih =>
    rw [setData_cons]
    by_cases hx : x.1 ≠ ""
    · rw [if_pos hx]
      by_cases hs : x.1 = "state"
      · rw [if_pos hs]
        refine addElement_store_isSome _ _ _ _ ?_
        rw [updateElem_elementRefStore]
        exact ih
      · rw [if_neg hs, updateElem_elementRefStore]
        exact ih
    · rw [if_neg hx]
      exact ih

theorem setData_map_dataset_ne (l : List (String × String)) (S : DomState) (e q : Nat)
    (h : q ≠ e) :
    (getElem (setData S e l) q).map ElemData.dataset = (getElem S q).map ElemData.dataset := by
  induction l with
  | nil => rfl
  | cons x rest ih =>
    rw [setData_cons]
    by_cases hx : x.1 ≠ ""
    · rw [if_pos hx]
      by_cases hs : x.1 = "state"
      · rw [if_pos hs]
        unfold getElem
        rw [addElement_elems]
        show (getElem (updateElem _ e _) q).map ElemData.dataset = _
        rw [getElem_updateElem_ne _ _ _ _ h]
        exact ih
      · rw [if_neg hs]
        show (getElem (updateElem _ e _) q).map ElemData.dataset = _
        rw [getElem_updateElem_ne _ _ _ _ h]
        exact ih
    · rw [if_neg hx]
      exact ih

/-! ## Builder unfolding equations and weak specifications -/

theorem buildElement_eq (S : DomState) (bd : BuildData) :
    buildElement S bd =
      (let S1 := (allocNode S (freshElem false bd.type)).1
       let S2 := if bd.attr.length ≠ 0 then setAttr S1 S.nextId bd.attr else S1
       let S3 := if bd.dataset.length ≠ 0 then setData S2 S.nextId bd.dataset else S2
       (S3, S.nextId)) := rfl

theorem createElementNS_eq (S : DomState) (bd : BuildData) :
    createElementNS S bd =
      (let S1 := (allocNode S (freshElem true bd.type)).1
       let S2 := if bd.attr.length ≠ 0 then setAttr S1 S.nextId bd.attr else S1
       let S3 := if bd.attrNS.length ≠ 0 then setAttrNS S2 S.nextId bd.attrNS else S2
       let S4 := if bd.dataset.length ≠ 0 then setData S3 S.nextId bd.dataset else S3
       (S4, S.nextId)) := rfl

theorem createHTMLElement_eq (S : DomState) (ad : AttachData) :
    createHTMLElement S ad =
      (let S1 := (buildElement S ad.element).1
       let cE := (buildElement S ad.element).2
       let S2 := match ad.parent with
         | ParentRef.node p => appendChild S1 p cE
         | ParentRef.descr pdata =>
           appendChild (buildElement S1 pdata).1 (buildElement S1 pdata).2 cE
         | ParentRef.nullRef => appendChild S1 bodyId cE
       let dState := match getElem S2 cE with
         | some d => lookupA d.dataset "state"
         | none => none
       match ad.shadow, dState with
       | some mode, some stv =>
         if mode ≠ "" ∧ stv ≠ "" then
           match getElement S2 stv with
           | some target => ((attachShadow S2 target mode).1, some (attachShadow S2 target mode).2)
           | none => (S2, none)
         else (S2, some cE)
       | some _, none => (S2, some cE)
       | none, _ => (S2, some cE)) := rfl

theorem createSVGElement_eq (S : DomState) (ad : AttachData) :
    createSVGElement S ad =
      (let S1 := (createElementNS S ad.element).1
       let cE := (createElementNS S ad.element).2
       let S2 := match ad.parent with
         | ParentRef.node p =>
           match getElem S1 p with
           | some pd =>
             if pd.kind = NodeKind.element then appendChild S1 p cE
             else appendChild (createElementNS S1 (BuildData.mk "undefined" [] [] [])).1
               (createElementNS S1 (BuildData.mk "undefined" [] [] [])).2 cE
           | none => S1
         | ParentRef.descr pdata =>
           appendChild (createElementNS S1 pdata).1 (createElementNS S1 pdata).2 cE
         | ParentRef.nullRef => S1
       (S2, some cE)) := rfl

theorem attachShadow_snd (S : DomState) (t : Nat) (mode : String) :
    (attachShadow S t mode).2 = S.nextId := rfl

theorem attachShadow_nextId (S : DomState) (t : Nat) (mode : String) :
    (attachShadow S t mode).1.nextId = S.nextId + 1 := by
  unfold attachShadow
  simp only [allocNode]
  rw [updateElem_nextId]

theorem WFState_attachShadow (S : DomState) (t : Nat) (mode : String) (hWF : WFState S) :
    WFState (attachShadow S t mode).1 := by
  unfold attachShadow
  simp only [allocNode]
  exact WFState_updateElem _ _ _ (WFState_allocNode S _ hWF)

theorem buildElement_weak (S : DomState) (bd : BuildData) (hWF : WFState S) :
    (buildElement S bd).2 = S.nextId ∧
    (buildElement S bd).1.nextId = S.nextId + 1 ∧
    WFState (buildElement S bd).1 ∧
    StateInv (buildElement S bd).1 S.nextId := by
  have hbase : StateInv (allocNode S (freshElem false bd.type)).1 S.nextId := by
    intro v d hv hel hst
    rw [getElem_allocNode_self S _ hWF] at hel
    rw [← Option.some.inj hel] at hst
    exact absurd hst (by simp [freshElem, lookupA])
  have hbWF : WFState (allocNode S (freshElem false bd.type)).1 := WFState_allocNode S _ hWF
  rw [buildElement_eq]
  simp only []
  by_cases h1 : bd.attr.length ≠ 0 <;> by_cases h2 : bd.dataset.length ≠ 0
  · rw [if_pos h1, if_pos h2]
    refine ⟨by trivial, ?_, ?_, ?_⟩
    · rw [setData_nextId, setAttr_nextId, allocNode_nextId]
    · exact WFState_setData _ _ _ (WFState_setAttr _ _ _ hbWF)
    · exact setData_StateInv _ _ _ (StateInv_of_frames _ _ _ (setAttr_map_dataset _ _ _ _)
        (setAttr_elementRefStore _ _ _) hbase)
  · rw [if_pos h1, if_neg h2]
    refine ⟨by trivial, ?_, ?_, ?_⟩
    · rw [setAttr_nextId, allocNode_nextId]
    · exact WFState_setAttr _ _ _ hbWF
    · exact StateInv_of_frames _ _ _ (setAttr_map_dataset _ _ _ _)
        (setAttr_elementRefStore _ _ _) hbase
  · rw [if_neg h1, if_pos h2]
    refine ⟨by trivial, ?_, ?_, ?_⟩
    · rw [setData_nextId, allocNode_nextId]
    · exact WFState_setData _ _ _ hbWF
    · exact setData_StateInv _ _ _ hbase
  · rw [if_neg h1, if_neg h2]
    exact ⟨by trivial, by trivial, hbWF, hbase⟩

theorem createElementNS_weak (S : DomState) (bd : BuildData) (hWF : WFState S) :
    (createElementNS S bd).2 = S.nextId ∧
    (createElementNS S bd).1.nextId = S.nextId + 1 ∧
    WFState (createElementNS S bd).1 := by
  have hbWF : WFState (allocNode S (freshElem true bd.type)).1 := WFState_allocNode S _ hWF
  rw [createElementNS_eq]
  simp only []
  by_cases h1 : bd.attr.length ≠ 0 <;> by_cases h2 : bd.attrNS.length ≠ 0 <;>
    by_cases h3 : bd.dataset.length ≠ 0 <;>
    [rw [if_pos h1, if_pos h2, if_pos h3];
     rw [if_pos h1, if_pos h2, if_neg h3];
     rw [if_pos h1, if_neg h2, if_pos h3];
     rw [if_pos h1, if_neg h2, if_neg h3];
     rw [if_neg h1, if_pos h2, if_pos h3];
     rw [if_neg h1, if_pos h2, if_neg h3];
     rw [if_neg h1, if_neg h2, if_pos h3];
     rw [if_neg h1, if_neg h2, if_neg h3]] <;>
    refine ⟨by trivial, ?_, ?_⟩ <;>
    first
      | (rw [setData_nextId, setAttrNS_nextId, setAttr_nextId, allocNode_nextId])
      | (rw [setData_nextId, setAttrNS_nextId, allocNode_nextId])
      | (rw [setData_nextId, setAttr_nextId, allocNode_nextId])
      | (rw [setAttrNS_nextId, setAttr_nextId, allocNode_nextId])
      | (rw [setData_nextId, allocNode_nextId])
      | (rw [setAttrNS_nextId, allocNode_nextId])
      | (rw [setAttr_nextId, allocNode_nextId])
      | (rw [allocNode_nextId])
      | exact WFState_setData _ _ _ (WFState_setAttrNS _ _ _ (WFState_setAttr _ _ _ hbWF))
      | exact WFState_setData _ _ _ (WFState_setAttrNS _ _ _ hbWF)
      | exact WFState_setData _ _ _ (WFState_setAttr _ _ _ hbWF)
      | exact WFState_setAttrNS _ _ _ (WFState_setAttr _ _ _ hbWF)
      | exact WFState_setData _ _ _ hbWF
      | exact WFState_setAttrNS _ _ _ hbWF
      | exact WFState_setAttr _ _ _ hbWF
      | exact hbWF

theorem buildElement_store_isSome (S : DomState) (bd : BuildData) (q : String)
    (h : (lookupA S.elementRefStore q).isSome = true) :
    (lookupA (buildElement S bd).1.elementRefStore q).isSome = true := by
  rw [buildElement_eq]
  simp only []
  by_cases h1 : bd.attr.length ≠ 0 <;> by_cases h2 : bd.dataset.length ≠ 0
  · rw [if_pos h1, if_pos h2]
    refine setData_store_isSome _ _ _ _ ?_
    rw [setAttr_elementRefStore]
    exact h
  · rw [if_pos h1, if_neg h2, setAttr_elementRefStore]
    exact h
  · rw [if_neg h1, if_pos h2]
    exact setData_store_isSome _ _ _ _ h
  · rw [if_neg h1, if_neg h2]
    exact h

theorem buildElement_frame_dataset (S : DomState) (bd : BuildData) (q : Nat)
    (h : q ≠ S.nextId) :
    (getElem (buildElement S bd).1 q).map ElemData.dataset =
      (getElem S q).map ElemData.dataset := by
  have halloc : (getElem (allocNode S (freshElem false bd.type)).1 q).map ElemData.dataset =
      (getElem S q).map ElemData.dataset := by
    rw [getElem_allocNode_ne _ _ _ h]
  rw [buildElement_eq]
  simp only []
  by_cases h1 : bd.attr.length ≠ 0 <;> by_cases h2 : bd.dataset.length ≠ 0
  · rw [if_pos h1, if_pos h2, setData_map_dataset_ne _ _ _ _ h, setAttr_map_dataset, halloc]
  · rw [if_pos h1, if_neg h2, setAttr_map_dataset, halloc]
  · rw [if_neg h1, if_pos h2, setData_map_dataset_ne _ _ _ _ h, halloc]
  · rw [if_neg h1, if_neg h2, halloc]

theorem createSVGElement_weak (S : DomState) (ad : AttachData) (hWF : WFState S) :
    ∃ S', createSVGElement S ad = (S', some S.nextId) ∧ WFState S' ∧
      S.nextId < S'.nextId := by
  obtain ⟨hsnd, hnx, hWF1⟩ := createElementNS_weak S ad.element hWF
  rw [createSVGElement_eq]
  simp only []
  rw [hsnd]
  cases ad.parent with
  | node p =>
    dsimp only
    cases hgp : getElem (createElementNS S ad.element).1 p with
    | some pd =>
      dsimp only
      by_cases hk : pd.kind = NodeKind.element
      · rw [if_pos hk]
        refine ⟨_, rfl, WFState_appendChild _ _ _ hWF1, ?_⟩
        rw [appendChild_nextId, hnx]
        omega
      · rw [if_neg hk]
        obtain ⟨hsnd2, hnx2, hWF2⟩ :=
          createElementNS_weak (createElementNS S ad.element).1 (BuildData.mk "undefined" [] [] []) hWF1
        refine ⟨_, rfl, WFState_appendChild _ _ _ hWF2, ?_⟩
        rw [appendChild_nextId, hnx2, hnx]
        omega
    | none =>
      dsimp only
      refine ⟨_, rfl, hWF1, ?_⟩
      rw [hnx]
      omega
  | descr pdata =>
    dsimp only
    obtain ⟨hsnd2, hnx2, hWF2⟩ := createElementNS_weak (createElementNS S ad.element).1 pdata hWF1
    refine ⟨_, rfl, WFState_appendChild _ _ _ hWF2, ?_⟩
    rw [appendChild_nextId, hnx2, hnx]
    omega
  | nullRef =>
    dsimp only
    refine ⟨_, rfl, hWF1, ?_⟩
    rw [hnx]
    omega

/-- The shadow-replacement tail of `createHTMLElement`: with the built
element's state-tag consistency in hand, the registry lookup cannot fault,
so the result is always a live node. -/
theorem createHTMLElement_tail (S2 : DomState) (cE : Nat) (sh : Option String)
    (hWF2 : WFState S2) (hcE : cE < S2.nextId) (hSome : StateSome S2 cE) :
    ∃ S' el, (match sh, (match getElem S2 cE with
        | some d => lookupA d.dataset "state"
        | none => none) with
      | some mode, some stv =>
        if mode ≠ "" ∧ stv ≠ "" then
          match getElement S2 stv with
          | some target => ((attachShadow S2 target mode).1, some (attachShadow S2 target mode).2)
          | none => (S2, none)
        else (S2, some cE)
      | some _, none => (S2, some cE)
      | none, _ => (S2, some cE)) = (S', some el) ∧
      WFState S' ∧ S2.nextId ≤ S'.nextId ∧ el < S'.nextId := by
  cases sh with
  | none => exact ⟨S2, cE, rfl, hWF2, Nat.le_refl _, hcE⟩
  | some mode =>
    cases hel : getElem S2 cE with
    | none => exact ⟨S2, cE, rfl, hWF2, Nat.le_refl _, hcE⟩
    | some d =>
      dsimp only
      cases hq : lookupA d.dataset "state" with
      | none => exact ⟨S2, cE, rfl, hWF2, Nat.le_refl _, hcE⟩
      | some stv =>
        dsimp only
        by_cases hc : mode ≠ "" ∧ stv ≠ ""
        · rw [if_pos hc]
          obtain ⟨target, ht⟩ :=
            Option.isSome_iff_exists.mp (hSome stv d hc.2 hel hq)
          have hg : getElement S2 stv = some target := by
            unfold getElement
            rw [if_pos hc.2]
            exact ht
          rw [hg]
          refine ⟨_, _, rfl, WFState_attachShadow _ _ _ hWF2, ?_, ?_⟩
          · rw [attachShadow_nextId]
            omega
          · rw [attachShadow_nextId, attachShadow_snd]
            omega
        · rw [if_neg hc]
          exact ⟨S2, cE, rfl, hWF2, Nat.le_refl _, hcE⟩

theorem createHTMLElement_weak (S : DomState) (ad : AttachData) (hWF : WFState S) :
    ∃ S' el, createHTMLElement S ad = (S', some el) ∧ WFState S' ∧
      S.nextId < S'.nextId ∧ el < S'.nextId := by
  obtain ⟨hsnd, hnx, hWF1, hInv⟩ := buildElement_weak S ad.element hWF
  rw [createHTMLElement_eq]
  simp only []
  rw [hsnd]
  have hS2 : ∃ S2, (match ad.parent with
      | ParentRef.node p => appendChild (buildElement S ad.element).1 p S.nextId
      | ParentRef.descr pdata =>
        appendChild (buildElement (buildElement S ad.element).1 pdata).1
          (buildElement (buildElement S ad.element).1 pdata).2 S.nextId
      | ParentRef.nullRef => appendChild (buildElement S ad.element).1 bodyId S.nextId) = S2 ∧
      WFState S2 ∧ S2.nextId = S.nextId + 1 ∨
      (match ad.parent with
      | ParentRef.node p => appendChild (buildElement S ad.element).1 p S.nextId
      | ParentRef.descr pdata =>
        appendChild (buildElement (buildElement S ad.element).1 pdata).1
          (buildElement (buildElement S ad.element).1 pdata).2 S.nextId
      | ParentRef.nullRef => appendChild (buildElement S ad.element).1 bodyId S.nextId) = S2 ∧
      WFState S2 ∧ S2.nextId = S.nextId + 2 := by
    cases ad.parent with
    | node p =>
      try dsimp only
      refine ⟨_, Or.inl ⟨rfl, WFState_appendChild _ _ _ hWF1, ?_⟩⟩
      rw [appendChild_nextId, hnx]
    | descr pdata =>
      try dsimp only
      obtain ⟨hsnd2, hnx2, hWF2, _⟩ := buildElement_weak (buildElement S ad.element).1 pdata hWF1
      refine ⟨_, Or.inr ⟨rfl, WFState_appendChild _ _ _ hWF2, ?_⟩⟩
      rw [appendChild_nextId, hnx2, hnx]
    | nullRef =>
      try dsimp only
      refine ⟨_, Or.inl ⟨rfl, WFState_appendChild _ _ _ hWF1, ?_⟩⟩
      rw [appendChild_nextId, hnx]
  have hSomeBase : StateSome (buildElement S ad.element).1 S.nextId :=
    StateInv_StateSome _ _ hInv
  have hSome2 : ∀ T, (match ad.parent with
      | ParentRef.node p => appendChild (buildElement S ad.element).1 p S.nextId
      | ParentRef.descr pdata =>
        appendChild (buildElement (buildElement S ad.element).1 pdata).1
          (buildElement (buildElement S ad.element).1 pdata).2 S.nextId
      | ParentRef.nullRef => appendChild (buildElement S ad.element).1 bodyId S.nextId) = T →
      StateSome T S.nextId := by
    cases ad.parent with
    | node p =>
      intro T hT
      rw [← hT]
      exact StateSome_of_frames _ _ _ (appendChild_map_dataset _ _ _ _)
        (fun v hv => by rw [appendChild_elementRefStore]; exact hv) hSomeBase
    | descr pdata =>
      intro T hT
      rw [← hT]
      refine StateSome_of_frames _ _ _ ?_ ?_
        (StateSome_of_frames _ _ _
          (buildElement_frame_dataset (buildElement S ad.element).1 pdata S.nextId
            (by rw [hnx]; omega))
          (fun v hv => buildElement_store_isSome _ _ _ hv) hSomeBase)
      · exact appendChild_map_dataset _ _ _ _
      · intro v hv
        rw [appendChild_elementRefStore]
        exact hv
    | nullRef =>
      intro T hT
      rw [← hT]
      exact StateSome_of_frames _ _ _ (appendChild_map_dataset _ _ _ _)
        (fun v hv => by rw [appendChild_elementRefStore]; exact hv) hSomeBase
  obtain ⟨S2, hS2d⟩ := hS2
  rcases hS2d with ⟨hS2eq, hWF2, hnx2⟩ | ⟨hS2eq, hWF2, hnx2⟩
  · rw [hS2eq]
    obtain ⟨S', el, heq, hWF', hle, helb⟩ := createHTMLElement_tail S2 S.nextId ad.shadow hWF2
      (by omega) (hSome2 S2 hS2eq)
    exact ⟨S', el, heq, hWF', by omega, helb⟩
  · rw [hS2eq]
    obtain ⟨S', el, heq, hWF', hle, helb⟩ := createHTMLElement_tail S2 S.nextId ad.shadow hWF2
      (by omega) (hSome2 S2 hS2eq)
    exact ⟨S', el, heq, hWF', by omega, helb⟩

/-! ## Record-level characterization of the builders -/

theorem lookupA_cons {α β : Type} [DecidableEq α] (k : α) (v : β) (m : List (α × β)) (q : α) :
    lookupA ((k, v) :: m) q = if k = q then some v else lookupA m q := rfl

theorem setAttr_if (S : DomState) (e : Nat) (l : List (String × String)) :
    (if l.length ≠ 0 then setAttr S e l else S) = setAttr S e l := by
  by_cases h : l.length ≠ 0
  · rw [if_pos h]
  · rw [if_neg h]
    have hl : l = [] := List.length_eq_zero.mp (by omega)
    rw [hl]
    rfl

theorem setAttrNS_if (S : DomState) (e : Nat) (l : List (String × String)) :
    (if l.length ≠ 0 then setAttrNS S e l else S) = setAttrNS S e l := by
  by_cases h : l.length ≠ 0
  · rw [if_pos h]
  · rw [if_neg h]
    have hl : l = [] := List.length_eq_zero.mp (by omega)
    rw [hl]
    rfl

theorem setData_if (S : DomState) (e : Nat) (l : List (String × String)) :
    (if l.length ≠ 0 then setData S e l else S) = setData S e l := by
  by_cases h : l.length ≠ 0
  · rw [if_pos h]
  · rw [if_neg h]
    have hl : l = [] := List.length_eq_zero.mp (by omega)
    rw [hl]
    rfl

theorem getElem_setAttr_ne (l : List (String × String)) (S : DomState) (e q : Nat)
    (h : q ≠ e) : getElem (setAttr S e l) q = getElem S q := by
  induction l with
  | nil => rfl
  | cons x rest ih =>
    rw [setAttr_cons]
    by_cases hx : x.1 ≠ ""
    · rw [if_pos hx, getElem_updateElem_ne _ _ _ _ h]
      exact ih
    · rw [if_neg hx]
      exact ih

theorem getElem_setAttrNS_ne (l : List (String × String)) (S : DomState) (e q : Nat)
    (h : q ≠ e) : getElem (setAttrNS S e l) q = getElem S q := by
  induction l with
  | nil => rfl
  | cons x rest ih =>
    rw [setAttrNS_cons]
    by_cases hx : x.1 ≠ ""
    · rw [if_pos hx, getElem_updateElem_ne _ _ _ _ h]
      exact ih
    · rw [if_neg hx]
      exact ih

theorem getElem_setData_ne (l : List (String × String)) (S : DomState) (e q : Nat)
    (h : q ≠ e) : getElem (setData S e l) q = getElem S q := by
  induction l with
  | nil => rfl
  | cons x rest ih =>
    rw [setData_cons]
    by_cases hx : x.1 ≠ ""
    · rw [if_pos hx]
      by_cases hst : x.1 = "state"
      · rw [if_pos hst, getElem_addElement, getElem_updateElem_ne _ _ _ _ h]
        exact ih
      · rw [if_neg hst, getElem_updateElem_ne _ _ _ _ h]
        exact ih
    · rw [if_neg hx]
      exact ih

theorem setAttr_actionRefStore (l : List (String × String)) (S : DomState) (e : Nat) :
    (setAttr S e l).actionRefStore = S.actionRefStore := by
  induction l with
  | nil => rfl
  | cons x rest ih =>
    rw [setAttr_cons]
    by_cases hx : x.1 ≠ ""
    · rw [if_pos hx, updateElem_actionRefStore]
      exact ih
    · rw [if_neg hx]
      exact ih

theorem setAttrNS_actionRefStore (l : List (String × String)) (S : DomState) (e : Nat) :
    (setAttrNS S e l).actionRefStore = S.actionRefStore := by
  induction l with
  | nil => rfl
  | cons x rest ih =>
    rw [setAttrNS_cons]
    by_cases hx : x.1 ≠ ""
    · rw [if_pos hx, updateElem_actionRefStore]
      exact ih
    · rw [if_neg hx]
      exact ih

theorem setData_actionRefStore (l : List (String × String)) (S : DomState) (e : Nat) :
    (setData S e l).actionRefStore = S.actionRefStore := by
  induction l with
  | nil => rfl
  | cons x rest ih =>
    rw [setData_cons]
    by_cases hx : x.1 ≠ ""
    · rw [if_pos hx]
      by_cases hst : x.1 = "state"
      · rw [if_pos hst, addElement_actionRefStore, updateElem_actionRefStore]
        exact ih
      · rw [if_neg hst, updateElem_actionRefStore]
        exact ih
    · rw [if_neg hx]
      exact ih

theorem setAttr_shape (l : List (String × String)) (S : DomState) (e : Nat) (d : ElemData)
    (h : getElem S e = some d) :
    ∃ A, getElem (setAttr S e l) e = some { d with attrs := A } := by
  induction l with
  | nil => exact ⟨d.attrs, h⟩
  | cons x rest ih =>
    obtain ⟨A, hA⟩ := ih
    rw [setAttr_cons]
    by_cases hx : x.1 ≠ ""
    · rw [if_pos hx]
      exact ⟨setA A x.1 x.2,
        getElem_updateElem_self _ e (fun dd => { dd with attrs := setA dd.attrs x.1 x.2 }) _ hA⟩
    · rw [if_neg hx]
      exact ⟨A, hA⟩

theorem setAttrNS_shape (l : List (String × String)) (S : DomState) (e : Nat) (d : ElemData)
    (h : getElem S e = some d) :
    ∃ N, getElem (setAttrNS S e l) e = some { d with attrsNS := N } := by
  induction l with
  | nil => exact ⟨d.attrsNS, h⟩
  | cons x rest ih =>
    obtain ⟨N, hN⟩ := ih
    rw [setAttrNS_cons]
    by_cases hx : x.1 ≠ ""
    · rw [if_pos hx]
      exact ⟨setA N x.1 x.2,
        getElem_updateElem_self _ e (fun dd => { dd with attrsNS := setA dd.attrsNS x.1 x.2 }) _ hN⟩
    · rw [if_neg hx]
      exact ⟨N, hN⟩

theorem setData_state_shape (l : List (String × String)) (S : DomState) (e : Nat) (d : ElemData)
    (h : getElem S e = some d) :
    ∃ D, getElem (setData S e l) e = some { d with dataset := D } ∧
      lookupA D "state" = (match lookupA l "state" with
        | some v => some v
        | none => lookupA d.dataset "state") := by
  induction l with
  | nil => exact ⟨d.dataset, h, rfl⟩
  | cons x rest ih =>
    obtain ⟨xk, xv⟩ := x
    obtain ⟨D, hD, hs⟩ := ih
    rw [setData_cons]
    dsimp only
    by_cases hx : xk ≠ ""
    · rw [if_pos hx]
      by_cases hst : xk = "state"
      · subst hst
        rw [if_pos rfl]
        refine ⟨setA D "state" xv, ?_, ?_⟩
        · rw [getElem_addElement]
          exact getElem_updateElem_self _ e
            (fun dd => { dd with dataset := setA dd.dataset "state" xv }) _ hD
        · rw [lookupA_setA_self, lookupA_cons, if_pos rfl]
      · rw [if_neg hst]
        refine ⟨setA D xk xv, ?_, ?_⟩
        · exact getElem_updateElem_self _ e
            (fun dd => { dd with dataset := setA dd.dataset xk xv }) _ hD
        · rw [lookupA_setA_ne _ _ _ _ (fun hh => hst hh.symm), lookupA_cons, if_neg hst]
          exact hs
    · rw [if_neg hx]
      have hxe : xk = "" := by
        by_contra hc
        exact hx hc
      refine ⟨D, hD, ?_⟩
      rw [lookupA_cons, if_neg (by rw [hxe]; decide)]
      exact hs

theorem buildElement_record (S : DomState) (bd : BuildData) (hWF : WFState S) :
    ∃ A D, getElem (buildElement S bd).1 S.nextId =
      some { freshElem false bd.type with attrs := A, dataset := D } ∧
      lookupA D "state" = lookupA bd.dataset "state" := by
  rw [buildElement_eq]
  simp only []
  rw [setAttr_if, setData_if]
  obtain ⟨A, hA⟩ := setAttr_shape bd.attr _ S.nextId _ (getElem_allocNode_self S _ hWF)
  obtain ⟨D, hD, hs⟩ := setData_state_shape bd.dataset _ S.nextId _ hA
  refine ⟨A, D, hD, ?_⟩
  rw [hs]
  cases hb : lookupA bd.dataset "state" <;> rfl

theorem createElementNS_record (S : DomState) (bd : BuildData) (hWF : WFState S) :
    ∃ A N D, getElem (createElementNS S bd).1 S.nextId =
      some { freshElem true bd.type with attrs := A, attrsNS := N, dataset := D } := by
  rw [createElementNS_eq]
  simp only []
  rw [setAttr_if, setAttrNS_if, setData_if]
  obtain ⟨A, hA⟩ := setAttr_shape bd.attr _ S.nextId _ (getElem_allocNode_self S _ hWF)
  obtain ⟨N, hN⟩ := setAttrNS_shape bd.attrNS _ S.nextId _ hA
  obtain ⟨D, hD, _⟩ := setData_state_shape bd.dataset _ S.nextId _ hN
  exact ⟨A, N, D, hD⟩

theorem buildElement_frame (S : DomState) (bd : BuildData) (q : Nat) (h : q ≠ S.nextId) :
    getElem (buildElement S bd).1 q = getElem S q := by
  rw [buildElement_eq]
  simp only []
  rw [setAttr_if, setData_if, getElem_setData_ne _ _ _ _ h, getElem_setAttr_ne _ _ _ _ h,
    getElem_allocNode_ne _ _ _ h]

theorem createElementNS_frame (S : DomState) (bd : BuildData) (q : Nat) (h : q ≠ S.nextId) :
    getElem (createElementNS S bd).1 q = getElem S q := by
  rw [createElementNS_eq]
  simp only []
  rw [setAttr_if, setAttrNS_if, setData_if, getElem_setData_ne _ _ _ _ h,
    getElem_setAttrNS_ne _ _ _ _ h, getElem_setAttr_ne _ _ _ _ h, getElem_allocNode_ne _ _ _ h]

theorem buildElement_actionRefStore (S : DomState) (bd : BuildData) :
    (buildElement S bd).1.actionRefStore = S.actionRefStore := by
  rw [buildElement_eq]
  simp only []
  rw [setAttr_if, setData_if, setData_actionRefStore, setAttr_actionRefStore,
    allocNode_actionRefStore]

theorem createElementNS_actionRefStore (S : DomState) (bd : BuildData) :
    (createElementNS S bd).1.actionRefStore = S.actionRefStore := by
  rw [createElementNS_eq]
  simp only []
  rw [setAttr_if, setAttrNS_if, setData_if, setData_actionRefStore, setAttrNS_actionRefStore,
    setAttr_actionRefStore, allocNode_actionRefStore]

/-! ## Record-level specifications of the attach and wiring steps -/

theorem appendChild_spec (S : DomState) (p c : Nat) (pd cd : ElemData)
    (hp : getElem S p = some pd) (hc : getElem S c = some cd) (hcp : cd.parent = none)
    (hne : p ≠ c) :
    getElem (appendChild S p c) p = some { pd with children := pd.children ++ [c] } ∧
    getElem (appendChild S p c) c = some { cd with parent := some p } ∧
    (∀ q, q ≠ p → q ≠ c → getElem (appendChild S p c) q = getElem S q) := by
  have h1 : domRemove S c = S := domRemove_eq_of_parent_none S c cd hc hcp
  simp only [appendChild]
  rw [h1]
  refine ⟨?_, ?_, ?_⟩
  · rw [getElem_updateElem_ne _ _ _ _ hne]
    exact getElem_updateElem_self _ _ _ _ hp
  · refine getElem_updateElem_self _ _ _ cd ?_
    rw [getElem_updateElem_ne _ _ _ _ (fun hh => hne hh.symm)]
    exact hc
  · intro q hqp hqc
    rw [getElem_updateElem_ne _ _ _ _ hqc, getElem_updateElem_ne _ _ _ _ hqp]

theorem attachShadow_eq (S : DomState) (t : Nat) (mode : String) :
    attachShadow S t mode =
      ((updateElem (allocNode S { freshElem false mode with kind := NodeKind.shadowRoot }).1 t
        (fun d => { d with shadow := some S.nextId })), S.nextId) := rfl

theorem attachShadow_spec (S : DomState) (t : Nat) (mode : String) (td : ElemData)
    (ht : getElem S t = some td) (hWF : WFState S) :
    getElem (attachShadow S t mode).1 t = some { td with shadow := some S.nextId } ∧
    getElem (attachShadow S t mode).1 S.nextId =
      some { freshElem false mode with kind := NodeKind.shadowRoot } ∧
    (∀ q, q ≠ t → q ≠ S.nextId → getElem (attachShadow S t mode).1 q = getElem S q) ∧
    (attachShadow S t mode).1.elementRefStore = S.elementRefStore ∧
    (attachShadow S t mode).1.actionRefStore = S.actionRefStore := by
  have hneq : t ≠ S.nextId := by
    intro hh
    rw [hh, getElem_none_of_ge S _ hWF (Nat.le_refl _)] at ht
    exact Option.noConfusion ht
  rw [attachShadow_eq]
  refine ⟨?_, ?_, ?_, ?_, ?_⟩
  · refine getElem_updateElem_self _ _ _ td ?_
    rw [getElem_allocNode_ne _ _ _ hneq]
    exact ht
  · rw [getElem_updateElem_ne _ _ _ _ (fun hh => hneq hh.symm)]
    exact getElem_allocNode_self S _ hWF
  · intro q hqt hqn
    rw [getElem_updateElem_ne _ _ _ _ hqt, getElem_allocNode_ne _ _ _ hqn]
  · rw [updateElem_elementRefStore, allocNode_elementRefStore]
  · rw [updateElem_actionRefStore, allocNode_actionRefStore]

theorem getElem_textStep_self (S : DomState) (el : Nat) (tf : Option String) (d : ElemData)
    (h : getElem S el = some d) :
    ∃ tx, getElem (textStep S el tf) el = some { d with text := tx } := by
  cases tf with
  | none => exact ⟨d.text, h⟩
  | some ts =>
    show ∃ tx, getElem (if ts ≠ "" then domSetText S el ts else S) el = some { d with text := tx }
    by_cases hts : ts ≠ ""
    · rw [if_pos hts]
      exact ⟨some ts, getElem_updateElem_self _ _ _ _ h⟩
    · rw [if_neg hts]
      exact ⟨d.text, h⟩

theorem getElem_textStep_ne (S : DomState) (el : Nat) (tf : Option String) (q : Nat)
    (h : q ≠ el) : getElem (textStep S el tf) q = getElem S q := by
  cases tf with
  | none => rfl
  | some ts =>
    show getElem (if ts ≠ "" then domSetText S el ts else S) q = getElem S q
    by_cases hts : ts ≠ ""
    · rw [if_pos hts]
      exact getElem_updateElem_ne _ _ _ _ h
    · rw [if_neg hts]

theorem textStep_elementRefStore (S : DomState) (el : Nat) (tf : Option String) :
    (textStep S el tf).elementRefStore = S.elementRefStore := by
  cases tf with
  | none => rfl
  | some ts =>
    show (if ts ≠ "" then domSetText S el ts else S).elementRefStore = S.elementRefStore
    by_cases hts : ts ≠ ""
    · rw [if_pos hts]
      exact updateElem_elementRefStore _ _ _
    · rw [if_neg hts]

theorem textStep_actionRefStore (S : DomState) (el : Nat) (tf : Option String) :
    (textStep S el tf).actionRefStore = S.actionRefStore := by
  cases tf with
  | none => rfl
  | some ts =>
    show (if ts ≠ "" then domSetText S el ts else S).actionRefStore = S.actionRefStore
    by_cases hts : ts ≠ ""
    · rw [if_pos hts]
      exact updateElem_actionRefStore _ _ _
    · rw [if_neg hts]

theorem getElem_htmlStep_self (S : DomState) (el : Nat) (hf : Option String) (d : ElemData)
    (h : getElem S el = some d) :
    ∃ hx, getElem (htmlStep S el hf) el = some { d with htmlRaw := hx } := by
  cases hf with
  | none => exact ⟨d.htmlRaw, h⟩
  | some hs =>
    show ∃ hx, getElem (if hs ≠ "" then domSetHtml S el hs else S) el =
      some { d with htmlRaw := hx }
    by_cases hhs : hs ≠ ""
    · rw [if_pos hhs]
      exact ⟨some hs, getElem_updateElem_self _ _ _ _ h⟩
    · rw [if_neg hhs]
      exact ⟨d.htmlRaw, h⟩

theorem getElem_htmlStep_ne (S : DomState) (el : Nat) (hf : Option String) (q : Nat)
    (h : q ≠ el) : getElem (htmlStep S el hf) q = getElem S q := by
  cases hf with
  | none => rfl
  | some hs =>
    show getElem (if hs ≠ "" then domSetHtml S el hs else S) q = getElem S q
    by_cases hhs : hs ≠ ""
    · rw [if_pos hhs]
      exact getElem_updateElem_ne _ _ _ _ h
    · rw [if_neg hhs]

theorem htmlStep_elementRefStore (S : DomState) (el : Nat) (hf : Option String) :
    (htmlStep S el hf).elementRefStore = S.elementRefStore := by
  cases hf with
  | none => rfl
  | some hs =>
    show (if hs ≠ "" then domSetHtml S el hs else S).elementRefStore = S.elementRefStore
    by_cases hhs : hs ≠ ""
    · rw [if_pos hhs]
      exact updateElem_elementRefStore _ _ _
    · rw [if_neg hhs]

theorem htmlStep_actionRefStore (S : DomState) (el : Nat) (hf : Option String) :
    (htmlStep S el hf).actionRefStore = S.actionRefStore := by
  cases hf with
  | none => rfl
  | some hs =>
    show (if hs ≠ "" then domSetHtml S el hs else S).actionRefStore = S.actionRefStore
    by_cases hhs : hs ≠ ""
    · rw [if_pos hhs]
      exact updateElem_actionRefStore _ _ _
    · rw [if_neg hhs]

/-! ## Unfolding equations and step lemmas for the compiler -/

theorem createFromStructCore_none (acts : String → Option Nat) (S : DomState)
    (parent : ParentRef) (hasCb : Bool) (attrF attrNSF datasetF : List (String × String))
    (textF htmlF : Option String) (eventF : Option EventDesc) (childrenF : Children)
    (shadowF : Option String) :
    createFromStructCore acts S
      (Struct.mk none attrF attrNSF datasetF textF htmlF eventF childrenF shadowF) parent hasCb =
      (S, Struct.mk none attrF attrNSF datasetF textF htmlF eventF childrenF shadowF, 0) := rfl

theorem createFromStructCore_mk (acts : String → Option Nat) (S : DomState)
    (parent : ParentRef) (hasCb : Bool) (t : String) (attrF attrNSF datasetF : List (String × String))
    (textF htmlF : Option String) (eventF : Option EventDesc) (childrenF : Children)
    (shadowF : Option String) :
    createFromStructCore acts S
      (Struct.mk (some t) attrF attrNSF datasetF textF htmlF eventF childrenF shadowF) parent hasCb =
      (if t = "" then
        (S, Struct.mk (some t) attrF attrNSF datasetF textF htmlF eventF childrenF shadowF, 0)
      else
        let ad := AttachData.mk parent shadowF (BuildData.mk t attrF attrNSF datasetF)
        let r1 := if lowerStr t = "svg" then createSVGElement S ad else createHTMLElement S ad
        match r1.2 with
        | none =>
          (r1.1, Struct.mk (some t) attrF attrNSF datasetF textF htmlF eventF childrenF shadowF, 0)
        | some el =>
          let S3 := htmlStep (textStep r1.1 el textF) el htmlF
          let S4 := createEventElement acts S3
            (Struct.mk (some t) attrF attrNSF datasetF textF htmlF eventF childrenF shadowF) el
          let r2 := createChildren acts S4 childrenF el hasCb
          (r2.1, Struct.mk (some t) attrF attrNSF datasetF textF htmlF eventF r2.2.1 shadowF,
            r2.2.2)) := rfl

theorem createChildren_absent (acts : String → Option Nat) (S : DomState) (el : Nat)
    (hasCb : Bool) :
    createChildren acts S Children.absent el hasCb =
      (S, Children.absent, if hasCb then 1 else 0) := rfl

theorem createChildren_emptyList (acts : String → Option Nat) (S : DomState) (el : Nat)
    (hasCb : Bool) :
    createChildren acts S (Children.present StructList.nil) el hasCb =
      (S, Children.present StructList.nil, 0) := rfl

theorem createChildren_cons (acts : String → Option Nat) (S : DomState) (c : Struct)
    (cs : StructList) (el : Nat) (hasCb : Bool) :
    createChildren acts S (Children.present (StructList.cons c cs)) el hasCb =
      (let r := createChildrenLoop acts S (StructList.cons c cs) el hasCb
       (r.1, Children.present (reverseSL r.2.1), r.2.2 + (if hasCb then 1 else 0))) := rfl

theorem createChildrenLoop_nil (acts : String → Option Nat) (S : DomState) (el : Nat)
    (hasCb : Bool) :
    createChildrenLoop acts S StructList.nil el hasCb = (S, StructList.nil, 0) := rfl

theorem createChildrenLoop_cons (acts : String → Option Nat) (S : DomState) (c : Struct)
    (cs : StructList) (el : Nat) (hasCb : Bool) :
    createChildrenLoop acts S (StructList.cons c cs) el hasCb =
      (let r1 := createFromStructCore acts S c (ParentRef.node el) hasCb
       let r2 := createChildrenLoop acts r1.1 cs el hasCb
       (r2.1, StructList.cons r1.2.1 r2.2.1, r1.2.2 + r2.2.2)) := rfl

theorem cbWeight_none (attrF attrNSF datasetF : List (String × String))
    (textF htmlF : Option String) (eventF : Option EventDesc) (childrenF : Children)
    (shadowF : Option String) :
    cbWeight (Struct.mk none attrF attrNSF datasetF textF htmlF eventF childrenF shadowF) =
      0 := rfl

theorem cbWeight_some (t : String) (attrF attrNSF datasetF : List (String × String))
    (textF htmlF : Option String) (eventF : Option EventDesc) (childrenF : Children)
    (shadowF : Option String) :
    cbWeight (Struct.mk (some t) attrF attrNSF datasetF textF htmlF eventF childrenF shadowF) =
      (if t = "" then 0 else cbWeightC childrenF) := rfl

theorem structReversed_some (t : String) (attrF attrNSF datasetF : List (String × String))
    (textF htmlF : Option String) (eventF : Option EventDesc) (childrenF : Children)
    (shadowF : Option String) :
    structReversed (Struct.mk (some t) attrF attrNSF datasetF textF htmlF eventF childrenF
      shadowF) =
      (if t = "" then
        Struct.mk (some t) attrF attrNSF datasetF textF htmlF eventF childrenF shadowF
      else
        Struct.mk (some t) attrF attrNSF datasetF textF htmlF eventF
          (childrenReversed childrenF) shadowF) := rfl

theorem domSetText_nextId (S : DomState) (e : Nat) (s : String) :
    (domSetText S e s).nextId = S.nextId := updateElem_nextId S e _

theorem domSetHtml_nextId (S : DomState) (e : Nat) (s : String) :
    (domSetHtml S e s).nextId = S.nextId := updateElem_nextId S e _

theorem WFState_domSetText (S : DomState) (e : Nat) (s : String) (h : WFState S) :
    WFState (domSetText S e s) := WFState_updateElem S e _ h

theorem WFState_domSetHtml (S : DomState) (e : Nat) (s : String) (h : WFState S) :
    WFState (domSetHtml S e s) := WFState_updateElem S e _ h

theorem textStep_spec (S1 : DomState) (el : Nat) (textF : Option String) (hWF1 : WFState S1) :
    WFState (textStep S1 el textF) ∧ (textStep S1 el textF).nextId = S1.nextId := by
  cases textF with
  | none => exact ⟨hWF1, rfl⟩
  | some ts =>
    show WFState (if ts ≠ "" then domSetText S1 el ts else S1) ∧
      (if ts ≠ "" then domSetText S1 el ts else S1).nextId = S1.nextId
    by_cases hts : ts ≠ ""
    · rw [if_pos hts]
      exact ⟨WFState_domSetText _ _ _ hWF1, domSetText_nextId _ _ _⟩
    · rw [if_neg hts]
      exact ⟨hWF1, rfl⟩

theorem htmlStep_spec (S1 : DomState) (el : Nat) (htmlF : Option String) (hWF1 : WFState S1) :
    WFState (htmlStep S1 el htmlF) ∧ (htmlStep S1 el htmlF).nextId = S1.nextId := by
  cases htmlF with
  | none => exact ⟨hWF1, rfl⟩
  | some hs =>
    show WFState (if hs ≠ "" then domSetHtml S1 el hs else S1) ∧
      (if hs ≠ "" then domSetHtml S1 el hs else S1).nextId = S1.nextId
    by_cases hhs : hs ≠ ""
    · rw [if_pos hhs]
      exact ⟨WFState_domSetHtml _ _ _ hWF1, domSetHtml_nextId _ _ _⟩
    · rw [if_neg hhs]
      exact ⟨hWF1, rfl⟩

theorem registerEventStore_nextId (S : DomState) (el : Nat) (ty : String) (hh : Nat)
    (nid : Option String) : (registerEventStore S el ty hh nid).nextId = S.nextId := by
  unfold registerEventStore
  by_cases hty : ty ≠ ""
  · rw [if_pos hty]
    show (domAddListener _ el ty hh).nextId = S.nextId
    unfold domAddListener
    rw [updateElem_nextId]
  · rw [if_neg hty]

theorem WFState_setA_action (S : DomState) (el : Nat) (v : List EventSchema)
    (hWF : WFState S) (hel : el < S.nextId) :
    WFState { S with actionRefStore := setA S.actionRefStore el v } := by
  constructor
  · intro pr hpr
    exact hWF.1 pr hpr
  · intro pr hpr
    rcases mem_setA _ _ _ pr hpr with h | h
    · rw [h]
      exact hel
    · exact hWF.2 pr h

theorem WFState_registerEventStore (S : DomState) (el : Nat) (ty : String) (hh : Nat)
    (nid : Option String) (hWF : WFState S) (hel : el < S.nextId) :
    WFState (registerEventStore S el ty hh nid) := by
  unfold registerEventStore
  by_cases hty : ty ≠ ""
  · rw [if_pos hty]
    exact WFState_updateElem _ _ _ (WFState_setA_action S el _ hWF hel)
  · rw [if_neg hty]
    exact hWF

theorem createEventElement_nextId (acts : String → Option Nat) (S : DomState) (s : Struct)
    (el : Nat) : (createEventElement acts S s el).nextId = S.nextId := by
  unfold createEventElement
  cases s.event with
  | none => rfl
  | some ev =>
    cases ev with
    | mk typeF actionF nodeF =>
      cases actionF with
      | none => cases typeF <;> rfl
      | some action =>
        cases typeF with
        | none => rfl
        | some ty =>
          show (if action ≠ "" ∧ ty ≠ "" then _ else S).nextId = S.nextId
          by_cases hg : action ≠ "" ∧ ty ≠ ""
          · rw [if_pos hg]
            cases acts action with
            | none => rfl
            | some handler => exact registerEventStore_nextId _ _ _ _ _
          · rw [if_neg hg]

theorem WFState_createEventElement (acts : String → Option Nat) (S : DomState) (s : Struct)
    (el : Nat) (hWF : WFState S) (hel : el < S.nextId) :
    WFState (createEventElement acts S s el) := by
  unfold createEventElement
  cases s.event with
  | none => exact hWF
  | some ev =>
    cases ev with
    | mk typeF actionF nodeF =>
      cases actionF with
      | none => cases typeF <;> exact hWF
      | some action =>
        cases typeF with
        | none => exact hWF
        | some ty =>
          show WFState (if action ≠ "" ∧ ty ≠ "" then _ else S)
          by_cases hg : action ≠ "" ∧ ty ≠ ""
          · rw [if_pos hg]
            cases acts action with
            | none => exact hWF
            | some handler => exact WFState_registerEventStore _ _ _ _ _ hWF hel
          · rw [if_neg hg]
            exact hWF

theorem createEventElement_spec (acts : String → Option Nat) (S : DomState) (s : Struct)
    (el : Nat) (d : ElemData) (hel : getElem S el = some d) (hl : d.listeners = [])
    (hent : lookupA S.actionRefStore el = none) :
    getElem (createEventElement acts S s el) el =
      some { d with listeners := evListeners acts s } ∧
    (∀ q, q ≠ el → getElem (createEventElement acts S s el) q = getElem S q) ∧
    lookupA (createEventElement acts S s el).actionRefStore el = evEntry acts s ∧
    (∀ q, q ≠ el → lookupA (createEventElement acts S s el).actionRefStore q =
      lookupA S.actionRefStore q) ∧
    (createEventElement acts S s el).elementRefStore = S.elementRefStore := by
  have hd0 : ({ d with listeners := ([] : List (String × Nat)) }) = d := by
    rw [← hl]
  unfold createEventElement evEntry evListeners evSchemas
  cases s.event with
  | none =>
    refine ⟨?_, fun q hq => rfl, hent, fun q hq => rfl, rfl⟩
    show getElem S el = some { d with listeners := ([] : List (String × Nat)) }
    rw [hd0]
    exact hel
  | some ev =>
    cases ev with
    | mk typeF actionF nodeF =>
      cases actionF with
      | none =>
        cases typeF with
        | none =>
          refine ⟨?_, fun q hq => rfl, hent, fun q hq => rfl, rfl⟩
          show getElem S el = some { d with listeners := ([] : List (String × Nat)) }
          rw [hd0]
          exact hel
        | some ty =>
          refine ⟨?_, fun q hq => rfl, hent, fun q hq => rfl, rfl⟩
          show getElem S el = some { d with listeners := ([] : List (String × Nat)) }
          rw [hd0]
          exact hel
      | some action =>
        cases typeF with
        | none =>
          refine ⟨?_, fun q hq => rfl, hent, fun q hq => rfl, rfl⟩
          show getElem S el = some { d with listeners := ([] : List (String × Nat)) }
          rw [hd0]
          exact hel
        | some ty =>
          dsimp only
          by_cases hg : action ≠ "" ∧ ty ≠ ""
          · rw [if_pos hg, if_pos hg]
            cases acts action with
            | none =>
              refine ⟨?_, fun q hq => rfl, hent, fun q hq => rfl, rfl⟩
              show getElem S el = some { d with listeners := ([] : List (String × Nat)) }
              rw [hd0]
              exact hel
            | some handler =>
              unfold registerEventStore
              dsimp only
              rw [if_pos hg.2]
              rw [hent]
              unfold domAddListener
              refine ⟨?_, ?_, ?_, ?_, ?_⟩
              · refine (getElem_updateElem_self _ el _ d ?_).trans ?_
                · exact hel
                · dsimp only
                  rw [hl]
                  simp only [List.any_nil]
                  rw [if_neg (by decide)]
                  rfl
              · intro q hq
                rw [getElem_updateElem_ne _ _ _ _ hq]
                rfl
              · rw [updateElem_actionRefStore]
                dsimp only
                rw [lookupA_setA_self]
                rfl
              · intro q hq
                rw [updateElem_actionRefStore]
                dsimp only
                rw [lookupA_setA_ne _ _ _ _ hq]
              · rw [updateElem_elementRefStore]
          · rw [if_neg hg, if_neg hg]
            refine ⟨?_, fun q hq => rfl, hent, fun q hq => rfl, rfl⟩
            show getElem S el = some { d with listeners := ([] : List (String × Nat)) }
            rw [hd0]
            exact hel

/-! ## Stability of realization under lower bounds and frames -/

mutual
/-- A realization with lower bound `lo` is one for any smaller bound. -/
theorem Realizes_mono (s : Struct) (S : DomState) (lo lo2 e a : Nat)
    (hle : lo2 ≤ lo) (h : Realizes S lo s e a) : Realizes S lo2 s e a := by
  cases s with
  | mk el attrF attrNSF dsF txF htF evF ch shF =>
    obtain ⟨he, d, hd, hpar, hkind, htag, hsh⟩ := h
    refine ⟨Nat.le_trans hle he, d, hd, hpar, hkind, htag, ?_⟩
    revert hsh
    cases d.shadow with
    | none =>
      intro hsh
      exact RealizesC_mono ch S lo lo2 d.children e hle hsh
    | some sr =>
      intro hsh
      obtain ⟨hsr, sd, hsd, hsk, hrc⟩ := hsh
      exact ⟨Nat.le_trans hle hsr, sd, hsd, hsk,
        RealizesC_mono ch S lo lo2 sd.children sr hle hrc⟩

theorem RealizesC_mono (ch : Children) (S : DomState) (lo lo2 : Nat) (es : List Nat) (a : Nat)
    (hle : lo2 ≤ lo) (h : RealizesC S lo ch es a) : RealizesC S lo2 ch es a := by
  cases ch with
  | absent => exact h
  | present items => exact RealizesL_mono items S lo lo2 es a hle h

theorem RealizesL_mono (items : StructList) (S : DomState) (lo lo2 : Nat) (es : List Nat)
    (a : Nat) (hle : lo2 ≤ lo) (h : RealizesL S lo items es a) : RealizesL S lo2 items es a := by
  cases items with
  | nil => exact h
  | cons c cs =>
    cases es with
    | nil => exact h.elim
    | cons e es2 =>
      obtain ⟨h1, h2⟩ := h
      exact ⟨Realizes_mono c S lo lo2 e a hle h1, RealizesL_mono cs S lo lo2 es2 a hle h2⟩
end

mutual
/-- A realization survives any state change that preserves the records of
all nodes at or above its lower bound. -/
theorem Realizes_frame (s : Struct) (S S2 : DomState) (lo e a : Nat)
    (hag : ∀ q dd, lo ≤ q → getElem S q = some dd → getElem S2 q = some dd)
    (h : Realizes S lo s e a) : Realizes S2 lo s e a := by
  cases s with
  | mk el attrF attrNSF dsF txF htF evF ch shF =>
    obtain ⟨he, d, hd, hpar, hkind, htag, hsh⟩ := h
    refine ⟨he, d, hag e d he hd, hpar, hkind, htag, ?_⟩
    revert hsh
    cases d.shadow with
    | none =>
      intro hsh
      exact RealizesC_frame ch S S2 lo d.children e hag hsh
    | some sr =>
      intro hsh
      obtain ⟨hsr, sd, hsd, hsk, hrc⟩ := hsh
      exact ⟨hsr, sd, hag sr sd hsr hsd, hsk,
        RealizesC_frame ch S S2 lo sd.children sr hag hrc⟩

theorem RealizesC_frame (ch : Children) (S S2 : DomState) (lo : Nat) (es : List Nat) (a : Nat)
    (hag : ∀ q dd, lo ≤ q → getElem S q = some dd → getElem S2 q = some dd)
    (h : RealizesC S lo ch es a) : RealizesC S2 lo ch es a := by
  cases ch with
  | absent => exact h
  | present items => exact RealizesL_frame items S S2 lo es a hag h

theorem RealizesL_frame (items : StructList) (S S2 : DomState) (lo : Nat) (es : List Nat)
    (a : Nat)
    (hag : ∀ q dd, lo ≤ q → getElem S q = some dd → getElem S2 q = some dd)
    (h : RealizesL S lo items es a) : RealizesL S2 lo items es a := by
  cases items with
  | nil => exact h
  | cons c cs =>
    cases es with
    | nil => exact h.elim
    | cons e es2 =>
      obtain ⟨h1, h2⟩ := h
      exact ⟨Realizes_frame c S S2 lo e a hag h1, RealizesL_frame cs S S2 lo es2 a hag h2⟩
end

/-! ## Strong specifications of the two attach paths under a live parent -/

theorem createSVGElement_strong (S : DomState) (bd : BuildData) (p : Nat) (sh : Option String)
    (pd : ElemData) (hWF : WFState S) (hp : getElem S p = some pd)
    (hpk : pd.kind = NodeKind.element) :
    ∃ S2 A N D,
      createSVGElement S (AttachData.mk (ParentRef.node p) sh bd) = (S2, some S.nextId) ∧
      WFState S2 ∧ S2.nextId = S.nextId + 1 ∧
      (∀ q, q ≠ p → q ≠ S.nextId → getElem S2 q = getElem S q) ∧
      S2.actionRefStore = S.actionRefStore ∧
      getElem S2 p = some { pd with children := pd.children ++ [S.nextId] } ∧
      getElem S2 S.nextId = some { freshElem true bd.type with attrs := A, attrsNS := N, dataset := D, parent := some p } := by
  have hpn : p < S.nextId := getElem_lt_nextId S p pd hWF hp
  obtain ⟨hsnd, hnx, hWF1⟩ := createElementNS_weak S bd hWF
  obtain ⟨A, N, D, hrec⟩ := createElementNS_record S bd hWF
  have hfp : getElem (createElementNS S bd).1 p = some pd := by
    rw [createElementNS_frame S bd p (by omega)]
    exact hp
  obtain ⟨hap, hac, haf⟩ := appendChild_spec (createElementNS S bd).1 p S.nextId pd _ hfp hrec
    rfl (by omega)
  rw [createSVGElement_eq]
  dsimp only
  rw [hsnd, hfp]
  dsimp only
  rw [if_pos hpk]
  refine ⟨_, A, N, D, rfl, WFState_appendChild _ _ _ hWF1, ?_, ?_, ?_, hap, hac⟩
  · rw [appendChild_nextId]
    exact hnx
  · intro q hqp hqn
    rw [haf q hqp hqn, createElementNS_frame S bd q hqn]
  · rw [appendChild_actionRefStore, createElementNS_actionRefStore]

theorem createHTMLElement_strong (S : DomState) (bd : BuildData) (p : Nat) (sh : Option String)
    (pd : ElemData) (hWF : WFState S) (hp : getElem S p = some pd) :
    ∃ S2 A D,
      createHTMLElement S (AttachData.mk (ParentRef.node p) sh bd) =
        (S2, some (if shadowCond bd.dataset sh then S.nextId + 1 else S.nextId)) ∧
      WFState S2 ∧
      S2.nextId = S.nextId + (if shadowCond bd.dataset sh then 2 else 1) ∧
      (∀ q, q ≠ p → q ≠ S.nextId → q ≠ S.nextId + 1 → getElem S2 q = getElem S q) ∧
      S2.actionRefStore = S.actionRefStore ∧
      getElem S2 p = some { pd with children := pd.children ++ [S.nextId] } ∧
      getElem S2 S.nextId = some { freshElem false bd.type with attrs := A, dataset := D, parent := some p, shadow := (if shadowCond bd.dataset sh then some (S.nextId + 1) else none) } ∧
      (shadowCond bd.dataset sh = true →
        getElem S2 (S.nextId + 1) = some { freshElem false (sh.getD "") with kind := NodeKind.shadowRoot }) := by
  have hpn : p < S.nextId := getElem_lt_nextId S p pd hWF hp
  obtain ⟨hsnd, hnx, hWF1, hInv⟩ := buildElement_weak S bd hWF
  obtain ⟨A, D, hrecEq, hDs⟩ := buildElement_record S bd hWF
  have hfp : getElem (buildElement S bd).1 p = some pd := by
    rw [buildElement_frame S bd p (by omega)]
    exact hp
  obtain ⟨hap, hac, haf⟩ := appendChild_spec (buildElement S bd).1 p S.nextId pd _ hfp hrecEq
    rfl (by omega)
  have hWF2 : WFState (appendChild (buildElement S bd).1 p S.nextId) :=
    WFState_appendChild _ _ _ hWF1
  have hn2 : (appendChild (buildElement S bd).1 p S.nextId).nextId = S.nextId + 1 := by
    rw [appendChild_nextId]
    exact hnx
  rw [createHTMLElement_eq]
  dsimp only
  rw [hsnd, hac]
  dsimp only
  rw [hDs]
  cases sh with
  | none =>
    have hb : shadowCond bd.dataset none = false := rfl
    rw [hb]
    simp only [Bool.false_eq_true, reduceIte]
    refine ⟨_, A, D, rfl, hWF2, hn2, ?_, ?_, hap, hac, ?_⟩
    · intro q hqp hqn hqn1
      rw [haf q hqp hqn, buildElement_frame S bd q hqn]
    · rw [appendChild_actionRefStore, buildElement_actionRefStore]
    · intro hbt
      exact absurd hbt (by decide)
  | some mode =>
    cases hls : lookupA bd.dataset "state" with
    | none =>
      have hb : shadowCond bd.dataset (some mode) = false := by
        unfold shadowCond
        rw [hls]
        exact Bool.and_false _
      rw [hb]
      simp only [Bool.false_eq_true, reduceIte]
      refine ⟨_, A, D, rfl, hWF2, hn2, ?_, ?_, hap, hac, ?_⟩
      · intro q hqp hqn hqn1
        rw [haf q hqp hqn, buildElement_frame S bd q hqn]
      · rw [appendChild_actionRefStore, buildElement_actionRefStore]
      · intro hbt
        exact absurd hbt (by decide)
    | some stv =>
      dsimp only
      by_cases hgu : mode ≠ "" ∧ stv ≠ ""
      · have hb : shadowCond bd.dataset (some mode) = true := by
          unfold shadowCond
          rw [hls]
          show (decide (mode ≠ "") && decide (stv ≠ "")) = true
          simp only [Bool.and_eq_true, decide_eq_true_eq]
          exact ⟨hgu.1, hgu.2⟩
        have hInv2 : StateInv (appendChild (buildElement S bd).1 p S.nextId) S.nextId :=
          StateInv_of_frames _ _ _ (appendChild_map_dataset _ _ _ _)
            (appendChild_elementRefStore _ _ _) hInv
        have hstv : lookupA D "state" = some stv := hDs.trans hls
        have hlook : lookupA (appendChild (buildElement S bd).1 p S.nextId).elementRefStore
            stv = some S.nextId := hInv2 stv _ hgu.2 hac hstv
        have hgtv : getElement (appendChild (buildElement S bd).1 p S.nextId) stv =
            some S.nextId := by
          unfold getElement
          rw [if_pos hgu.2]
          exact hlook
        obtain ⟨hat, hasr, haf2, hes, has⟩ :=
          attachShadow_spec (appendChild (buildElement S bd).1 p S.nextId) S.nextId mode _
            hac hWF2
        rw [hn2] at hat hasr haf2
        rw [if_pos hgu, hgtv]
        dsimp only
        rw [hb]
        simp only [reduceIte]
        refine ⟨_, A, D, ?_, WFState_attachShadow _ _ _ hWF2, ?_, ?_, ?_, ?_, hat, ?_⟩
        · rw [attachShadow_snd, hn2]
        · rw [attachShadow_nextId, hn2]
        · intro q hqp hqn hqn1
          rw [haf2 q hqn hqn1, haf q hqp hqn, buildElement_frame S bd q hqn]
        · rw [has, appendChild_actionRefStore, buildElement_actionRefStore]
        · rw [haf2 p (by omega) (by omega)]
          exact hap
        · intro hbt
          exact hasr
      · have hb : shadowCond bd.dataset (some mode) = false := by
          cases hcb : shadowCond bd.dataset (some mode) with
          | false => rfl
          | true =>
            exfalso
            apply hgu
            unfold shadowCond at hcb
            rw [hls] at hcb
            simp only [Bool.and_eq_true, decide_eq_true_eq] at hcb
            exact hcb
        rw [if_neg hgu, hb]
        simp only [Bool.false_eq_true, reduceIte]
        refine ⟨_, A, D, rfl, hWF2, hn2, ?_, ?_, hap, hac, ?_⟩
        · intro q hqp hqn hqn1
          rw [haf q hqp hqn, buildElement_frame S bd q hqn]
        · rw [appendChild_actionRefStore, buildElement_actionRefStore]
        · intro hbt
          exact absurd hbt (by decide)

/-! ## Extraction lemmas for the declarative predicates -/

theorem validTree_parts (t : String) (attrF attrNSF datasetF : List (String × String))
    (textF htmlF : Option String) (eventF : Option EventDesc) (childrenF : Children)
    (shadowF : Option String)
    (h : validTree (Struct.mk (some t) attrF attrNSF datasetF textF htmlF eventF childrenF
      shadowF) = true) : t ≠ "" ∧ validChildren childrenF = true := by
  unfold validTree at h
  simp only [Bool.and_eq_true, decide_eq_true_eq] at h
  exact ⟨h.1.1, h.2⟩

theorem svgOk_parts (el : Option String) (attrF attrNSF datasetF : List (String × String))
    (textF htmlF : Option String) (eventF : Option EventDesc) (childrenF : Children)
    (shadowF : Option String) (u : Bool)
    (h : svgOk (Struct.mk el attrF attrNSF datasetF textF htmlF eventF childrenF shadowF) u =
      true) :
    (!u || !isSvgType el) = true ∧ svgOkC childrenF (shadowEffB el datasetF shadowF) = true := by
  unfold svgOk at h
  rw [Bool.and_eq_true] at h
  exact h

theorem validList_cons (c : Struct) (cs : StructList) :
    validList (StructList.cons c cs) = (validTree c && validList cs) := rfl

theorem svgOkL_cons (c : Struct) (cs : StructList) (u : Bool) :
    svgOkL (StructList.cons c cs) u = (svgOk c u && svgOkL cs u) := rfl

theorem allocCount_some (t : String) (attrF attrNSF datasetF : List (String × String))
    (textF htmlF : Option String) (eventF : Option EventDesc) (childrenF : Children)
    (shadowF : Option String) :
    allocCount (Struct.mk (some t) attrF attrNSF datasetF textF htmlF eventF childrenF
      shadowF) =
      (if t = "" then 0
       else 1 + (if shadowEffB (some t) datasetF shadowF then 1 else 0) +
         allocCountC childrenF) := rfl

theorem allocCountL_cons (c : Struct) (cs : StructList) :
    allocCountL (StructList.cons c cs) = allocCount c + allocCountL cs := rfl

theorem isSvgType_true (t : String) (h : lowerStr t = "svg") : isSvgType (some t) = true := by
  unfold isSvgType
  show (if lowerStr t = "svg" then true else false) = true
  rw [h]
  decide

theorem isSvgType_false (t : String) (h : ¬ lowerStr t = "svg") :
    isSvgType (some t) = false := by
  unfold isSvgType
  show (if lowerStr t = "svg" then true else false) = false
  rw [if_neg h]

theorem shadowEffB_svg (t : String) (ds : List (String × String)) (sh : Option String)
    (h : lowerStr t = "svg") : shadowEffB (some t) ds sh = false := by
  unfold shadowEffB
  rw [isSvgType_true t h]
  rfl

theorem shadowEffB_not_svg (t : String) (ds : List (String × String)) (sh : Option String)
    (h : ¬ lowerStr t = "svg") : shadowEffB (some t) ds sh = shadowCond ds sh := by
  unfold shadowEffB shadowCond
  rw [isSvgType_false t h]
  rfl

/-! ## The common tail of one node's compile: text, html, event, children -/

/-- After the builder has produced the attachment node `a` with record
`arec`, the rest of the node's compile applies `text`/`html`, wires the
event, and compiles the children under `a`.  The children step itself is
passed in as a hypothesis (`hCH`), to be discharged by the mutual
induction. -/
theorem compileTail_spec (acts : String → Option Nat) (T : DomState) (smk : Struct)
    (childrenF : Children) (a : Nat) (hasCb : Bool) (u2 : Bool) (arec : ElemData)
    (textF htmlF : Option String)
    (hWFT : WFState T) (haT : getElem T a = some arec) (hlist : arec.listeners = [])
    (hkindA : arec.kind = (if u2 then NodeKind.shadowRoot else NodeKind.element))
    (hentT : lookupA T.actionRefStore a = none) (han : a < T.nextId)
    (hCH : ∀ (S2 : DomState) (ad : ElemData), WFState S2 → getElem S2 a = some ad →
      ad.kind = (if u2 then NodeKind.shadowRoot else NodeKind.element) →
      WFState (createChildren acts S2 childrenF a hasCb).1 ∧
      (createChildren acts S2 childrenF a hasCb).1.nextId = S2.nextId + allocCountC childrenF ∧
      (∀ q qd, q ≠ a → getElem S2 q = some qd →
        getElem (createChildren acts S2 childrenF a hasCb).1 q = some qd) ∧
      (∀ q, q < S2.nextId →
        lookupA (createChildren acts S2 childrenF a hasCb).1.actionRefStore q =
          lookupA S2.actionRefStore q) ∧
      ∃ es, getElem (createChildren acts S2 childrenF a hasCb).1 a =
          some { ad with children := ad.children ++ es } ∧
        RealizesC (createChildren acts S2 childrenF a hasCb).1 S2.nextId childrenF es a) :
    WFState (createChildren acts
      (createEventElement acts (htmlStep (textStep T a textF) a htmlF) smk a)
      childrenF a hasCb).1 ∧
    (createChildren acts
      (createEventElement acts (htmlStep (textStep T a textF) a htmlF) smk a)
      childrenF a hasCb).1.nextId = T.nextId + allocCountC childrenF ∧
    (∀ q qd, q ≠ a → getElem T q = some qd →
      getElem (createChildren acts
        (createEventElement acts (htmlStep (textStep T a textF) a htmlF) smk a)
        childrenF a hasCb).1 q = some qd) ∧
    (∀ q, q < T.nextId → q ≠ a →
      lookupA (createChildren acts
        (createEventElement acts (htmlStep (textStep T a textF) a htmlF) smk a)
        childrenF a hasCb).1.actionRefStore q = lookupA T.actionRefStore q) ∧
    lookupA (createChildren acts
      (createEventElement acts (htmlStep (textStep T a textF) a htmlF) smk a)
      childrenF a hasCb).1.actionRefStore a = evEntry acts smk ∧
    ∃ tx hx es,
      getElem (createChildren acts
        (createEventElement acts (htmlStep (textStep T a textF) a htmlF) smk a)
        childrenF a hasCb).1 a =
        some { arec with text := tx, htmlRaw := hx, listeners := evListeners acts smk, children := arec.children ++ es } ∧
      RealizesC (createChildren acts
        (createEventElement acts (htmlStep (textStep T a textF) a htmlF) smk a)
        childrenF a hasCb).1 T.nextId childrenF es a := by
  obtain ⟨tx, htx⟩ := getElem_textStep_self T a textF arec haT
  obtain ⟨hx, hhx⟩ := getElem_htmlStep_self _ a htmlF _ htx
  have hWF1 : WFState (textStep T a textF) := (textStep_spec T a textF hWFT).1
  have hWF2 : WFState (htmlStep (textStep T a textF) a htmlF) :=
    (htmlStep_spec _ a htmlF hWF1).1
  have hnx2 : (htmlStep (textStep T a textF) a htmlF).nextId = T.nextId := by
    rw [(htmlStep_spec _ a htmlF hWF1).2, (textStep_spec T a textF hWFT).2]
  have hent2 : lookupA (htmlStep (textStep T a textF) a htmlF).actionRefStore a = none := by
    rw [htmlStep_actionRefStore, textStep_actionRefStore]
    exact hentT
  obtain ⟨hev1, hev2, hev3, hev4, hev5⟩ :=
    createEventElement_spec acts _ smk a _ hhx hlist hent2
  have hWFE : WFState (createEventElement acts (htmlStep (textStep T a textF) a htmlF)
      smk a) := WFState_createEventElement acts _ smk a hWF2 (by omega)
  have hnxE : (createEventElement acts (htmlStep (textStep T a textF) a htmlF)
      smk a).nextId = T.nextId := by
    rw [createEventElement_nextId]
    exact hnx2
  obtain ⟨hWFC, hnxC, hfrC, hactC, es, hparC, hRC⟩ := hCH _ _ hWFE hev1 hkindA
  refine ⟨hWFC, ?_, ?_, ?_, ?_, tx, hx, es, hparC, ?_⟩
  · rw [hnxC, hnxE]
  · intro q qd hq hgq
    refine hfrC q qd hq ?_
    rw [hev2 q hq, getElem_htmlStep_ne _ _ _ q hq, getElem_textStep_ne _ _ _ q hq]
    exact hgq
  · intro q hqlt hq
    rw [hactC q (by omega), hev4 q hq, htmlStep_actionRefStore, textStep_actionRefStore]
  · rw [hactC a (by omega), hev3]
  · rw [← hnxE]
    exact hRC

/-! ## The compile walk: well-formedness, input mutation and callback count -/

mutual
/-- One compile step preserves well-formedness, returns the description
with its children arrays reversed in place, and invokes the callback
`cbWeight` times. -/
theorem cfs_basic (s : Struct) (acts : String → Option Nat) (S : DomState)
    (parent : ParentRef) (hasCb : Bool) (hWF : WFState S) :
    WFState (createFromStructCore acts S s parent hasCb).1 ∧
    (createFromStructCore acts S s parent hasCb).2.1 = structReversed s ∧
    (createFromStructCore acts S s parent hasCb).2.2 = (if hasCb then cbWeight s else 0) := by
  cases s with
  | mk elementF attrF attrNSF datasetF textF htmlF eventF childrenF shadowF =>
    cases elementF with
    | none =>
      rw [createFromStructCore_none]
      refine ⟨hWF, rfl, ?_⟩
      rw [cbWeight_none]
      cases hasCb <;> rfl
    | some t =>
      rw [createFromStructCore_mk]
      by_cases ht : t = ""
      · rw [if_pos ht]
        refine ⟨hWF, ?_, ?_⟩
        · rw [structReversed_some, if_pos ht]
        · rw [cbWeight_some, if_pos ht]
          cases hasCb <;> rfl
      · rw [if_neg ht]
        simp only []
        have hbuild : ∃ S1 el,
            (if lowerStr t = "svg" then
              createSVGElement S (AttachData.mk parent shadowF (BuildData.mk t attrF attrNSF datasetF))
            else
              createHTMLElement S (AttachData.mk parent shadowF (BuildData.mk t attrF attrNSF datasetF))) =
              (S1, some el) ∧ WFState S1 ∧ el < S1.nextId := by
          by_cases hsvg : lowerStr t = "svg"
          · rw [if_pos hsvg]
            obtain ⟨S1, heq, hWF1, hgrow⟩ := createSVGElement_weak S _ hWF
            exact ⟨S1, S.nextId, heq, hWF1, hgrow⟩
          · rw [if_neg hsvg]
            obtain ⟨S1, el, heq, hWF1, _, helb⟩ := createHTMLElement_weak S _ hWF
            exact ⟨S1, el, heq, hWF1, helb⟩
        obtain ⟨S1, el, heq, hWF1, helb⟩ := hbuild
        rw [heq]
        simp only []
        obtain ⟨hWF2, hnx2⟩ := textStep_spec S1 el textF hWF1
        obtain ⟨hWF3, hnx3⟩ := htmlStep_spec (textStep S1 el textF) el htmlF hWF2
        have hWF4 : WFState (createEventElement acts (htmlStep (textStep S1 el textF) el htmlF)
            (Struct.mk (some t) attrF attrNSF datasetF textF htmlF eventF childrenF shadowF) el) :=
          WFState_createEventElement _ _ _ _ hWF3 (by omega)
        obtain ⟨hWF5, hrev, hcnt⟩ := cchildren_basic childrenF acts _ el hasCb hWF4
        refine ⟨hWF5, ?_, ?_⟩
        · rw [hrev, structReversed_some, if_neg ht]
        · rw [hcnt, cbWeight_some, if_neg ht]

theorem cchildren_basic (ch : Children) (acts : String → Option Nat) (S : DomState) (el : Nat)
    (hasCb : Bool) (hWF : WFState S) :
    WFState (createChildren acts S ch el hasCb).1 ∧
    (createChildren acts S ch el hasCb).2.1 = childrenReversed ch ∧
    (createChildren acts S ch el hasCb).2.2 = (if hasCb then cbWeightC ch else 0) := by
  cases ch with
  | absent =>
    rw [createChildren_absent]
    refine ⟨hWF, rfl, ?_⟩
    cases hasCb <;> rfl
  | present items =>
    cases items with
    | nil =>
      rw [createChildren_emptyList]
      refine ⟨hWF, rfl, ?_⟩
      cases hasCb <;> rfl
    | cons c cs =>
      rw [createChildren_cons]
      obtain ⟨hWF1, hrev, hcnt⟩ := clist_basic (StructList.cons c cs) acts S el hasCb hWF
      dsimp only
      refine ⟨hWF1, ?_, ?_⟩
      · rw [hrev]
        rfl
      · rw [hcnt]
        cases hasCb <;> rfl

theorem clist_basic (items : StructList) (acts : String → Option Nat) (S : DomState) (el : Nat)
    (hasCb : Bool) (hWF : WFState S) :
    WFState (createChildrenLoop acts S items el hasCb).1 ∧
    (createChildrenLoop acts S items el hasCb).2.1 = structReversedL items ∧
    (createChildrenLoop acts S items el hasCb).2.2 = (if hasCb then cbWeightL items else 0) := by
  cases items with
  | nil =>
    rw [createChildrenLoop_nil]
    refine ⟨hWF, rfl, ?_⟩
    cases hasCb <;> rfl
  | cons c cs =>
    rw [createChildrenLoop_cons]
    obtain ⟨hWF1, hrev1, hcnt1⟩ := cfs_basic c acts S (ParentRef.node el) hasCb hWF
    obtain ⟨hWF2, hrev2, hcnt2⟩ := clist_basic cs acts
      (createFromStructCore acts S c (ParentRef.node el) hasCb).1 el hasCb hWF1
    dsimp only
    refine ⟨hWF2, ?_, ?_⟩
    · rw [hrev1, hrev2]
      rfl
    · rw [hcnt1, hcnt2]
      cases hasCb <;> rfl
end

/-! ## The compile walk, strong form: tree realization under a live parent -/

mutual
/-- Strong specification of one node's compile under a live parent node
`p`: the state stays well-formed, `allocCount` fresh nodes appear, nothing
else changes (elements away from `p`, event entries below the old
counter), `p` gains exactly the new node at the end of its child list, the
subtree realizes the description, and the attachment node carries exactly
the wired listeners and event-registry entry. -/
theorem cfs_spec (s : Struct) (acts : String → Option Nat) (S : DomState) (p : Nat)
    (hasCb : Bool) (u : Bool) (pd : ElemData) (hWF : WFState S)
    (hp : getElem S p = some pd)
    (hkind : pd.kind = (if u then NodeKind.shadowRoot else NodeKind.element))
    (hvalid : validTree s = true) (hsvg : svgOk s u = true) :
    WFState (createFromStructCore acts S s (ParentRef.node p) hasCb).1 ∧
    (createFromStructCore acts S s (ParentRef.node p) hasCb).1.nextId =
      S.nextId + allocCount s ∧
    (∀ q qd, q ≠ p → getElem S q = some qd →
      getElem (createFromStructCore acts S s (ParentRef.node p) hasCb).1 q = some qd) ∧
    (∀ q, q < S.nextId →
      lookupA (createFromStructCore acts S s (ParentRef.node p) hasCb).1.actionRefStore q =
        lookupA S.actionRefStore q) ∧
    getElem (createFromStructCore acts S s (ParentRef.node p) hasCb).1 p =
      some { pd with children := pd.children ++ [S.nextId] } ∧
    Realizes (createFromStructCore acts S s (ParentRef.node p) hasCb).1 S.nextId s
      S.nextId p ∧
    (∃ adata, getElem (createFromStructCore acts S s (ParentRef.node p) hasCb).1
        (S.nextId + (if shadowEffB s.element s.dataset s.shadow then 1 else 0)) =
        some adata ∧ adata.listeners = evListeners acts s) ∧
    lookupA (createFromStructCore acts S s (ParentRef.node p) hasCb).1.actionRefStore
      (S.nextId + (if shadowEffB s.element s.dataset s.shadow then 1 else 0)) =
      evEntry acts s := by
  cases s with
  | mk elementF attrF attrNSF datasetF textF htmlF eventF childrenF shadowF =>
    cases elementF with
    | none => simp [validTree] at hvalid
    | some t =>
      obtain ⟨ht, hvch⟩ := validTree_parts t attrF attrNSF datasetF textF htmlF eventF
        childrenF shadowF hvalid
      obtain ⟨hsvgTop, hsvgCh⟩ := svgOk_parts (some t) attrF attrNSF datasetF textF htmlF
        eventF childrenF shadowF u hsvg
      have hpn : p < S.nextId := getElem_lt_nextId S p pd hWF hp
      have hentS : ∀ b : Nat, S.nextId ≤ b → lookupA S.actionRefStore b = none := by
        intro b hble
        exact lookupA_none_of_keys _ _
          (fun pr hpr heq2 => absurd (heq2 ▸ hWF.2 pr hpr) (by omega))
      rw [createFromStructCore_mk, if_neg ht]
      dsimp only
      simp only [Struct.element, Struct.dataset, Struct.shadow]
      by_cases hsvgT : lowerStr t = "svg"
      · have hu : u = false := by
          cases u with
          | false => rfl
          | true =>
            rw [isSvgType_true t hsvgT] at hsvgTop
            exact absurd hsvgTop (by decide)
        subst hu
        rw [if_pos hsvgT]
        obtain ⟨S2, A, N, D, heq, hWF2, hnx2, hfr2, hact2, hpar2, helrec⟩ :=
          createSVGElement_strong S (BuildData.mk t attrF attrNSF datasetF) p shadowF pd
            hWF hp hkind
        rw [heq]
        dsimp only
        simp only [shadowEffB_svg t datasetF shadowF hsvgT, Bool.false_eq_true, reduceIte]
        rw [shadowEffB_svg t datasetF shadowF hsvgT] at hsvgCh
        obtain ⟨hWFR, hnxR, hfrR, hactR, hentA, tx, hx, es, hparA, hRC⟩ :=
          compileTail_spec acts S2
            (Struct.mk (some t) attrF attrNSF datasetF textF htmlF eventF childrenF shadowF)
            childrenF S.nextId hasCb false _ textF htmlF hWF2 helrec rfl rfl
            (by rw [hact2]; exact hentS S.nextId (Nat.le_refl _)) (by omega)
            (fun S3 ad h1 h2 h3 =>
              cchildren_spec childrenF acts S3 S.nextId hasCb false ad h1 h2 h3 hvch hsvgCh)
        refine ⟨hWFR, ?_, ?_, ?_, ?_, ?_, ⟨_, hparA, rfl⟩, hentA⟩
        · rw [hnxR, hnx2, allocCount_some, if_neg ht]
          simp only [shadowEffB_svg t datasetF shadowF hsvgT, Bool.false_eq_true, reduceIte]
          omega
        · intro q qd hqp hgq
          have hql : q < S.nextId := getElem_lt_nextId S q qd hWF hgq
          refine hfrR q qd (by omega) ?_
          rw [hfr2 q hqp (by omega)]
          exact hgq
        · intro q hql
          rw [hactR q (by omega) (by omega), hact2]
        · exact hfrR p _ (by omega) hpar2
        · exact ⟨Nat.le_refl _, _, hparA, rfl, rfl, rfl,
            RealizesC_mono childrenF _ S2.nextId S.nextId es S.nextId (by omega) hRC⟩
      · rw [if_neg hsvgT]
        obtain ⟨S2, A, D, heq, hWF2, hnx2, hfr2, hact2, hpar2, helrec, hsrrec⟩ :=
          createHTMLElement_strong S (BuildData.mk t attrF attrNSF datasetF) p shadowF pd
            hWF hp
        dsimp only at hnx2 helrec hsrrec
        rw [heq]
        dsimp only
        simp only [shadowEffB_not_svg t datasetF shadowF hsvgT]
        rw [shadowEffB_not_svg t datasetF shadowF hsvgT] at hsvgCh
        cases hbv : shadowCond datasetF shadowF with
        | false =>
          rw [hbv] at hnx2 helrec hsvgCh
          simp only [Bool.false_eq_true, reduceIte] at hnx2 helrec ⊢
          obtain ⟨hWFR, hnxR, hfrR, hactR, hentA, tx, hx, es, hparA, hRC⟩ :=
            compileTail_spec acts S2
              (Struct.mk (some t) attrF attrNSF datasetF textF htmlF eventF childrenF shadowF)
              childrenF S.nextId hasCb false _ textF htmlF hWF2 helrec rfl rfl
              (by rw [hact2]; exact hentS S.nextId (Nat.le_refl _)) (by omega)
              (fun S3 ad h1 h2 h3 =>
                cchildren_spec childrenF acts S3 S.nextId hasCb false ad h1 h2 h3 hvch hsvgCh)
          refine ⟨hWFR, ?_, ?_, ?_, ?_, ?_, ⟨_, hparA, rfl⟩, hentA⟩
          · rw [hnxR, hnx2, allocCount_some, if_neg ht]
            simp only [shadowEffB_not_svg t datasetF shadowF hsvgT, hbv, Bool.false_eq_true,
              reduceIte]
            omega
          · intro q qd hqp hgq
            have hql : q < S.nextId := getElem_lt_nextId S q qd hWF hgq
            refine hfrR q qd (by omega) ?_
            rw [hfr2 q hqp (by omega) (by omega)]
            exact hgq
          · intro q hql
            rw [hactR q (by omega) (by omega), hact2]
          · exact hfrR p _ (by omega) hpar2
          · exact ⟨Nat.le_refl _, _, hparA, rfl, rfl, rfl,
              RealizesC_mono childrenF _ S2.nextId S.nextId es S.nextId (by omega) hRC⟩
        | true =>
          have hsr := hsrrec hbv
          rw [hbv] at hnx2 helrec hsvgCh
          simp only [reduceIte] at hnx2 helrec
          simp only [reduceIte]
          obtain ⟨hWFR, hnxR, hfrR, hactR, hentA, tx, hx, es, hparA, hRC⟩ :=
            compileTail_spec acts S2
              (Struct.mk (some t) attrF attrNSF datasetF textF htmlF eventF childrenF shadowF)
              childrenF (S.nextId + 1) hasCb true _ textF htmlF hWF2 hsr rfl rfl
              (by rw [hact2]; exact hentS (S.nextId + 1) (by omega)) (by omega)
              (fun S3 ad h1 h2 h3 =>
                cchildren_spec childrenF acts S3 (S.nextId + 1) hasCb true ad h1 h2 h3
                  hvch hsvgCh)
          refine ⟨hWFR, ?_, ?_, ?_, ?_, ?_, ⟨_, hparA, rfl⟩, hentA⟩
          · rw [hnxR, hnx2, allocCount_some, if_neg ht]
            simp only [shadowEffB_not_svg t datasetF shadowF hsvgT, hbv, reduceIte]
            omega
          · intro q qd hqp hgq
            have hql : q < S.nextId := getElem_lt_nextId S q qd hWF hgq
            refine hfrR q qd (by omega) ?_
            rw [hfr2 q hqp (by omega) (by omega)]
            exact hgq
          · intro q hql
            rw [hactR q (by omega) (by omega), hact2]
          · exact hfrR p _ (by omega) hpar2
          · refine ⟨Nat.le_refl _, _, hfrR S.nextId _ (by omega) helrec, rfl, rfl, rfl, ?_⟩
            exact ⟨by omega, _, hparA, rfl,
              RealizesC_mono childrenF _ S2.nextId S.nextId es (S.nextId + 1) (by omega) hRC⟩

theorem cchildren_spec (ch : Children) (acts : String → Option Nat) (S : DomState) (a : Nat)
    (hasCb : Bool) (u : Bool) (ad : ElemData) (hWF : WFState S)
    (ha : getElem S a = some ad)
    (hkind : ad.kind = (if u then NodeKind.shadowRoot else NodeKind.element))
    (hvalid : validChildren ch = true) (hsvg : svgOkC ch u = true) :
    WFState (createChildren acts S ch a hasCb).1 ∧
    (createChildren acts S ch a hasCb).1.nextId = S.nextId + allocCountC ch ∧
    (∀ q qd, q ≠ a → getElem S q = some qd →
      getElem (createChildren acts S ch a hasCb).1 q = some qd) ∧
    (∀ q, q < S.nextId →
      lookupA (createChildren acts S ch a hasCb).1.actionRefStore q =
        lookupA S.actionRefStore q) ∧
    ∃ es, getElem (createChildren acts S ch a hasCb).1 a =
        some { ad with children := ad.children ++ es } ∧
      RealizesC (createChildren acts S ch a hasCb).1 S.nextId ch es a := by
  cases ch with
  | absent =>
    rw [createChildren_absent]
    refine ⟨hWF, rfl, fun q qd hq hg => hg, fun q hq => rfl, [], ?_, rfl⟩
    rw [List.append_nil]
    exact ha
  | present items =>
    cases items with
    | nil =>
      rw [createChildren_emptyList]
      refine ⟨hWF, rfl, fun q qd hq hg => hg, fun q hq => rfl, [], ?_, rfl⟩
      rw [List.append_nil]
      exact ha
    | cons c cs =>
      rw [createChildren_cons]
      dsimp only
      obtain ⟨hWF2, hnx2, hfr2, hact2, es, hpar2, hRL⟩ :=
        clist_spec (StructList.cons c cs) acts S a hasCb u ad hWF ha hkind hvalid hsvg
      exact ⟨hWF2, hnx2, hfr2, hact2, es, hpar2, hRL⟩

theorem clist_spec (items : StructList) (acts : String → Option Nat) (S : DomState) (a : Nat)
    (hasCb : Bool) (u : Bool) (ad : ElemData) (hWF : WFState S)
    (ha : getElem S a = some ad)
    (hkind : ad.kind = (if u then NodeKind.shadowRoot else NodeKind.element))
    (hvalid : validList items = true) (hsvg : svgOkL items u = true) :
    WFState (createChildrenLoop acts S items a hasCb).1 ∧
    (createChildrenLoop acts S items a hasCb).1.nextId = S.nextId + allocCountL items ∧
    (∀ q qd, q ≠ a → getElem S q = some qd →
      getElem (createChildrenLoop acts S items a hasCb).1 q = some qd) ∧
    (∀ q, q < S.nextId →
      lookupA (createChildrenLoop acts S items a hasCb).1.actionRefStore q =
        lookupA S.actionRefStore q) ∧
    ∃ es, getElem (createChildrenLoop acts S items a hasCb).1 a =
        some { ad with children := ad.children ++ es } ∧
      RealizesL (createChildrenLoop acts S items a hasCb).1 S.nextId items es a := by
  cases items with
  | nil =>
    rw [createChildrenLoop_nil]
    refine ⟨hWF, rfl, fun q qd hq hg => hg, fun q hq => rfl, [], ?_, rfl⟩
    rw [List.append_nil]
    exact ha
  | cons c cs =>
    have hv2 := hvalid
    rw [validList_cons, Bool.and_eq_true] at hv2
    have hs2 := hsvg
    rw [svgOkL_cons, Bool.and_eq_true] at hs2
    rw [createChildrenLoop_cons]
    dsimp only
    have han : a < S.nextId := getElem_lt_nextId S a ad hWF ha
    obtain ⟨hWF1, hnx1, hfr1, hact1, hpar1, hRe1, -, -⟩ :=
      cfs_spec c acts S a hasCb u ad hWF ha hkind hv2.1 hs2.1
    obtain ⟨hWF2, hnx2, hfr2, hact2, es2, hpar2, hRL2⟩ :=
      clist_spec cs acts (createFromStructCore acts S c (ParentRef.node a) hasCb).1 a hasCb u
        _ hWF1 hpar1 hkind hv2.2 hs2.2
    refine ⟨hWF2, ?_, ?_, ?_, S.nextId :: es2, ?_, ?_⟩
    · rw [hnx2, hnx1, allocCountL_cons]
      omega
    · intro q qd hq hgq
      exact hfr2 q qd hq (hfr1 q qd hq hgq)
    · intro q hq
      rw [hact2 q (by omega), hact1 q hq]
    · have hl3 : ad.children ++ S.nextId :: es2 = (ad.children ++ [S.nextId]) ++ es2 := by
        rw [List.append_assoc]
        rfl
      rw [hl3]
      exact hpar2
    · exact ⟨Realizes_frame c _ _ S.nextId S.nextId a
        (fun q dd hq hg => hfr2 q dd (by omega) hg) hRe1,
        RealizesL_mono cs _ (createFromStructCore acts S c (ParentRef.node a) hasCb).1.nextId
          S.nextId es2 a (by omega) hRL2⟩
end

/-- C4 counterexample: compiling `shadowSvgS` (a `div` render boundary with
an `svg` child) produces FOUR live nodes for the two description nodes —
div 1, shadow root 2, svg 3 and a detached `"undefined"` element 4 — and
the svg child is not attached under its described parent: its parent is
the orphan element 4, which hangs nowhere, while the shadow root's child
list stays empty. -/
theorem c4_counterexample :
    (getElem shadowSvgFinal 3).map (fun d => (d.tag, d.parent)) = some ("svg", some 4) ∧
    (getElem shadowSvgFinal 4).map (fun d => (d.tag, d.parent)) = some ("undefined", none) ∧
    (getElem shadowSvgFinal 2).map (fun d => (d.kind, d.children)) =
      some (NodeKind.shadowRoot, []) ∧
    shadowSvgFinal.nextId = 5 := by
  decide

/-- C4 (amended): for a valid description — truthy element type on every
node and no svg-routed node under a render boundary — compiled against a
live element parent, compile allocates exactly `allocCount` fresh nodes
(one element per node plus one shadow root per effective boundary),
appends the root element to the described parent, and the result realizes
the description: every node's element hangs under its described parent
with the children in declared order. -/
theorem c4_amended_tree_realization (acts : String → Option Nat) (S : DomState) (s : Struct)
    (p : Nat) (pd : ElemData) (hasCb : Bool) (hWF : WFState S)
    (hp : getElem S p = some pd) (hkind : pd.kind = NodeKind.element)
    (hvalid : validTree s = true) (hsvg : svgOk s false = true) :
    (createFromStruct acts S (CFSData.objData (some s) (some (ParentRef.node p)))
        hasCb).1.nextId = S.nextId + allocCount s ∧
    getElem (createFromStruct acts S (CFSData.objData (some s) (some (ParentRef.node p)))
        hasCb).1 p = some { pd with children := pd.children ++ [S.nextId] } ∧
    Realizes (createFromStruct acts S (CFSData.objData (some s) (some (ParentRef.node p)))
        hasCb).1 S.nextId s S.nextId p := by
  obtain ⟨-, h2, -, -, h5, h6, -, -⟩ :=
    cfs_spec s acts S p hasCb false pd hWF hp hkind hvalid hsvg
  exact ⟨h2, h5, h6⟩

theorem c4_amended_tree_realization_witness :
    (WFState initState ∧ getElem initState 0 = some (freshElem false "body") ∧
      (freshElem false "body").kind = NodeKind.element ∧ validTree svgCircleS = true ∧
      svgOk svgCircleS false = true) ∧
    ((createFromStruct (fun _ => none) initState
        (CFSData.objData (some svgCircleS) (some (ParentRef.node 0))) false).1.nextId =
      initState.nextId + allocCount svgCircleS ∧
      getElem (createFromStruct (fun _ => none) initState
        (CFSData.objData (some svgCircleS) (some (ParentRef.node 0))) false).1 0 =
        some { freshElem false "body" with children := (freshElem false "body").children ++ [initState.nextId] } ∧
      Realizes (createFromStruct (fun _ => none) initState
        (CFSData.objData (some svgCircleS) (some (ParentRef.node 0))) false).1
        initState.nextId svgCircleS initState.nextId 0) :=
  ⟨⟨by decide, by decide, by decide, by decide, by decide⟩,
    c4_amended_tree_realization (fun _ => none) initState svgCircleS 0
      (freshElem false "body") false (by decide) (by decide) (by decide) (by decide)
      (by decide)⟩

/-- C8: when a node's event names an action that does not resolve in the
external action registry, the element is still built and attached under
its parent, no listener is attached to the attachment node, and no
event-registry entry is created for it; the compile call raises nothing
(the model is total). -/
theorem c8_unresolved_action_safe (acts : String → Option Nat) (S : DomState) (s : Struct)
    (p : Nat) (pd : ElemData) (hasCb : Bool) (ev : EventDesc) (aname : String)
    (hWF : WFState S) (hp : getElem S p = some pd) (hkind : pd.kind = NodeKind.element)
    (hvalid : validTree s = true) (hsvg : svgOk s false = true)
    (hev : s.event = some ev) (hact : ev.action = some aname) (hres : acts aname = none) :
    getElem (createFromStruct acts S (CFSData.objData (some s) (some (ParentRef.node p)))
        hasCb).1 p = some { pd with children := pd.children ++ [S.nextId] } ∧
    (∃ adata, getElem (createFromStruct acts S
        (CFSData.objData (some s) (some (ParentRef.node p))) hasCb).1
        (S.nextId + (if shadowEffB s.element s.dataset s.shadow then 1 else 0)) =
        some adata ∧ adata.listeners = []) ∧
    lookupA (createFromStruct acts S (CFSData.objData (some s) (some (ParentRef.node p)))
        hasCb).1.actionRefStore
      (S.nextId + (if shadowEffB s.element s.dataset s.shadow then 1 else 0)) = none := by
  have hsch : evSchemas acts s = [] := by
    unfold evSchemas
    rw [hev]
    cases ev with
    | mk tyF aF nF =>
      have hact2 : aF = some aname := hact
      subst hact2
      cases tyF with
      | none => rfl
      | some ty =>
        dsimp only
        by_cases hg : aname ≠ "" ∧ ty ≠ ""
        · rw [if_pos hg, hres]
        · rw [if_neg hg]
  have hlist : evListeners acts s = [] := by
    unfold evListeners
    rw [hsch]
    rfl
  have hent : evEntry acts s = none := by
    unfold evEntry
    rw [hsch]
  obtain ⟨-, -, -, -, h5, -, h7, h8⟩ :=
    cfs_spec s acts S p hasCb false pd hWF hp hkind hvalid hsvg
  refine ⟨h5, ?_, h8.trans hent⟩
  obtain ⟨adata, hg2, hl⟩ := h7
  exact ⟨adata, hg2, hl.trans hlist⟩

theorem c8_unresolved_action_safe_witness :
    (WFState initState ∧ getElem initState 0 = some (freshElem false "body") ∧
      (freshElem false "body").kind = NodeKind.element ∧ validTree unresolvedEvS = true ∧
      svgOk unresolvedEvS false = true ∧
      unresolvedEvS.event = some (EventDesc.mk (some "mousedown") (some "doesNotExist") none) ∧
      (EventDesc.mk (some "mousedown") (some "doesNotExist") none).action =
        some "doesNotExist" ∧
      (fun (_ : String) => (none : Option Nat)) "doesNotExist" = none) ∧
    (getElem (createFromStruct (fun _ => none) initState
        (CFSData.objData (some unresolvedEvS) (some (ParentRef.node 0))) false).1 0 =
      some { freshElem false "body" with children := (freshElem false "body").children ++ [initState.nextId] } ∧
      (∃ adata, getElem (createFromStruct (fun _ => none) initState
          (CFSData.objData (some unresolvedEvS) (some (ParentRef.node 0))) false).1
          (initState.nextId + (if shadowEffB unresolvedEvS.element unresolvedEvS.dataset
            unresolvedEvS.shadow then 1 else 0)) = some adata ∧ adata.listeners = []) ∧
      lookupA (createFromStruct (fun _ => none) initState
          (CFSData.objData (some unresolvedEvS) (some (ParentRef.node 0))) false).1.actionRefStore
        (initState.nextId + (if shadowEffB unresolvedEvS.element unresolvedEvS.dataset
          unresolvedEvS.shadow then 1 else 0)) = none) :=
  ⟨⟨by decide, by decide, by decide, by decide, by decide, by decide, by decide, by decide⟩,
    c8_unresolved_action_safe (fun _ => none) initState unresolvedEvS 0
      (freshElem false "body") false
      (EventDesc.mk (some "mousedown") (some "doesNotExist") none) "doesNotExist"
      (by decide) (by decide) (by decide) (by decide) (by decide) (by decide) (by decide)
      (by decide)⟩

/-- C1 (amended): with a callback supplied, a top-level compile invokes it
`cbWeight` times — once per processed node whose `children` property is
absent or a non-empty array, the callback being passed down into every
recursive child compile — so exactly once when the description carries no
children and more than once whenever children are present. -/
theorem c1_amended_callback_count (acts : String → Option Nat) (S : DomState)
    (struct : Struct) (oparent : Option ParentRef) (hWF : WFState S) :
    (createFromStruct acts S (CFSData.objData (some struct) oparent) true).2.2 =
      cbWeight struct := by
  show (createFromStructCore acts S struct (oparent.getD (ParentRef.node bodyId)) true).2.2 =
    cbWeight struct
  exact ((cfs_basic struct acts S (oparent.getD (ParentRef.node bodyId)) true hWF).2.2).trans rfl

theorem c1_amended_callback_count_witness :
    WFState initState ∧
    (createFromStruct (fun _ => none) initState (CFSData.objData (some oneChildS) none)
      true).2.2 = cbWeight oneChildS :=
  ⟨by decide, c1_amended_callback_count (fun _ => none) initState oneChildS none (by decide)⟩

/-- C2 (amended): the description is not immutable — compile hands back the
input with every processed node's `children` array reversed in place
(recursively), all other fields unchanged. -/
theorem c2_amended_children_reversed (acts : String → Option Nat) (S : DomState)
    (struct : Struct) (oparent : Option ParentRef) (hasCb : Bool) (hWF : WFState S) :
    (createFromStruct acts S (CFSData.objData (some struct) oparent) hasCb).2.1 =
      some (structReversed struct) := by
  show some (createFromStructCore acts S struct (oparent.getD (ParentRef.node bodyId))
      hasCb).2.1 = some (structReversed struct)
  exact congrArg some
    (cfs_basic struct acts S (oparent.getD (ParentRef.node bodyId)) hasCb hWF).2.1

theorem c2_amended_children_reversed_witness :
    WFState initState ∧
    (createFromStruct (fun _ => none) initState (CFSData.objData (some twoChildS) none)
      false).2.1 = some (structReversed twoChildS) :=
  ⟨by decide,
    c2_amended_children_reversed (fun _ => none) initState twoChildS none false (by decide)⟩

/-! ## Claim theorems: registry lookups and input guards -/

/-- The element view [[getElement]] is the raw read [[getElementRead]]
restricted to its element outcomes: it answers `some e` exactly on the
`StoreRead.elem` reads and `none` on every non-element outcome
(`undefined`, an inherited `Object.prototype` member, or a host property
of an element installed as the prototype). -/
theorem getElement_eq_read (S : DomState) (key : String) :
    getElement S key =
      (match getElementRead S key with
       | StoreRead.elem e => some e
       | _ => none) := by
  unfold getElement getElementRead readStore
  by_cases hk : key ≠ ""
  · rw [if_pos hk, if_pos hk]
    cases lookupA S.elementRefStore key with
    | some e => rfl
    | none =>
      dsimp only
      by_cases hp : key = "__proto__"
      · rw [if_pos hp]
      · rw [if_neg hp]
        cases lookupA S.elementRefStore "__proto__" with
        | some x => rfl
        | none =>
          by_cases hm : protoMembers.contains key = true
          · simp only [if_pos hm]
          · simp only [Bool.not_eq_true] at hm
            simp only [hm, Bool.false_eq_true, if_false]
  · rw [if_neg hk, if_neg hk]

/-- C9 counterexample: on the fresh registry, `get("toString")` does not
return `undefined` — the key is absent from the store's own entries, but
the raw object read walks the prototype chain and hands back the
inherited `Object.prototype.toString`, a truthy function. -/
theorem c9_counterexample :
    lookupA initState.elementRefStore "toString" = none ∧
    getElementRead initState "toString" = StoreRead.inherited ∧
    ¬ getElementRead initState "toString" = StoreRead.undef := by
  decide

/-- C9 amended: `ElementRegistry.get(key)` returns `undefined` when the
key is falsy (the empty string), or when it is absent from the store's
own entries, is not the name of an `Object.prototype` member (including
`"__proto__"` itself), and no element has been installed as the store's
prototype via an earlier `add` at key `"__proto__"`. For an absent key
that *is* such a member name, the raw read resolves against the prototype
chain and returns the inherited function instead. -/
theorem c9_amended_get_falsy_or_absent (S : DomState) (key : String)
    (h : key = "" ∨
      (lookupA S.elementRefStore key = none ∧ protoMembers.contains key = false ∧
        lookupA S.elementRefStore "__proto__" = none)) :
    getElementRead S key = StoreRead.undef := by
  rcases h with h | ⟨h1, h2, h3⟩
  · unfold getElementRead
    rw [if_neg (fun hc => hc h)]
  · by_cases hk : key = ""
    · unfold getElementRead
      rw [if_neg (fun hc => hc hk)]
    · have hp : key ≠ "__proto__" := by
        intro hc
        rw [hc] at h2
        exact absurd h2 (by decide)
      unfold getElementRead readStore
      rw [if_pos hk, h1]
      dsimp only
      rw [if_neg hp, h3]
      dsimp only
      simp only [h2, Bool.false_eq_true, if_false]

/-- Witness for C9 at a concrete state and key. -/
theorem c9_amended_get_falsy_or_absent_witness :
    ("missing" = "" ∨
      (lookupA initState.elementRefStore "missing" = none ∧
        protoMembers.contains "missing" = false ∧
        lookupA initState.elementRefStore "__proto__" = none)) ∧
    getElementRead initState "missing" = StoreRead.undef :=
  ⟨Or.inr ⟨by decide, by decide, by decide⟩,
    c9_amended_get_falsy_or_absent initState "missing"
      (Or.inr ⟨by decide, by decide, by decide⟩)⟩

/-- C10: calling `createFromStruct` with an argument whose `typeof` is not
`"object"` returns `undefined` and performs no mutation at all: the final
state (render tree, ElementRegistry and EventRegistry alike) is the input
state. -/
theorem c10_non_object_noop (acts : String → Option Nat) (S : DomState) (hasCb : Bool) :
    createFromStruct acts S CFSData.notObject hasCb = (S, none, 0) := rfl

/-! ## Claim theorems: callback count and input mutation (counterexamples) -/

/-- C1 counterexample: for the valid description
`{element: "div", children: [{element: "span"}]}` with a callback supplied,
the callback is invoked twice (once by the leaf child's compile, once by
the top-level call), not exactly once. -/
theorem c1_counterexample :
    ¬ (createFromStruct (fun _ => none) initState
        (CFSData.objData (some oneChildS) none) true).2.2 = 1 := by
  decide

/-- C2 counterexample: compiling
`{element: "div", children: [{element: "span"}, {element: "p"}]}` leaves
the description mutated — the children array comes back reversed — so the
input is not immutable. -/
theorem c2_counterexample : ¬ twoChildRes = some twoChildS := by
  intro h
  have h1 : twoChildRes.map childTags = some [some "p", some "span"] := by decide
  rw [h] at h1
  have h2 : (some twoChildS).map childTags = some [some "span", some "p"] := by decide
  rw [h1] at h2
  exact absurd h2 (by decide)

/-! ## Claim theorems: svg routing (C3) -/

/-- C3 counterexample: for `{element:"svg", attr:{viewBox:"0 0 10 10"},
children:[{element:"circle"}]}`, it is not the case that both nodes are
produced in the SVG namespace with the plain `setAttribute` path unused:
the `circle` child is routed to `createHTMLElement` (HTML namespace), and
the svg's `viewBox` is applied through plain `setAttribute`. -/
theorem c3_counterexample :
    ¬ ((getElem svgCircleFinal 2).map (fun d => (d.tag, d.svgNS)) = some ("circle", true) ∧
       (getElem svgCircleFinal 1).map ElemData.attrs = some []) := by
  decide

/-- C3 amended: the svg root is created in the SVG namespace with
`viewBox` applied via the plain `setAttribute` path, while the `circle`
child is routed to the standard path (`document.createElement`, HTML
namespace) and attached under the svg element. -/
theorem c3_amended_routing :
    (getElem svgCircleFinal 1).map (fun d => (d.tag, d.svgNS)) = some ("svg", true) ∧
    (getElem svgCircleFinal 1).map ElemData.attrs = some [("viewBox", "0 0 10 10")] ∧
    (getElem svgCircleFinal 1).map (fun d => (d.children, d.parent)) = some ([2], some bodyId) ∧
    (getElem svgCircleFinal 2).map (fun d => (d.tag, d.svgNS)) = some ("circle", false) ∧
    (getElem svgCircleFinal 2).map (fun d => (d.attrs, d.parent)) = some ([], some 1) :=
  ⟨by decide, by decide, by decide, by decide, by decide⟩

end SimplyBuilder
